import Mathlib

/-!
# trezor-core: the Monero crypto bindings (`modtrezorcrypto-monero.h`)

A shallow embedding of the MicroPython binding layer of
`embed/extmod/modtrezorcrypto/modtrezorcrypto-monero.h`.

* MicroPython objects are values of `Obj`; mutable objects (scalars, points,
  bytearrays, tuples) live in a heap and are referred to by address.
* A binding is a function from its argument vector to a computation in `M`,
  which threads the interpreter state and may raise an exception.  The state
  survives a raise, so what a failed call left behind can be inspected.
* The primitives of the crypto library that the header only calls
  (`expand256_modm`, `ge25519_unpack_vartime`, ...) are either parameters
  (collected in `Env`) or modelled from the specification.
-/

namespace TrezorCore

/-! ## Data model -/

/-- A byte of a buffer. -/
abbrev Byte := Fin 256

/-- The value of an `mp_obj_t`: immediates, immutable integers and byte strings,
and pointers to heap objects. -/
inductive Obj where
  | null
  | none
  | bool (b : Bool)
  | smallInt (v : Int)
  | int (v : Int)
  | bytes (d : List Byte)
  | ref (a : Nat)
  deriving DecidableEq, Repr

/-- Heap objects: the mutable objects of the module and tuples.  A hasher
object holds the state of its `Hasher`, represented by the bytes absorbed so
far. -/
inductive Cell (Pt : Type) where
  | bytearray (d : List Byte)
  | scalar (p : Nat)
  | ge25519 (p : Pt)
  | tuple (items : List Obj)
  | hasher (h : List Byte)

/-- Exceptions raised through `nlr_raise`, and the halt of the firmware in
`ensure` (`fatal_error`), which ends the call as well. -/
inductive Exc where
  | TypeError (msg : String)
  | ValueError (msg : String)
  | OverflowError (msg : String)
  | fatal_error (msg : String)
  deriving DecidableEq, Repr

/-- Calls into the crypto library that are recorded, with the arguments passed. -/
inductive Call where
  | expand256_modm (inp : List Byte) (len : Nat)
  | ge25519_unpack_vartime (inp : List Byte)
  | xmr_base58_addr_encode_check (tag : Nat) (data : List Byte) (b58sz : Nat)
  | xmr_base58_addr_decode_check (addr : List Byte) (datalen : Nat)
  | xmr_gen_range_sig (amount : Nat) (last_mask : Option Nat)
  | xmr_gen_range_sig_ex (amount : Nat) (last_mask : Option Nat) (ai alpha : List Byte)
  | ed25519_verify (x y : List Byte) (len : Nat)
  | HAL_UART_Receive (len : Nat) (timeout : Nat)
  deriving DecidableEq, Repr

/-- Interpreter state: the heap, the log of recorded library calls, and the
state of the secure random source. -/
structure State (Pt : Type) where
  heap : List (Cell Pt)
  calls : List Call
  rng : Nat

/-- What `xmr_gen_range_sig` leaves in its output parameters. -/
structure RangeSigOut (Pt : Type) where
  rsig : List Byte
  C : Pt
  mask : Nat
  rng : Nat

/-- What `xmr_gen_range_sig_ex` leaves in its output parameters and in the two
scratch buffers. -/
structure RangeSigExOut (Pt : Type) where
  rsig : List Byte
  C : Pt
  mask : Nat
  ai : List Byte
  alpha : List Byte
  rng : Nat

/-- Build parameters and the library primitives that are taken as parameters:
they are declared in headers outside the sources. -/
structure Env (Pt : Type) where
  /-- Width in bits of `mp_int_t`. -/
  mp_int_bits : Nat
  /-- Value of `sizeof(bignum256modm)`. -/
  sizeof_bignum256modm : Nat
  /-- Value of `sizeof(xmr_range_sig_t)`. -/
  sizeof_xmr_range_sig_t : Nat
  /-- Content of a `ge25519` just allocated by `m_new_obj`, before it is initialised. -/
  ge25519_uninit : Pt
  /-- The basepoint of the curve. -/
  basepoint : Pt
  /-- The Monero amount generator `xmr_h`. -/
  xmr_h : Pt
  /-- Point decoder `ge25519_unpack_vartime(r, s)`: from the previous content of
  `*r` and the 32 input bytes, its return value and what it leaves in `*r`. -/
  ge25519_unpack_vartime : Pt → List Byte → Int × Pt
  /-- What `ge25519_add` leaves in `*r` for a sign bit other than 0 and 1, which
  is outside its contract. -/
  ge25519_add_other : Pt → Pt → Nat → Pt
  /-- Point encoder `ge25519_pack`. -/
  ge25519_pack : Pt → List Byte
  ge25519_pack_length : ∀ p, (ge25519_pack p).length = 32
  /-- The 32-byte hash `xmr_fast_hash`. -/
  xmr_fast_hash : List Byte → List Byte
  xmr_fast_hash_length : ∀ d, (xmr_fast_hash d).length = 32
  /-- Range proof generator drawing its own randomness. -/
  xmr_gen_range_sig : Nat → Nat → Option Nat → RangeSigOut Pt
  xmr_gen_range_sig_length : ∀ r a m, (xmr_gen_range_sig r a m).rsig.length = sizeof_xmr_range_sig_t
  /-- Range proof generator working in two caller-supplied scratch buffers. -/
  xmr_gen_range_sig_ex : Nat → Nat → Option Nat → List Byte → List Byte → RangeSigExOut Pt
  xmr_gen_range_sig_ex_length : ∀ r a m x y,
    (xmr_gen_range_sig_ex r a m x y).rsig.length = sizeof_xmr_range_sig_t
  xmr_gen_range_sig_ex_ai_length : ∀ r a m x y,
    (xmr_gen_range_sig_ex r a m x y).ai.length = sizeof_bignum256modm * 64
  xmr_gen_range_sig_ex_alpha_length : ∀ r a m x y,
    (xmr_gen_range_sig_ex r a m x y).alpha.length = sizeof_bignum256modm * 64

/-! ## The computation monad -/

/-- A computation over the interpreter state that returns or raises. -/
def M (Pt : Type) (α : Type) : Type := State Pt → Except Exc α × State Pt

/-- Run a computation from a state. -/
def M.run {Pt α : Type} (m : M Pt α) (s : State Pt) : Except Exc α × State Pt := m s

/-- Return a value. -/
def M.pure {Pt α : Type} (a : α) : M Pt α := fun s => (.ok a, s)

/-- Sequence two computations; a raise in the first skips the second. -/
def M.bind {Pt α β : Type} (m : M Pt α) (f : α → M Pt β) : M Pt β := fun s =>
  match m s with
  | (.ok a, s1) => f a s1
  | (.error e, s1) => (.error e, s1)

instance {Pt : Type} : Monad (M Pt) where
  pure := M.pure
  bind := M.bind

variable {Pt : Type}

/-- Raise an exception. -/
def mp_raise {α : Type} (e : Exc) : M Pt α := fun s => (.error e, s)

/-- Read the interpreter state. -/
def getState : M Pt (State Pt) := fun s => (.ok s, s)

/-- Allocate a fresh heap object (`m_new_obj`) and return the pointer to it. -/
def alloc (c : Cell Pt) : M Pt Obj := fun s =>
  (.ok (.ref s.heap.length), { s with heap := s.heap ++ [c] })

/-- Overwrite the heap object at an address. -/
def store (a : Nat) (c : Cell Pt) : M Pt Unit := fun s =>
  (.ok (), { s with heap := s.heap.set a c })

/-- Record a library call. -/
def logCall (c : Call) : M Pt Unit := fun s =>
  (.ok (), { s with calls := s.calls ++ [c] })

/-- The heap object an `mp_obj_t` points to, if it is a pointer into the heap. -/
def deref (s : State Pt) (o : Obj) : Option (Cell Pt) :=
  match o with
  | .ref a => s.heap[a]?
  | _ => Option.none

/-- Element `i` of the argument vector (`args[i]`). -/
def argAt (args : List Obj) (i : Int) : Obj := args.getD i.toNat Obj.null


/-! ## MicroPython runtime: the part of its interface the bindings use

The runtime is a collaborator outside the sources; these definitions follow
its interface contract (`py/obj.h`, `py/obj.c`, `py/objint_mpz.c`). -/

/-- The macro `MP_OBJ_IS_SMALL_INT`. -/
def MP_OBJ_IS_SMALL_INT (o : Obj) : Bool :=
  match o with
  | .smallInt _ => true
  | _ => false

/-- The macro `MP_OBJ_SMALL_INT_VALUE`: the `mp_int_t` held by a small int. -/
def MP_OBJ_SMALL_INT_VALUE (o : Obj) : Int :=
  match o with
  | .smallInt v => v
  | _ => 0

/-- The test `MP_OBJ_IS_TYPE(o, &mp_type_int)`: a heap-allocated (mpz) integer. -/
def MP_OBJ_IS_TYPE_int (o : Obj) : Bool :=
  match o with
  | .int _ => true
  | _ => false

/-- Runtime `mp_obj_is_integer`: small ints, mpz ints and bools. -/
def mp_obj_is_integer (o : Obj) : Bool :=
  match o with
  | .smallInt _ => true
  | .int _ => true
  | .bool _ => true
  | _ => false

/-- The macro `MP_OBJ_IS_STR_OR_BYTES`. -/
def MP_OBJ_IS_STR_OR_BYTES (o : Obj) : Bool :=
  match o with
  | .bytes _ => true
  | _ => false

/-- Conversion of a C integer to `uint64_t`. -/
def to_uint64 (v : Int) : Nat := (v % 2 ^ 64).toNat

/-- Conversion of a C integer to `unsigned char`. -/
def to_uint8 (v : Int) : Nat := (v % 2 ^ 8).toNat

/-- Whether an integer is representable in `mp_int_t`. -/
def fits_mp_int (E : Env Pt) (v : Int) : Bool :=
  decide (-(2 : Int) ^ (E.mp_int_bits - 1) ≤ v) && decide (v < (2 : Int) ^ (E.mp_int_bits - 1))

/-- Runtime `mp_obj_int_get_checked` on an mpz integer: the value if it fits
`mp_int_t`, else `OverflowError`. -/
def mp_obj_int_get_checked (E : Env Pt) (v : Int) : M Pt Int :=
  if fits_mp_int E v then pure v
  else mp_raise (.OverflowError "overflow converting long int to machine word")

/-- Runtime `mp_obj_get_int`. -/
def mp_obj_get_int (E : Env Pt) (arg : Obj) : M Pt Int :=
  match arg with
  | .bool false => pure 0
  | .bool true => pure 1
  | .smallInt v => pure v
  | .int v => mp_obj_int_get_checked E v
  | _ => mp_raise (.TypeError "can not convert to int")

/-- Runtime `mp_obj_int_to_bytes_impl` on an mpz integer: the `len` low-order
bytes of the two-complement representation, most significant first when
`big_endian`. -/
def mp_obj_int_to_bytes_impl (v : Int) (big_endian : Bool) (len : Nat) : List Byte :=
  let le : List Byte := (List.range len).map
    (fun i => ⟨((v / 256 ^ i) % 256).toNat % 256, Nat.mod_lt _ (by decide)⟩)
  if big_endian then le.reverse else le

/-- Buffer access mode of `mp_get_buffer_raise`. -/
inductive BufferFlags where
  | MP_BUFFER_READ
  | MP_BUFFER_WRITE
  deriving DecidableEq, Repr

/-- The structure `mp_buffer_info_t`: the backing bytearray (none for an
immutable byte string) and the bytes of the buffer. -/
structure mp_buffer_info_t where
  buf : Option Nat
  data : List Byte

/-- Field `len` of `mp_buffer_info_t`. -/
def mp_buffer_info_t.len (b : mp_buffer_info_t) : Nat := b.data.length

/-- Runtime `mp_get_buffer_raise`: byte strings are readable buffers,
bytearrays are readable and writable, anything else raises `TypeError`. -/
def mp_get_buffer_raise (o : Obj) (flags : BufferFlags) : M Pt mp_buffer_info_t := fun s =>
  match o with
  | .bytes d =>
    if flags = .MP_BUFFER_READ then (.ok ⟨Option.none, d⟩, s)
    else (.error (.TypeError "object with buffer protocol required"), s)
  | .ref a =>
    match s.heap[a]? with
    | some (.bytearray d) => (.ok ⟨some a, d⟩, s)
    | _ => (.error (.TypeError "object with buffer protocol required"), s)
  | _ => (.error (.TypeError "object with buffer protocol required"), s)

/-- Runtime `mp_arg_check_num`. -/
def mp_arg_check_num (n_args n_kw n_args_min n_args_max : Nat) (takes_kw : Bool) : M Pt Unit :=
  if !takes_kw && decide (0 < n_kw) then
    mp_raise (.TypeError "function does not take keyword arguments")
  else if decide (n_args < n_args_min) || decide (n_args_max < n_args) then
    mp_raise (.TypeError "function takes a different number of positional arguments")
  else pure ()

/-- The arity check of a function object made by
`MP_DEFINE_CONST_FUN_OBJ_VAR_BETWEEN(obj, n_args_min, n_args_max, fun)`. -/
def MP_DEFINE_CONST_FUN_OBJ_VAR_BETWEEN (n_args_min n_args_max : Nat)
    (f : List Obj → M Pt Obj) (args : List Obj) : M Pt Obj :=
  if decide (args.length < n_args_min) || decide (n_args_max < args.length) then
    mp_raise (.TypeError "function takes a different number of positional arguments")
  else f args

/-- The arity check of a function object made by `MP_DEFINE_CONST_FUN_OBJ_1`. -/
def MP_DEFINE_CONST_FUN_OBJ_1 (f : Obj → M Pt Obj) (args : List Obj) : M Pt Obj :=
  match args with
  | [a] => f a
  | _ => mp_raise (.TypeError "function takes 1 positional argument")

/-! ## Scalars modulo the group order -/

/-- Modelled from the spec: the group order ℓ of the Ed25519 base point, the
modulus of all scalar arithmetic (the constant of the missing
`modm-donna` implementation). -/
def ell : Nat := 2 ^ 252 + 27742317777372353535851937790883648493

/-- Little-endian integer held in a byte string. -/
def fromLE : List Byte → Nat
  | [] => 0
  | b :: bs => b.val + 256 * fromLE bs

/-- The `n` low-order bytes of an integer, least significant first. -/
def toLE : Nat → Nat → List Byte
  | 0, _ => []
  | n + 1, v => ⟨v % 256, Nat.mod_lt _ (by decide)⟩ :: toLE n (v / 256)

/-- Modelled from the spec: `set256_modm(r, v)` of the missing scalar engine,
constant construction from a `uint64_t`. -/
def set256_modm (v : Nat) : Nat := v

/-- Modelled from the spec: `copy256_modm(r, x)` of the missing scalar engine. -/
def copy256_modm (x : Nat) : Nat := x

/-- Modelled from the spec: `expand256_modm(r, in, len)` of the missing scalar
engine, "construction from a byte string of length 32–64 (interpreted as a
little-endian integer and reduced modulo ℓ)". -/
def expand256_modm (inp : List Byte) (len : Nat) : Nat := fromLE (inp.take len) % ell

/-- Modelled from the spec: `contract256_modm(out, x)` of the missing scalar
engine, the "canonical 32-byte little-endian pack". -/
def contract256_modm (x : Nat) : List Byte := toLE 32 x

/-- Modelled from the spec: `mulsub256_modm` of the missing scalar engine, the
"fused multiply-subtract (`r = c − a·b mod ℓ`)".  After the output the operands
come in the order of the spec's `mulsub(c,a,b) == c − a*b mod ℓ`: the minuend
`c`, then the factors `a` and `b`. -/
def mulsub256_modm (c a b : Nat) : Nat := (((c : Int) - (a : Int) * (b : Int)) % (ell : Int)).toNat

/-! ## Helpers of the binding (`modtrezorcrypto-monero.h`, "Helpers") -/

/-- The macro `MP_OBJ_IS_SCALAR`. -/
def MP_OBJ_IS_SCALAR (s : State Pt) (o : Obj) : Bool :=
  match deref s o with
  | some (.scalar _) => true
  | _ => false

/-- The macro `MP_OBJ_IS_GE25519`. -/
def MP_OBJ_IS_GE25519 (s : State Pt) (o : Obj) : Bool :=
  match deref s o with
  | some (.ge25519 _) => true
  | _ => false

/-- The macro `MP_OBJ_C_SCALAR`: the scalar held by a scalar object. -/
def MP_OBJ_C_SCALAR (s : State Pt) (o : Obj) : Nat :=
  match deref s o with
  | some (.scalar p) => p
  | _ => 0

/-- Assignment through `MP_OBJ_SCALAR(o)`: write the scalar held by an object. -/
def set_MP_OBJ_SCALAR (o : Obj) (p : Nat) : M Pt Unit :=
  match o with
  | .ref a => store a (.scalar p)
  | _ => pure ()

/-- Assignment through `MP_OBJ_GE25519(o)`: write the point held by an object. -/
def set_MP_OBJ_GE25519 (o : Obj) (p : Pt) : M Pt Unit :=
  match o with
  | .ref a => store a (.ge25519 p)
  | _ => pure ()

/-- The loop of `mp_obj_uint64_get_checked` over `buff[i..8)`. -/
def mp_obj_uint64_get_checked_loop (buff : List Byte) (res : Nat) : Nat :=
  match buff with
  | [] => res
  | b :: rest => mp_obj_uint64_get_checked_loop rest (((res <<< 8) % 2 ^ 64) ||| (b.val &&& 0xff))

/-- The helper `mp_obj_uint64_get_checked`. -/
def mp_obj_uint64_get_checked (self_in : Obj) : Nat :=
  if MP_OBJ_IS_SMALL_INT self_in then
    to_uint64 (MP_OBJ_SMALL_INT_VALUE self_in)
  else
    match self_in with
    | .int v =>
      match mp_obj_int_to_bytes_impl v true 8 with
      | [] => 0
      | b :: rest => mp_obj_uint64_get_checked_loop rest (0 ||| (b.val &&& 0xff))
    | _ => 0

/-- The helper `mp_obj_get_uint64`. -/
def mp_obj_get_uint64 (arg : Obj) : M Pt Nat :=
  if arg = .bool false then pure 0
  else if arg = .bool true then pure 1
  else if MP_OBJ_IS_SMALL_INT arg then pure (to_uint64 (MP_OBJ_SMALL_INT_VALUE arg))
  else if MP_OBJ_IS_TYPE_int arg then pure (mp_obj_uint64_get_checked arg)
  else mp_raise (.TypeError "can not convert to int")

/-- The helper `mp_obj_new_scalar`. -/
def mp_obj_new_scalar : M Pt Obj := alloc (.scalar (set256_modm 0))

/-- The helper `mp_obj_from_scalar`. -/
def mp_obj_from_scalar (inp : Nat) : M Pt Obj := alloc (.scalar inp)

/-- The helper `mp_unpack_scalar`, writing into the scalar object `r`. -/
def mp_unpack_scalar (r : Obj) (arg : Obj) : M Pt Unit := do
  let buff ← mp_get_buffer_raise arg .MP_BUFFER_READ
  if decide (buff.len < 32) || decide (buff.len > 64) then
    mp_raise (.ValueError "Invalid length of secret key")
  else
    logCall (.expand256_modm buff.data buff.len)
    set_MP_OBJ_SCALAR r (expand256_modm buff.data buff.len)

/-- The helper `assert_scalar`. -/
def assert_scalar (o : Obj) : M Pt Unit := do
  let s ← getState
  if !MP_OBJ_IS_SCALAR s o then
    mp_raise (.ValueError "scalar expected")
  else pure ()

/-! ## Constructors and scalar functions of the binding -/

/-- The constructor `bignum256modm(...)`. -/
def mod_trezorcrypto_monero_bignum256modm_make_new (n_kw : Nat) (args : List Obj) : M Pt Obj := do
  let n_args := args.length
  mp_arg_check_num n_args n_kw 0 1 false
  let o ← alloc (.scalar 0)
  let s ← getState
  if n_args == 0 then
    set_MP_OBJ_SCALAR o (set256_modm 0)
  else if n_args == 1 && MP_OBJ_IS_SCALAR s (argAt args 0) then
    set_MP_OBJ_SCALAR o (copy256_modm (MP_OBJ_C_SCALAR s (argAt args 0)))
  else if n_args == 1 && MP_OBJ_IS_STR_OR_BYTES (argAt args 0) then
    mp_unpack_scalar o (argAt args 0)
  else if n_args == 1 && mp_obj_is_integer (argAt args 0) then
    let v ← mp_obj_get_uint64 (argAt args 0)
    set_MP_OBJ_SCALAR o (set256_modm v)
  else
    mp_raise (.ValueError "Invalid scalar constructor")
  pure o

/-- The function `init256_modm`. -/
def mod_trezorcrypto_monero_init256_modm (args : List Obj) : M Pt Obj := do
  let n_args := args.length
  let res ← if n_args == 2 then pure (argAt args 0) else mp_obj_new_scalar
  let off : Int := if n_args == 2 then 0 else -1
  assert_scalar res
  let s ← getState
  if n_args == 0 then
    set_MP_OBJ_SCALAR res (set256_modm 0)
  else if decide (n_args > 0) && MP_OBJ_IS_SCALAR s (argAt args (1 + off)) then
    set_MP_OBJ_SCALAR res (copy256_modm (MP_OBJ_C_SCALAR s (argAt args (1 + off))))
  else if decide (n_args > 0) && MP_OBJ_IS_STR_OR_BYTES (argAt args (1 + off)) then
    mp_unpack_scalar res (argAt args (1 + off))
  else if decide (n_args > 0) && mp_obj_is_integer (argAt args (1 + off)) then
    let v ← mp_obj_get_uint64 (argAt args (1 + off))
    set_MP_OBJ_SCALAR res (set256_modm v)
  else
    mp_raise (.ValueError "Invalid scalar def")
  pure res

/-- The function object `init256_modm` (0 to 2 arguments). -/
def mod_trezorcrypto_monero_init256_modm_obj (args : List Obj) : M Pt Obj :=
  MP_DEFINE_CONST_FUN_OBJ_VAR_BETWEEN 0 2 mod_trezorcrypto_monero_init256_modm args

/-- The function `unpack256_modm`. -/
def mod_trezorcrypto_monero_unpack256_modm (args : List Obj) : M Pt Obj := do
  let n_args := args.length
  let res ← if n_args == 2 then pure (argAt args 0) else mp_obj_new_scalar
  let off : Int := if n_args == 2 then 0 else -1
  assert_scalar res
  mp_unpack_scalar res (argAt args (1 + off))
  pure res

/-- The function object `unpack256_modm` (1 or 2 arguments). -/
def mod_trezorcrypto_monero_unpack256_modm_obj (args : List Obj) : M Pt Obj :=
  MP_DEFINE_CONST_FUN_OBJ_VAR_BETWEEN 1 2 mod_trezorcrypto_monero_unpack256_modm args

/-! ## Outcomes -/

/-- The call returned normally. -/
def returned {α : Type} (out : Except Exc α × State Pt) : Prop := ∃ a, out.1 = .ok a

/-- The call raised an exception. -/
def raised {α : Type} (out : Except Exc α × State Pt) : Prop := ∃ e, out.1 = .error e


/-- Runtime `mp_obj_new_bytes(data, len)`: a new byte string holding the
first `len` bytes at `data`. -/
def mp_obj_new_bytes (data : List Byte) (len : Nat) : Obj := .bytes (data.take len)

/-- The function `mulsub256_modm`. -/
def mod_trezorcrypto_monero_mulsub256_modm (args : List Obj) : M Pt Obj := do
  let n_args := args.length
  let res ← if n_args == 4 then pure (argAt args 0) else mp_obj_new_scalar
  let off : Int := if n_args == 4 then 0 else -1
  assert_scalar res
  assert_scalar (argAt args (1 + off))
  assert_scalar (argAt args (2 + off))
  assert_scalar (argAt args (3 + off))
  let s ← getState
  set_MP_OBJ_SCALAR res (mulsub256_modm (MP_OBJ_C_SCALAR s (argAt args (1 + off)))
    (MP_OBJ_C_SCALAR s (argAt args (2 + off))) (MP_OBJ_C_SCALAR s (argAt args (3 + off))))
  pure res

/-- The function object `mulsub256_modm` (3 or 4 arguments). -/
def mod_trezorcrypto_monero_mulsub256_modm_obj (args : List Obj) : M Pt Obj :=
  MP_DEFINE_CONST_FUN_OBJ_VAR_BETWEEN 3 4 mod_trezorcrypto_monero_mulsub256_modm args

/-- The function `pack256_modm`. -/
def mod_trezorcrypto_monero_pack256_modm (arg : Obj) : M Pt Obj := do
  assert_scalar arg
  let s ← getState
  let buff := contract256_modm (MP_OBJ_C_SCALAR s arg)
  pure (mp_obj_new_bytes buff 32)

/-- The function object `pack256_modm` (1 argument). -/
def mod_trezorcrypto_monero_pack256_modm_obj (args : List Obj) : M Pt Obj :=
  MP_DEFINE_CONST_FUN_OBJ_1 mod_trezorcrypto_monero_pack256_modm args

/-! ## Curve points -/

/-- Modelled from the spec: `ge25519_set_neutral(r)` of the missing point
engine, "neutral-element construction". -/
def ge25519_set_neutral [AddCommGroup Pt] : Pt := 0

/-- Modelled from the spec: `ge25519_copy(r, p)` of the missing point engine. -/
def ge25519_copy (p : Pt) : Pt := p

/-- Modelled from the spec: `ge25519_set_xmr_h(r)` of the missing point engine,
construction "of the fixed H generator". -/
def ge25519_set_xmr_h (E : Env Pt) : Pt := E.xmr_h

/-- Modelled from the spec: `ge25519_add(r, a, b, signbit)` of the missing point
engine, "add with an explicit sign bit (supports both P+Q and P−Q via one
routine ...) — sign bit selects which". -/
def ge25519_add [AddCommGroup Pt] (E : Env Pt) (a b : Pt) (signbit : Nat) : Pt :=
  if signbit = 0 then a + b
  else if signbit = 1 then a - b
  else E.ge25519_add_other a b signbit

/-- Modelled from the spec: `ge25519_scalarmult_base_wrapper(r, s)` of the
missing point engine, "constant-time scalar multiply against the fixed
basepoint". -/
def ge25519_scalarmult_base_wrapper [AddCommGroup Pt] (E : Env Pt) (s : Nat) : Pt :=
  s • E.basepoint

/-- Modelled from the spec: `ge25519_scalarmult_wrapper(r, P, a)` of the missing
point engine, constant-time scalar multiply "against an arbitrary point". -/
def ge25519_scalarmult_wrapper [AddCommGroup Pt] (P : Pt) (a : Nat) : Pt := a • P

/-- Modelled from the spec: `xmr_gen_c(r, a, amount)` of the missing commitment
layer, which "computes the Pedersen commitment mask·G + amount·H directly". -/
def xmr_gen_c [AddCommGroup Pt] (E : Env Pt) (a : Nat) (amount : Nat) : Pt :=
  a • E.basepoint + amount • E.xmr_h

/-- The macro `MP_OBJ_C_GE25519`: the point held by a point object. -/
def MP_OBJ_C_GE25519 (E : Env Pt) (s : State Pt) (o : Obj) : Pt :=
  match deref s o with
  | some (.ge25519 p) => p
  | _ => E.ge25519_uninit

/-- The helper `mp_obj_new_ge25519`. -/
def mp_obj_new_ge25519 [AddCommGroup Pt] : M Pt Obj := alloc (.ge25519 ge25519_set_neutral)

/-- The helper `mp_obj_from_ge25519`. -/
def mp_obj_from_ge25519 (inp : Pt) : M Pt Obj := alloc (.ge25519 inp)

/-- The helper `assert_ge25519`. -/
def assert_ge25519 (o : Obj) : M Pt Unit := do
  let s ← getState
  if !MP_OBJ_IS_GE25519 s o then
    mp_raise (.ValueError "ge25519 expected")
  else pure ()

/-- The helper `mp_unpack_ge25519`, decoding into the point object `r`. -/
def mp_unpack_ge25519 (E : Env Pt) (r : Obj) (arg : Obj) : M Pt Unit := do
  let buff ← mp_get_buffer_raise arg .MP_BUFFER_READ
  if buff.len != 32 then
    mp_raise (.ValueError "Invalid length of the EC point")
  else
    let s ← getState
    logCall (.ge25519_unpack_vartime buff.data)
    let res := E.ge25519_unpack_vartime (MP_OBJ_C_GE25519 E s r) buff.data
    set_MP_OBJ_GE25519 r res.2
    if res.1 != 1 then
      mp_raise (.ValueError "Point decoding error")
    else pure ()

/-- The constructor `ge25519(...)`. -/
def mod_trezorcrypto_monero_ge25519_make_new (E : Env Pt) [AddCommGroup Pt] (n_kw : Nat)
    (args : List Obj) : M Pt Obj := do
  let n_args := args.length
  mp_arg_check_num n_args n_kw 0 1 false
  let o ← alloc (.ge25519 E.ge25519_uninit)
  let s ← getState
  if n_args == 0 then
    set_MP_OBJ_GE25519 o ge25519_set_neutral
  else if n_args == 1 && MP_OBJ_IS_GE25519 s (argAt args 0) then
    set_MP_OBJ_GE25519 o (ge25519_copy (MP_OBJ_C_GE25519 E s (argAt args 0)))
  else if n_args == 1 && MP_OBJ_IS_STR_OR_BYTES (argAt args 0) then
    mp_unpack_ge25519 E o (argAt args 0)
  else
    mp_raise (.ValueError "Invalid ge25519 constructor")
  pure o

/-- The function `ge25519_unpack_vartime`. -/
def mod_trezorcrypto_monero_ge25519_unpack_vartime (E : Env Pt) [AddCommGroup Pt]
    (args : List Obj) : M Pt Obj := do
  let n_args := args.length
  let res ← if n_args == 2 then pure (argAt args 0) else mp_obj_new_ge25519
  let off : Int := if n_args == 2 then 0 else -1
  assert_ge25519 res
  mp_unpack_ge25519 E res (argAt args (1 + off))
  pure res

/-- The function object `ge25519_unpack_vartime` (1 or 2 arguments). -/
def mod_trezorcrypto_monero_ge25519_unpack_vartime_obj (E : Env Pt) [AddCommGroup Pt]
    (args : List Obj) : M Pt Obj :=
  MP_DEFINE_CONST_FUN_OBJ_VAR_BETWEEN 1 2 (mod_trezorcrypto_monero_ge25519_unpack_vartime E) args

/-- The function `ge25519_set_h` (`mod_trezorcrypto_monero_ge25519_set_xmr_h`). -/
def mod_trezorcrypto_monero_ge25519_set_xmr_h (E : Env Pt) [AddCommGroup Pt]
    (args : List Obj) : M Pt Obj := do
  let n_args := args.length
  let res ← if n_args == 1 then pure (argAt args 0) else mp_obj_new_ge25519
  assert_ge25519 res
  set_MP_OBJ_GE25519 res (ge25519_set_xmr_h E)
  pure res

/-- The function object `ge25519_set_h` (0 or 1 argument). -/
def mod_trezorcrypto_monero_ge25519_set_xmr_h_obj (E : Env Pt) [AddCommGroup Pt]
    (args : List Obj) : M Pt Obj :=
  MP_DEFINE_CONST_FUN_OBJ_VAR_BETWEEN 0 1 (mod_trezorcrypto_monero_ge25519_set_xmr_h E) args

/-- The function `ge25519_add`; `so` is the pair of the locals `s` and `off`
after the dispatch on the number of arguments. -/
def mod_trezorcrypto_monero_ge25519_add (E : Env Pt) [AddCommGroup Pt]
    (args : List Obj) : M Pt Obj := do
  let n_args := args.length
  let so : Int × Int ←
    if n_args == 2 then pure (0, -1)
    else if n_args == 3 then
      if mp_obj_is_integer (argAt args 2) then do
        let s ← mp_obj_get_int E (argAt args 2)
        pure (s, -1)
      else pure (0, 0)
    else if n_args == 4 then do
      let s ← mp_obj_get_int E (argAt args 3)
      pure (s, 0)
    else mp_raise (.ValueError "")
  let s := so.1
  let off := so.2
  let res ← if off == -1 then mp_obj_new_ge25519 else pure (argAt args 0)
  assert_ge25519 res
  assert_ge25519 (argAt args (1 + off))
  assert_ge25519 (argAt args (2 + off))
  let st ← getState
  set_MP_OBJ_GE25519 res (ge25519_add E (MP_OBJ_C_GE25519 E st (argAt args (1 + off)))
    (MP_OBJ_C_GE25519 E st (argAt args (2 + off))) (to_uint8 s))
  pure res

/-- The function object `ge25519_add` (3 or 4 arguments). -/
def mod_trezorcrypto_monero_ge25519_add_obj (E : Env Pt) [AddCommGroup Pt]
    (args : List Obj) : M Pt Obj :=
  MP_DEFINE_CONST_FUN_OBJ_VAR_BETWEEN 3 4 (mod_trezorcrypto_monero_ge25519_add E) args

/-- The function `ge25519_scalarmult_base`. -/
def mod_trezorcrypto_monero_ge25519_scalarmult_base (E : Env Pt) [AddCommGroup Pt]
    (args : List Obj) : M Pt Obj := do
  let n_args := args.length
  let res ← if n_args == 2 then pure (argAt args 0) else mp_obj_new_ge25519
  let off : Int := if n_args == 2 then 0 else -1
  assert_ge25519 res
  let s ← getState
  if MP_OBJ_IS_SCALAR s (argAt args (1 + off)) then
    set_MP_OBJ_GE25519 res
      (ge25519_scalarmult_base_wrapper E (MP_OBJ_C_SCALAR s (argAt args (1 + off))))
  else if mp_obj_is_integer (argAt args (1 + off)) then
    let v ← mp_obj_get_int E (argAt args (1 + off))
    let mlt := set256_modm (to_uint64 v)
    set_MP_OBJ_GE25519 res (ge25519_scalarmult_base_wrapper E mlt)
  else
    mp_raise (.ValueError "unknown base mult type")
  pure res

/-- The function object `ge25519_scalarmult_base` (1 or 2 arguments). -/
def mod_trezorcrypto_monero_ge25519_scalarmult_base_obj (E : Env Pt) [AddCommGroup Pt]
    (args : List Obj) : M Pt Obj :=
  MP_DEFINE_CONST_FUN_OBJ_VAR_BETWEEN 1 2 (mod_trezorcrypto_monero_ge25519_scalarmult_base E) args

/-- The function `ge25519_scalarmult`. -/
def mod_trezorcrypto_monero_ge25519_scalarmult (E : Env Pt) [AddCommGroup Pt]
    (args : List Obj) : M Pt Obj := do
  let n_args := args.length
  let res ← if n_args == 3 then pure (argAt args 0) else mp_obj_new_ge25519
  let off : Int := if n_args == 3 then 0 else -1
  assert_ge25519 res
  assert_ge25519 (argAt args (1 + off))
  let s ← getState
  if MP_OBJ_IS_SCALAR s (argAt args (2 + off)) then
    set_MP_OBJ_GE25519 res (ge25519_scalarmult_wrapper
      (MP_OBJ_C_GE25519 E s (argAt args (1 + off))) (MP_OBJ_C_SCALAR s (argAt args (2 + off))))
  else if mp_obj_is_integer (argAt args (2 + off)) then
    let v ← mp_obj_get_int E (argAt args (2 + off))
    let mlt := set256_modm (to_uint64 v)
    set_MP_OBJ_GE25519 res (ge25519_scalarmult_wrapper
      (MP_OBJ_C_GE25519 E s (argAt args (1 + off))) mlt)
  else
    mp_raise (.ValueError "unknown mult type")
  pure res

/-- The function object `ge25519_scalarmult` (2 or 3 arguments). -/
def mod_trezorcrypto_monero_ge25519_scalarmult_obj (E : Env Pt) [AddCommGroup Pt]
    (args : List Obj) : M Pt Obj :=
  MP_DEFINE_CONST_FUN_OBJ_VAR_BETWEEN 2 3 (mod_trezorcrypto_monero_ge25519_scalarmult E) args

/-- The function `xmr_gen_c`. -/
def mod_trezorcrypto_monero_xmr_gen_c (E : Env Pt) [AddCommGroup Pt]
    (args : List Obj) : M Pt Obj := do
  let n_args := args.length
  let res ← if n_args == 3 then pure (argAt args 0) else mp_obj_new_ge25519
  let off : Int := if n_args == 3 then 0 else -1
  assert_ge25519 res
  assert_scalar (argAt args (1 + off))
  let amount ← mp_obj_get_uint64 (argAt args (2 + off))
  let s ← getState
  set_MP_OBJ_GE25519 res (xmr_gen_c E (MP_OBJ_C_SCALAR s (argAt args (1 + off))) amount)
  pure res

/-- The function object `xmr_gen_c` (2 or 3 arguments). -/
def mod_trezorcrypto_monero_xmr_gen_c_obj (E : Env Pt) [AddCommGroup Pt]
    (args : List Obj) : M Pt Obj :=
  MP_DEFINE_CONST_FUN_OBJ_VAR_BETWEEN 2 3 (mod_trezorcrypto_monero_xmr_gen_c E) args

/-- The caller-side expression
`ge25519_add(ge25519_scalarmult_base(mask), ge25519_scalarmult(ge25519_set_h(), amount), 0)`,
its arguments evaluated left to right. -/
def commitment_by_parts (E : Env Pt) [AddCommGroup Pt] (mask amount : Obj) : M Pt Obj := do
  let aG ← mod_trezorcrypto_monero_ge25519_scalarmult_base_obj E [mask]
  let H ← mod_trezorcrypto_monero_ge25519_set_xmr_h_obj E []
  let bH ← mod_trezorcrypto_monero_ge25519_scalarmult_obj E [H, amount]
  mod_trezorcrypto_monero_ge25519_add_obj E [aG, bH, .smallInt 0]

/-- An instance of the parameters for evaluating the bindings on concrete
inputs: `mp_int_t` of the given width, the struct sizes of the 32-bit build,
points taken in the additive group of the integers, and stand-ins for the
library functions. -/
def testEnv (bits : Nat) : Env Int where
  mp_int_bits := bits
  sizeof_bignum256modm := 36
  sizeof_xmr_range_sig_t := 6176
  ge25519_uninit := 0
  basepoint := 1
  xmr_h := 7
  ge25519_unpack_vartime := fun old d => if fromLE d % 2 = 0 then (1, (fromLE d : Int)) else (0, old)
  ge25519_add_other := fun a _ _ => a
  ge25519_pack := fun _ => List.replicate 32 0
  ge25519_pack_length := fun _ => List.length_replicate 32 0
  xmr_fast_hash := fun _ => List.replicate 32 0
  xmr_fast_hash_length := fun _ => List.length_replicate 32 0
  xmr_gen_range_sig := fun r a _ => ⟨List.replicate 6176 0, a, r, r + 1⟩
  xmr_gen_range_sig_length := fun _ _ _ => List.length_replicate 6176 0
  xmr_gen_range_sig_ex := fun r a _ _ _ =>
    ⟨List.replicate 6176 0, a, r, List.replicate (36 * 64) 0, List.replicate (36 * 64) 0, r + 1⟩
  xmr_gen_range_sig_ex_length := fun _ _ _ _ _ => List.length_replicate 6176 0
  xmr_gen_range_sig_ex_ai_length := fun _ _ _ _ _ => List.length_replicate (36 * 64) 0
  xmr_gen_range_sig_ex_alpha_length := fun _ _ _ _ _ => List.length_replicate (36 * 64) 0

/-! ## Range proofs -/

/-- The constant `RSIG_SIZE`. -/
def RSIG_SIZE : Nat := 6176

/-- The state after a library function has written the bytes `new` through the
pointer `buf` of a buffer: they replace the first bytes of the backing
bytearray. -/
def write_buffer_state (buf : Option Nat) (new : List Byte) (s : State Pt) : State Pt :=
  match buf with
  | some a =>
    match s.heap[a]? with
    | some (.bytearray old) =>
      { s with heap := s.heap.set a (.bytearray (new ++ old.drop new.length)) }
    | _ => s
  | Option.none => s

/-- A library function writes the bytes `new` through the pointer `buf`. -/
def write_buffer (buf : Option Nat) (new : List Byte) : M Pt Unit := fun s =>
  (.ok (), write_buffer_state buf new s)

/-- The random source advances to a new state. -/
def set_rng (r : Nat) : M Pt Unit := fun s => (.ok (), { s with rng := r })

/-- The call `xmr_gen_range_sig(rsig, &C, mask, amount, last_mask)`: the proof is
written to the proof buffer, the commitment and the mask are returned. -/
def call_xmr_gen_range_sig (E : Env Pt) (rsig_buff : mp_buffer_info_t) (amount : Nat)
    (last_mask : Option Nat) : M Pt (Pt × Nat) := do
  logCall (.xmr_gen_range_sig amount last_mask)
  let s ← getState
  let out := E.xmr_gen_range_sig s.rng amount last_mask
  set_rng out.rng
  write_buffer rsig_buff.buf out.rsig
  pure (out.C, out.mask)

/-- The call `xmr_gen_range_sig_ex(rsig, &C, mask, amount, last_mask, buf_ai.buf,
buf_alpha.buf)`: the generator works in the first `64 * sizeof(bignum256modm)`
bytes of the two scratch buffers and writes the proof to the proof buffer.  The
three writes are made one after the other (scratch buffers first), which fixes
the outcome when the caller passes overlapping buffers. -/
def call_xmr_gen_range_sig_ex (E : Env Pt) (rsig_buff buf_ai buf_alpha : mp_buffer_info_t)
    (amount : Nat) (last_mask : Option Nat) : M Pt (Pt × Nat) := do
  let mem := E.sizeof_bignum256modm * 64
  logCall (.xmr_gen_range_sig_ex amount last_mask (buf_ai.data.take mem) (buf_alpha.data.take mem))
  let s ← getState
  let out := E.xmr_gen_range_sig_ex s.rng amount last_mask
    (buf_ai.data.take mem) (buf_alpha.data.take mem)
  set_rng out.rng
  write_buffer buf_ai.buf out.ai
  write_buffer buf_alpha.buf out.alpha
  write_buffer rsig_buff.buf out.rsig
  pure (out.C, out.mask)

/-- The function `gen_range_proof`. -/
def mod_trezorcrypto_monero_gen_range_proof (E : Env Pt) (args : List Obj) : M Pt Obj := do
  let n_args := args.length
  if E.sizeof_xmr_range_sig_t != RSIG_SIZE then
    mp_raise (.ValueError "rsize invalid")
  else pure ()
  let rsig_buff ← mp_get_buffer_raise (argAt args 0) .MP_BUFFER_WRITE
  if decide (rsig_buff.len < RSIG_SIZE) then
    mp_raise (.ValueError "rsize buff too small")
  else pure ()
  let amount ← mp_obj_get_uint64 (argAt args 1)
  let s ← getState
  let last_mask : Option Nat :=
    if decide (n_args > 2) && MP_OBJ_IS_SCALAR s (argAt args 2) then
      some (MP_OBJ_C_SCALAR s (argAt args 2))
    else Option.none
  let cm ←
    if n_args > 4 then do
      let mem_limit := E.sizeof_bignum256modm * 64
      let buf_ai ← mp_get_buffer_raise (argAt args 3) .MP_BUFFER_WRITE
      let buf_alpha ← mp_get_buffer_raise (argAt args 4) .MP_BUFFER_WRITE
      if decide (buf_ai.len < mem_limit) || decide (buf_alpha.len < mem_limit) then
        mp_raise (.ValueError "Buffer too small")
      else
        call_xmr_gen_range_sig_ex E rsig_buff buf_ai buf_alpha amount last_mask
    else
      call_xmr_gen_range_sig E rsig_buff amount last_mask
  let tuple ← alloc (.tuple [Obj.null, Obj.null, Obj.null])
  let c ← mp_obj_from_ge25519 cm.1
  let m ← mp_obj_from_scalar cm.2
  match tuple with
  | .ref t => store t (.tuple [c, m, argAt args 0])
  | _ => pure ()
  pure tuple

/-- The function object `gen_range_proof` (2 to 5 arguments). -/
def mod_trezorcrypto_monero_gen_range_proof_obj (E : Env Pt) (args : List Obj) : M Pt Obj :=
  MP_DEFINE_CONST_FUN_OBJ_VAR_BETWEEN 2 5 (mod_trezorcrypto_monero_gen_range_proof E) args

/-- A heap for evaluating `gen_range_proof` on concrete inputs: a proof buffer
of 6176 bytes at address 0, two scratch buffers of `64 * 36` bytes at addresses
1 and 2, and a 10-byte buffer at address 3. -/
def testState : State Int :=
  ⟨[.bytearray (List.replicate 6176 0), .bytearray (List.replicate 2304 0),
    .bytearray (List.replicate 2304 0), .bytearray (List.replicate 10 0)], [], 0⟩

/-- Length of the bytearray at an address, if there is one. -/
def lenAt (s : State Pt) (a : Nat) : Option Nat :=
  match s.heap[a]? with
  | some (.bytearray d) => some d.length
  | _ => Option.none

/-! ## Base58 address codec -/

/-- Modelled from the spec: the base58 alphabet of the missing address codec,
`123456789ABCDEFGHJKLMNPQRSTUVWXYZabcdefghijkmnopqrstuvwxyz` in ASCII
("Monero's block-based base58 alphabet/table"). -/
def b58_alphabet : List Byte :=
  [49, 50, 51, 52, 53, 54, 55, 56, 57,
   65, 66, 67, 68, 69, 70, 71, 72, 74, 75, 76, 77, 78,
   80, 81, 82, 83, 84, 85, 86, 87, 88, 89, 90,
   97, 98, 99, 100, 101, 102, 103, 104, 105, 106, 107,
   109, 110, 111, 112, 113, 114, 115, 116, 117, 118, 119, 120, 121, 122]

/-- Modelled from the spec: the block-length table of the missing address codec,
"each full 8-byte block maps to a fixed 11 base58 characters, with a shorter
final partial block mapping to a table-specified shorter length". -/
def encoded_block_sizes : List Nat := [0, 2, 3, 5, 6, 7, 9, 10, 11]

/-- Encoded length of a block of `n` bytes. -/
def encoded_block_size (n : Nat) : Nat := encoded_block_sizes.getD n 0

/-- Block length for an encoded length; none for a malformed block length. -/
def decoded_block_size (e : Nat) : Option Nat :=
  match e with
  | 0 => some 0
  | 2 => some 1
  | 3 => some 2
  | 5 => some 3
  | 6 => some 4
  | 7 => some 5
  | 9 => some 6
  | 10 => some 7
  | 11 => some 8
  | _ => Option.none

/-- The `n` low-order digits of `v` in a base, least significant first. -/
def digitsLE (base : Nat) : Nat → Nat → List Nat
  | 0, _ => []
  | n + 1, v => v % base :: digitsLE base n (v / base)

/-- The number with the given digits, least significant first. -/
def ofDigitsLE (base : Nat) : List Nat → Nat
  | [] => 0
  | d :: ds => d + base * ofDigitsLE base ds

/-- The alphabet character of a base58 digit. -/
def b58_char (d : Nat) : Byte := b58_alphabet.getD d 0

/-- The base58 digit of a character; none for a character outside the alphabet. -/
def b58_digit (c : Byte) : Option Nat :=
  if b58_alphabet.indexOf c < 58 then some (b58_alphabet.indexOf c) else Option.none

/-- The base58 digits of a string; none if a character is outside the alphabet. -/
def b58_digits : List Byte → Option (List Nat)
  | [] => some []
  | c :: cs =>
    match b58_digit c, b58_digits cs with
    | some d, some ds => some (d :: ds)
    | _, _ => Option.none

/-- Modelled from the spec: block encoder of the missing address codec.  The
block is read as a big-endian integer and written as base58 digits, most
significant first, padded to the table length of the block. -/
def encode_block (block : List Byte) : List Byte :=
  ((digitsLE 58 (encoded_block_size block.length) (fromLE block.reverse)).reverse).map b58_char

/-- Modelled from the spec: block decoder of the missing address codec,
failing on "invalid alphabet characters, or malformed block lengths" and on a
value too large for the block. -/
def decode_block (chars : List Byte) : Option (List Byte) :=
  match decoded_block_size chars.length, b58_digits chars with
  | some n, some ds =>
    if ofDigitsLE 58 ds.reverse < 256 ^ n then some (toLE n (ofDigitsLE 58 ds.reverse)).reverse
    else Option.none
  | _, _ => Option.none

/-- Modelled from the spec: `xmr_base58_encode` of the missing address codec,
which "encodes data in 8-byte blocks": full blocks first, then the final
partial block if there is one. -/
def xmr_base58_encode (data : List Byte) : List Byte :=
  if data.length = 0 then []
  else if _h : data.length < 8 then encode_block data
  else encode_block (data.take 8) ++ xmr_base58_encode (data.drop 8)
termination_by data.length
decreasing_by simp only [List.length_drop]; omega

/-- Modelled from the spec: `xmr_base58_decode` of the missing address codec:
blocks of 11 characters, then the final shorter block if there is one. -/
def xmr_base58_decode (chars : List Byte) : Option (List Byte) :=
  if chars.length = 0 then some []
  else if _h : chars.length < 11 then decode_block chars
  else
    match decode_block (chars.take 11), xmr_base58_decode (chars.drop 11) with
    | some b, some rest => some (b ++ rest)
    | _, _ => Option.none
termination_by chars.length
decreasing_by simp only [List.length_drop]; omega

/-- Modelled from the spec: the "variable-length encoding" of an integer (the
wire-format varint of the host protocol): groups of 7 bits, least significant
first, with the high bit set on every byte but the last. -/
def xmr_write_varint (t : Nat) : List Byte :=
  if h : t < 128 then [⟨t % 256, Nat.mod_lt _ (by decide)⟩]
  else ⟨(t % 128 + 128) % 256, Nat.mod_lt _ (by decide)⟩ :: xmr_write_varint (t / 128)
termination_by t
decreasing_by omega

/-- Groups of 7 bits read back, with the bytes that follow the varint. -/
def read_varint_groups : List Byte → Option (Nat × List Byte)
  | [] => Option.none
  | b :: rest =>
    if b.val < 128 then some (b.val, rest)
    else
      match read_varint_groups rest with
      | some (v, r) => some (b.val - 128 + 128 * v, r)
      | Option.none => Option.none

/-- Modelled from the spec: the varint reader of the host protocol, for a
64-bit value; it returns the value and the bytes that follow. -/
def xmr_read_varint (bytes : List Byte) : Option (Nat × List Byte) :=
  match read_varint_groups bytes with
  | some (v, r) => if v < 2 ^ 64 then some (v, r) else Option.none
  | Option.none => Option.none

/-- Size of the checksum of an address. -/
def addr_checksum_size : Nat := 4

/-- Modelled from the spec: `xmr_base58_addr_encode_check(tag, data, binsz, b58,
b58sz)` of the missing address codec: the base58 encoding of the varint of
`tag`, the data and "a 4-byte checksum derived by truncating fast_hash over
(encoded tag ‖ data)".  It returns the length of the encoding and the
encoding, or 0 "if the output buffer is undersized". -/
def xmr_base58_addr_encode_check (E : Env Pt) (tag : Nat) (data : List Byte) (binsz : Nat)
    (b58sz : Nat) : Nat × List Byte :=
  let buf := xmr_write_varint tag ++ data.take binsz
  let b58 := xmr_base58_encode (buf ++ (E.xmr_fast_hash buf).take addr_checksum_size)
  if b58sz < b58.length then (0, []) else (b58.length, b58)

/-- Modelled from the spec: `xmr_base58_addr_decode_check(addr, sz, &tag, data,
datalen)` of the missing address codec, which "reverses the process,
recomputing and verifying the checksum".  It returns the length of the payload,
the tag and the payload, or 0 on failure or if the payload does not fit. -/
def xmr_base58_addr_decode_check (E : Env Pt) (addr : List Byte) (sz : Nat) (datalen : Nat) :
    Nat × Nat × List Byte :=
  match xmr_base58_decode (addr.take sz) with
  | Option.none => (0, 0, [])
  | some buf =>
    if buf.length ≤ addr_checksum_size then (0, 0, [])
    else
      let body := buf.take (buf.length - addr_checksum_size)
      let checksum := buf.drop (buf.length - addr_checksum_size)
      if (E.xmr_fast_hash body).take addr_checksum_size ≠ checksum then (0, 0, [])
      else
        match xmr_read_varint body with
        | Option.none => (0, 0, [])
        | some (tag, payload) =>
          if datalen < payload.length then (0, 0, []) else (payload.length, tag, payload)

/-- Runtime `mp_obj_new_int_from_ull`: a small int when the value fits one,
else an mpz integer. -/
def mp_obj_new_int_from_ull (E : Env Pt) (v : Nat) : Obj :=
  if v < 2 ^ (E.mp_int_bits - 2) then .smallInt v else .int v

/-- The integer an object denotes, if it is an integer object. -/
def int_value (o : Obj) : Option Int :=
  match o with
  | .smallInt v => some v
  | .int v => some v
  | _ => Option.none

/-- The function `xmr_base58_addr_encode_check`. -/
def mod_trezorcrypto_monero_xmr_base58_addr_encode_check (E : Env Pt) (args : List Obj) :
    M Pt Obj := do
  let data ← mp_get_buffer_raise (argAt args 1) .MP_BUFFER_READ
  let tag ← mp_obj_get_int E (argAt args 0)
  logCall (.xmr_base58_addr_encode_check (to_uint64 tag) data.data 128)
  let r := xmr_base58_addr_encode_check E (to_uint64 tag) data.data data.len 128
  if r.1 == 0 then
    mp_raise (.ValueError "b58 encoding error")
  else
    pure (mp_obj_new_bytes r.2 r.1)

/-- The function object `xmr_base58_addr_encode_check` (2 arguments). -/
def mod_trezorcrypto_monero_xmr_base58_addr_encode_check_obj (E : Env Pt) (args : List Obj) :
    M Pt Obj :=
  MP_DEFINE_CONST_FUN_OBJ_VAR_BETWEEN 2 2
    (mod_trezorcrypto_monero_xmr_base58_addr_encode_check E) args

/-- The function `xmr_base58_addr_decode_check`. -/
def mod_trezorcrypto_monero_xmr_base58_addr_decode_check (E : Env Pt) (args : List Obj) :
    M Pt Obj := do
  let data ← mp_get_buffer_raise (argAt args 0) .MP_BUFFER_READ
  logCall (.xmr_base58_addr_decode_check data.data 128)
  let r := xmr_base58_addr_decode_check E data.data data.len 128
  if r.1 == 0 then
    mp_raise (.ValueError "b58 decoding error")
  else
    let tuple ← alloc (.tuple [Obj.null, Obj.null])
    match tuple with
    | .ref t => store t (.tuple [mp_obj_new_bytes r.2.2 r.1, mp_obj_new_int_from_ull E r.2.1])
    | _ => pure ()
    pure tuple

/-- The function object `xmr_base58_addr_decode_check` (1 argument). -/
def mod_trezorcrypto_monero_xmr_base58_addr_decode_check_obj (E : Env Pt) (args : List Obj) :
    M Pt Obj :=
  MP_DEFINE_CONST_FUN_OBJ_VAR_BETWEEN 1 1
    (mod_trezorcrypto_monero_xmr_base58_addr_decode_check E) args

/-- The call forms that build a scalar from the byte string `d`: the
constructor, and `init256_modm` and `unpack256_modm` without and with an output
scalar `r`. -/
def scalar_from_bytes_calls (r : Obj) (d : List Byte) : List (M Pt Obj) :=
  [ mod_trezorcrypto_monero_bignum256modm_make_new 0 [.bytes d],
    mod_trezorcrypto_monero_init256_modm_obj [.bytes d],
    mod_trezorcrypto_monero_init256_modm_obj [r, .bytes d],
    mod_trezorcrypto_monero_unpack256_modm_obj [.bytes d],
    mod_trezorcrypto_monero_unpack256_modm_obj [r, .bytes d] ]

/-! ## Scalar addition and subtraction -/

/-- Modelled from the spec: `add256_modm(r, x, y)` of the missing scalar
engine, the "add" of scalars modulo ℓ. -/
def add256_modm (x y : Nat) : Nat := (x + y) % ell

/-- Modelled from the spec: `sub256_modm(r, x, y)` of the missing scalar
engine, the "subtract" of scalars modulo ℓ. -/
def sub256_modm (x y : Nat) : Nat := (((x : Int) - (y : Int)) % (ell : Int)).toNat

/-- The function `add256_modm`. -/
def mod_trezorcrypto_monero_add256_modm (args : List Obj) : M Pt Obj := do
  let n_args := args.length
  let res ← if n_args == 3 then pure (argAt args 0) else mp_obj_new_scalar
  let off : Int := if n_args == 3 then 0 else -1
  assert_scalar res
  assert_scalar (argAt args (1 + off))
  assert_scalar (argAt args (2 + off))
  let s ← getState
  set_MP_OBJ_SCALAR res (add256_modm (MP_OBJ_C_SCALAR s (argAt args (1 + off)))
    (MP_OBJ_C_SCALAR s (argAt args (2 + off))))
  pure res

/-- The function object `add256_modm` (2 or 3 arguments). -/
def mod_trezorcrypto_monero_add256_modm_obj (args : List Obj) : M Pt Obj :=
  MP_DEFINE_CONST_FUN_OBJ_VAR_BETWEEN 2 3 mod_trezorcrypto_monero_add256_modm args

/-- The function `sub256_modm`. -/
def mod_trezorcrypto_monero_sub256_modm (args : List Obj) : M Pt Obj := do
  let n_args := args.length
  let res ← if n_args == 3 then pure (argAt args 0) else mp_obj_new_scalar
  let off : Int := if n_args == 3 then 0 else -1
  assert_scalar res
  assert_scalar (argAt args (1 + off))
  assert_scalar (argAt args (2 + off))
  let s ← getState
  set_MP_OBJ_SCALAR res (sub256_modm (MP_OBJ_C_SCALAR s (argAt args (1 + off)))
    (MP_OBJ_C_SCALAR s (argAt args (2 + off))))
  pure res

/-- The function object `sub256_modm` (2 or 3 arguments). -/
def mod_trezorcrypto_monero_sub256_modm_obj (args : List Obj) : M Pt Obj :=
  MP_DEFINE_CONST_FUN_OBJ_VAR_BETWEEN 2 3 mod_trezorcrypto_monero_sub256_modm args

/-! ## Packing into a caller's buffer -/

/-- The arity check of a function object made by `MP_DEFINE_CONST_FUN_OBJ_2`. -/
def MP_DEFINE_CONST_FUN_OBJ_2 (f : Obj → Obj → M Pt Obj) (args : List Obj) : M Pt Obj :=
  match args with
  | [a, b] => f a b
  | _ => mp_raise (.TypeError "function takes 2 positional arguments")

/-- The function `pack256_modm_into`. -/
def mod_trezorcrypto_monero_pack256_modm_into (arg buf : Obj) : M Pt Obj := do
  assert_scalar arg
  let bufm ← mp_get_buffer_raise buf .MP_BUFFER_WRITE
  if decide (bufm.len < 32) then
    mp_raise (.ValueError "Buffer too small")
  else pure ()
  let s ← getState
  write_buffer bufm.buf (contract256_modm (MP_OBJ_C_SCALAR s arg))
  pure buf

/-- The function object `pack256_modm_into` (2 arguments). -/
def mod_trezorcrypto_monero_pack256_modm_into_obj (args : List Obj) : M Pt Obj :=
  MP_DEFINE_CONST_FUN_OBJ_2 mod_trezorcrypto_monero_pack256_modm_into args

/-- The function `ge25519_pack`. -/
def mod_trezorcrypto_monero_ge25519_pack (E : Env Pt) (arg : Obj) : M Pt Obj := do
  assert_ge25519 arg
  let s ← getState
  let buff := E.ge25519_pack (MP_OBJ_C_GE25519 E s arg)
  pure (mp_obj_new_bytes buff 32)

/-- The function object `ge25519_pack` (1 argument). -/
def mod_trezorcrypto_monero_ge25519_pack_obj (E : Env Pt) (args : List Obj) : M Pt Obj :=
  MP_DEFINE_CONST_FUN_OBJ_1 (mod_trezorcrypto_monero_ge25519_pack E) args

/-- The function `ge25519_pack_into`. -/
def mod_trezorcrypto_monero_ge25519_pack_into (E : Env Pt) (arg buf : Obj) : M Pt Obj := do
  assert_ge25519 arg
  let bufm ← mp_get_buffer_raise buf .MP_BUFFER_WRITE
  if decide (bufm.len < 32) then
    mp_raise (.ValueError "Buffer too small")
  else pure ()
  let s ← getState
  write_buffer bufm.buf (E.ge25519_pack (MP_OBJ_C_GE25519 E s arg))
  pure buf

/-- The function object `ge25519_pack_into` (2 arguments). -/
def mod_trezorcrypto_monero_ge25519_pack_into_obj (E : Env Pt) (args : List Obj) : M Pt Obj :=
  MP_DEFINE_CONST_FUN_OBJ_2 (mod_trezorcrypto_monero_ge25519_pack_into E) args

/-! ## The streaming hasher -/

/-- Modelled from the spec: `xmr_hasher_init(h)` of the missing hash library,
the start of the "streaming variant" of the fast hash, with nothing absorbed. -/
def xmr_hasher_init : List Byte := []

/-- Modelled from the spec: `xmr_hasher_update(h, buf, len)` of the missing hash
library, which absorbs the first `len` bytes at `buf`. -/
def xmr_hasher_update (h : List Byte) (buf : List Byte) (len : Nat) : List Byte :=
  h ++ buf.take len

/-- Modelled from the spec: `xmr_hasher_final(h, out)` of the missing hash
library: the digest written to `out` is the fast hash of what was absorbed. -/
def xmr_hasher_final (E : Env Pt) (h : List Byte) : List Byte := E.xmr_fast_hash h

/-- Modelled from the spec: the constant `SHA3_256_DIGEST_LENGTH` of the missing
hash library, the "fixed 32-byte digest". -/
def SHA3_256_DIGEST_LENGTH : Nat := 32

/-- The field `h` of the hasher object behind `MP_OBJ_TO_PTR(o)`. -/
def mp_obj_hasher_t_h (s : State Pt) (o : Obj) : List Byte :=
  match deref s o with
  | some (.hasher h) => h
  | _ => []

/-- Assignment to the field `h` of the hasher object behind `MP_OBJ_TO_PTR(o)`. -/
def set_mp_obj_hasher_t_h (o : Obj) (h : List Byte) : M Pt Unit :=
  match o with
  | .ref a => store a (.hasher h)
  | _ => pure ()

/-- The constructor `hasher(...)`. -/
def mod_trezorcrypto_monero_hasher_make_new (n_kw : Nat) (args : List Obj) : M Pt Obj := do
  let n_args := args.length
  mp_arg_check_num n_args n_kw 0 1 false
  let o ← alloc (.hasher xmr_hasher_init)
  if n_args == 1 && MP_OBJ_IS_STR_OR_BYTES (argAt args 0) then
    let buff ← mp_get_buffer_raise (argAt args 0) .MP_BUFFER_READ
    let s ← getState
    set_mp_obj_hasher_t_h o (xmr_hasher_update (mp_obj_hasher_t_h s o) buff.data buff.len)
  else pure ()
  pure o

/-- The method `hasher.update`. -/
def mod_trezorcrypto_monero_hasher_update (self arg : Obj) : M Pt Obj := do
  let buff ← mp_get_buffer_raise arg .MP_BUFFER_READ
  if decide (buff.len > 0) then
    let s ← getState
    set_mp_obj_hasher_t_h self (xmr_hasher_update (mp_obj_hasher_t_h s self) buff.data buff.len)
  else pure ()
  pure Obj.none

/-- The function object `hasher.update` (2 arguments). -/
def mod_trezorcrypto_monero_hasher_update_obj (args : List Obj) : M Pt Obj :=
  MP_DEFINE_CONST_FUN_OBJ_2 mod_trezorcrypto_monero_hasher_update args

/-- The method `hasher.digest`: the local `ctx` is a copy of the field `h`; it
is finalized and then wiped, and the field itself is not written. -/
def mod_trezorcrypto_monero_hasher_digest (E : Env Pt) (self : Obj) : M Pt Obj := do
  let s ← getState
  let ctx := mp_obj_hasher_t_h s self
  let out := xmr_hasher_final E ctx
  pure (mp_obj_new_bytes out SHA3_256_DIGEST_LENGTH)

/-- The function object `hasher.digest` (1 argument). -/
def mod_trezorcrypto_monero_hasher_digest_obj (E : Env Pt) (args : List Obj) : M Pt Obj :=
  MP_DEFINE_CONST_FUN_OBJ_1 (mod_trezorcrypto_monero_hasher_digest E) args

/-- The method `hasher.copy`: `cp` is allocated and filled from `o`, and the
pointer `o` is what the function returns. -/
def mod_trezorcrypto_monero_hasher_copy (self : Obj) : M Pt Obj := do
  let o := self
  let s ← getState
  let _cp ← alloc (.hasher (mp_obj_hasher_t_h s o))
  pure o

/-- The function object `hasher.copy` (1 argument). -/
def mod_trezorcrypto_monero_hasher_copy_obj (args : List Obj) : M Pt Obj :=
  MP_DEFINE_CONST_FUN_OBJ_1 mod_trezorcrypto_monero_hasher_copy args

/-! ## Caller-side expressions and observations -/

/-- The caller-side expression `ge25519_scalarmult_base(init256_modm(n))`. -/
def scalarmult_base_of_init256_modm (E : Env Pt) [AddCommGroup Pt] (n : Obj) : M Pt Obj := do
  let sc ← mod_trezorcrypto_monero_init256_modm_obj [n]
  mod_trezorcrypto_monero_ge25519_scalarmult_base_obj E [sc]

/-- The point held by the object a call returned, if it returned a point. -/
def returned_point {Pt : Type} (out : Except Exc Obj × State Pt) : Option Pt :=
  match out.1 with
  | .ok o =>
    match deref out.2 o with
    | some (.ge25519 p) => some p
    | _ => Option.none
  | .error _ => Option.none

/-- The macro `MP_OBJ_NEW_SMALL_INT`. -/
def MP_OBJ_NEW_SMALL_INT (v : Int) : Obj := .smallInt v

/-- The forced mask passed in a recorded call of a range proof generator. -/
def Call.last_mask_passed (c : Call) : Option (Option Nat) :=
  match c with
  | .xmr_gen_range_sig _ lm => some lm
  | .xmr_gen_range_sig_ex _ lm _ _ => some lm
  | _ => Option.none

/-! ## The SBU port (`sbu.c`, `modtrezorio-sbu.h`) -/

/-- The UART of the SBU port, from the STM32 HAL outside the sources: the
status codes, and `HAL_UART_Receive(&uart_handle, data, len, timeout)` as a
function of the length and the timeout, giving the status and the bytes it
stored at `data`. -/
structure UartEnv where
  HAL_OK : Int
  HAL_TIMEOUT : Int
  HAL_UART_Receive : Nat → Nat → Int × List Byte

/-- Conversion of a C integer to `uint16_t`. -/
def to_uint16 (v : Int) : Nat := (v % 2 ^ 16).toNat

/-- Conversion of a C integer to `uint32_t`. -/
def to_uint32 (v : Int) : Nat := (v % 2 ^ 32).toNat

/-- The constant `SBU_DEFAULT_READ_TIMEOUT`. -/
def SBU_DEFAULT_READ_TIMEOUT : Nat := 10000

/-- The check `ensure(sectrue * cond, NULL)`: the firmware halts unless the
condition holds. -/
def ensure (cond : Bool) : M Pt Unit :=
  if cond then pure () else mp_raise (.fatal_error "")

/-- The function `sbu_read(data, len)` of `sbu.c`: it receives with the timeout
10000 written in its body. -/
def sbu_read (U : UartEnv) (data : Option Nat) (len : Nat) : M Pt Int := do
  logCall (.HAL_UART_Receive len 10000)
  let res := U.HAL_UART_Receive len 10000
  write_buffer data (res.2.take len)
  ensure (decide (U.HAL_OK = res.1) || decide (U.HAL_TIMEOUT = res.1))
  if U.HAL_OK = res.1 then pure (len : Int) else pure (-1)

/-- The method `SBU.read`; `args[0]` is the SBU object.  The call
`sbu_read(b.buf, b.len, timeout)` names three arguments, the function of `sbu.c`
has the two parameters `data` and `len` (a `uint16_t`): the timeout is computed
and has no parameter to go to. -/
def mod_trezorio_SBU_read (E : Env Pt) (U : UartEnv) (args : List Obj) : M Pt Obj := do
  let n_args := args.length
  let b ← mp_get_buffer_raise (argAt args 1) .MP_BUFFER_WRITE
  let timeout : Nat ←
    if n_args > 2 then do
      let v ← mp_obj_get_int E (argAt args 2)
      pure (to_uint32 v)
    else pure SBU_DEFAULT_READ_TIMEOUT
  let _unused := timeout
  let res ← sbu_read U b.buf (to_uint16 b.len)
  pure (MP_OBJ_NEW_SMALL_INT res)

/-- The function object `SBU.read` (2 or 3 arguments). -/
def mod_trezorio_SBU_read_obj (E : Env Pt) (U : UartEnv) (args : List Obj) : M Pt Obj :=
  MP_DEFINE_CONST_FUN_OBJ_VAR_BETWEEN 2 3 (mod_trezorio_SBU_read E U) args

/-! ## The display driver (`display-stm32.h`, double-buffer mode) -/

/-- Constants and collaborators of the driver that are declared outside the
sources (`display.h`, `display.c`, `secbool.h`).  The resolutions are positive
and below `2^15`, so the `int` arithmetic of the driver does not overflow. -/
structure DisplayEnv where
  DISPLAY_RESX : Nat
  DISPLAY_RESY : Nat
  MAX_DISPLAY_RESX : Nat
  MAX_DISPLAY_RESY : Nat
  sectrue : Nat
  secfalse : Nat
  /-- The function `display_orientation(degrees)` of `display.c`: from the value
  of `DISPLAY_ORIENTATION` and the argument, the new value of
  `DISPLAY_ORIENTATION`. -/
  display_orientation : Int → Int → Int
  sectrue_ne_secfalse : sectrue ≠ secfalse
  DISPLAY_RESX_pos : 0 < DISPLAY_RESX
  DISPLAY_RESY_pos : 0 < DISPLAY_RESY
  DISPLAY_RESX_lt : DISPLAY_RESX < 2 ^ 15
  DISPLAY_RESY_lt : DISPLAY_RESY < 2 ^ 15

/-- A write to the display bus: a command byte or a data byte. -/
inductive BusWrite where
  | cmd (x : Nat)
  | data (x : Nat)
  deriving DecidableEq, Repr

/-- The macro `CMD(X)`: the byte written to the command register. -/
def CMD (x : Nat) : BusWrite := .cmd (x % 256)

/-- The macro `DATA(X)`: the byte written to the data register. -/
def DATA (x : Nat) : BusWrite := .data (x % 256)

/-- A pair of `uint16_t` coordinates. -/
structure Coord where
  x : Nat
  y : Nat
  deriving DecidableEq, Repr

/-- The variable `PIXELWINDOW` (`end_` is its member `end`). -/
structure PIXELWINDOW_t where
  start : Coord
  end_ : Coord
  pos : Coord
  deriving DecidableEq, Repr

/-- The variables of the driver: the buffer `DBUF` as the memory it points to,
`DBUF_DIRTY`, `PIXELWINDOW`, `BUFFER_OFFSET`, `DISPLAY_ORIENTATION`, the static
`t0` of `display_refresh`, and the writes made to the display bus so far. -/
structure DisplayState where
  DBUF : Nat → Byte
  DBUF_DIRTY : Nat
  PIXELWINDOW : PIXELWINDOW_t
  BUFFER_OFFSET : Coord
  DISPLAY_ORIENTATION : Int
  t0 : Nat
  bus : List BusWrite

/-- The byte `d` that `PIXELDATA(c)` stores. -/
def PIXELDATA_d (c : Nat) : Byte :=
  ⟨(((c &&& 0xE000) >>> 8) ||| ((c &&& 0x700) >>> 6) ||| ((c &&& 0x18) >>> 3)) % 256,
    Nat.mod_lt _ (by decide)⟩

/-- The function `PIXELDATA`. -/
def PIXELDATA (D : DisplayEnv) (c : Nat) (st : DisplayState) : DisplayState :=
  let c := c % 2 ^ 16
  let w := st.PIXELWINDOW
  let i := w.pos.x + w.pos.y * D.DISPLAY_RESX
  let st1 : DisplayState :=
    if w.pos.x ≤ w.end_.x ∧ w.pos.y ≤ w.end_.y then
      if i < D.DISPLAY_RESX * D.DISPLAY_RESY then
        { st with DBUF := Function.update st.DBUF i (PIXELDATA_d c), DBUF_DIRTY := D.sectrue }
      else st
    else st
  let x := (w.pos.x + 1) % 2 ^ 16
  if x > w.end_.x then
    { st1 with PIXELWINDOW := { w with pos := ⟨w.start.x, (w.pos.y + 1) % 2 ^ 16⟩ } }
  else
    { st1 with PIXELWINDOW := { w with pos := ⟨x, w.pos.y⟩ } }

/-- Successive calls of `PIXELDATA`, one for each colour of the list. -/
def PIXELDATA_calls (D : DisplayEnv) (cs : List Nat) (st : DisplayState) : DisplayState :=
  cs.foldl (fun s c => PIXELDATA D c s) st

/-- The function `display_set_window`. -/
def display_set_window (x0 y0 x1 y1 : Nat) (st : DisplayState) : DisplayState :=
  let x0 := (x0 + st.BUFFER_OFFSET.x) % 2 ^ 16
  let x1 := (x1 + st.BUFFER_OFFSET.x) % 2 ^ 16
  let y0 := (y0 + st.BUFFER_OFFSET.y) % 2 ^ 16
  let y1 := (y1 + st.BUFFER_OFFSET.y) % 2 ^ 16
  { st with PIXELWINDOW := ⟨⟨x0, y0⟩, ⟨x1, y1⟩, ⟨x0, y0⟩⟩ }

/-- The function `display_clear`. -/
def display_clear (D : DisplayEnv) (st : DisplayState) : DisplayState :=
  let saved_orientation := st.DISPLAY_ORIENTATION
  let st := { st with DISPLAY_ORIENTATION := D.display_orientation st.DISPLAY_ORIENTATION 0 }
  let st := display_set_window 0 0 (to_uint16 ((D.MAX_DISPLAY_RESX : Int) - 1))
    (to_uint16 ((D.MAX_DISPLAY_RESY : Int) - 1)) st
  let st := { st with bus := st.bus ++
    (List.range (D.MAX_DISPLAY_RESX * D.MAX_DISPLAY_RESY)).flatMap (fun _ => [DATA 0x00, DATA 0x00]) }
  let st := display_set_window 0 0 (to_uint16 ((D.DISPLAY_RESX : Int) - 1))
    (to_uint16 ((D.DISPLAY_RESY : Int) - 1)) st
  let st := { st with
    DISPLAY_ORIENTATION := D.display_orientation st.DISPLAY_ORIENTATION saved_orientation }
  PIXELDATA_calls D (List.replicate (D.DISPLAY_RESX * D.DISPLAY_RESY) 0x0000) st

/-- The table `rgb332to565lut` of `display_refresh`. -/
def rgb332to565lut : List Nat := [
  0x0000, 0x000a, 0x0015, 0x001f, 0x0120, 0x012a, 0x0135, 0x013f,
  0x0240, 0x024a, 0x0255, 0x025f, 0x0360, 0x036a, 0x0375, 0x037f,
  0x0480, 0x048a, 0x0495, 0x049f, 0x05a0, 0x05aa, 0x05b5, 0x05bf,
  0x06c0, 0x06ca, 0x06d5, 0x06df, 0x07e0, 0x07ea, 0x07f5, 0x07ff,
  0x2000, 0x200a, 0x2015, 0x201f, 0x2120, 0x212a, 0x2135, 0x213f,
  0x2240, 0x224a, 0x2255, 0x225f, 0x2360, 0x236a, 0x2375, 0x237f,
  0x2480, 0x248a, 0x2495, 0x249f, 0x25a0, 0x25aa, 0x25b5, 0x25bf,
  0x26c0, 0x26ca, 0x26d5, 0x26df, 0x27e0, 0x27ea, 0x27f5, 0x27ff,
  0x4800, 0x480a, 0x4815, 0x481f, 0x4920, 0x492a, 0x4935, 0x493f,
  0x4a40, 0x4a4a, 0x4a55, 0x4a5f, 0x4b60, 0x4b6a, 0x4b75, 0x4b7f,
  0x4c80, 0x4c8a, 0x4c95, 0x4c9f, 0x4da0, 0x4daa, 0x4db5, 0x4dbf,
  0x4ec0, 0x4eca, 0x4ed5, 0x4edf, 0x4fe0, 0x4fea, 0x4ff5, 0x4fff,
  0x6800, 0x680a, 0x6815, 0x681f, 0x6920, 0x692a, 0x6935, 0x693f,
  0x6a40, 0x6a4a, 0x6a55, 0x6a5f, 0x6b60, 0x6b6a, 0x6b75, 0x6b7f,
  0x6c80, 0x6c8a, 0x6c95, 0x6c9f, 0x6da0, 0x6daa, 0x6db5, 0x6dbf,
  0x6ec0, 0x6eca, 0x6ed5, 0x6edf, 0x6fe0, 0x6fea, 0x6ff5, 0x6fff,
  0x9000, 0x900a, 0x9015, 0x901f, 0x9120, 0x912a, 0x9135, 0x913f,
  0x9240, 0x924a, 0x9255, 0x925f, 0x9360, 0x936a, 0x9375, 0x937f,
  0x9480, 0x948a, 0x9495, 0x949f, 0x95a0, 0x95aa, 0x95b5, 0x95bf,
  0x96c0, 0x96ca, 0x96d5, 0x96df, 0x97e0, 0x97ea, 0x97f5, 0x97ff,
  0xb000, 0xb00a, 0xb015, 0xb01f, 0xb120, 0xb12a, 0xb135, 0xb13f,
  0xb240, 0xb24a, 0xb255, 0xb25f, 0xb360, 0xb36a, 0xb375, 0xb37f,
  0xb480, 0xb48a, 0xb495, 0xb49f, 0xb5a0, 0xb5aa, 0xb5b5, 0xb5bf,
  0xb6c0, 0xb6ca, 0xb6d5, 0xb6df, 0xb7e0, 0xb7ea, 0xb7f5, 0xb7ff,
  0xd800, 0xd80a, 0xd815, 0xd81f, 0xd920, 0xd92a, 0xd935, 0xd93f,
  0xda40, 0xda4a, 0xda55, 0xda5f, 0xdb60, 0xdb6a, 0xdb75, 0xdb7f,
  0xdc80, 0xdc8a, 0xdc95, 0xdc9f, 0xdda0, 0xddaa, 0xddb5, 0xddbf,
  0xdec0, 0xdeca, 0xded5, 0xdedf, 0xdfe0, 0xdfea, 0xdff5, 0xdfff,
  0xf800, 0xf80a, 0xf815, 0xf81f, 0xf920, 0xf92a, 0xf935, 0xf93f,
  0xfa40, 0xfa4a, 0xfa55, 0xfa5f, 0xfb60, 0xfb6a, 0xfb75, 0xfb7f,
  0xfc80, 0xfc8a, 0xfc95, 0xfc9f, 0xfda0, 0xfdaa, 0xfdb5, 0xfdbf,
  0xfec0, 0xfeca, 0xfed5, 0xfedf, 0xffe0, 0xffea, 0xfff5, 0xffff]

/-- The two busy-wait loops of `display_refresh` on the samples that
`HAL_GPIO_ReadPin(GPIOD, GPIO_PIN_12)` returns (`true` is `GPIO_PIN_SET`): what
is left of the samples once both loops have ended, nothing if they have not. -/
def display_refresh_sync (pins : List Bool) : Option (List Bool) :=
  match pins.dropWhile (fun p => p == false) with
  | [] => Option.none
  | _ :: rest =>
    match rest.dropWhile (fun p => p == true) with
    | [] => Option.none
    | _ :: rest2 => some rest2

/-- The indices of `DBUF` that the flush loops of `display_refresh` read, in
the order of the reads, for a value of `DISPLAY_ORIENTATION`. -/
def display_refresh_indices (D : DisplayEnv) (orientation : Int) : List Nat :=
  if orientation = 0 then
    (List.range (D.DISPLAY_RESX * D.DISPLAY_RESY)).map (fun i => i)
  else if orientation = 90 then
    (List.range D.DISPLAY_RESY).flatMap (fun j =>
      (List.range D.DISPLAY_RESX).map (fun i => (D.DISPLAY_RESX - 1 - i) * D.DISPLAY_RESY + j))
  else if orientation = 180 then
    (List.range (D.DISPLAY_RESX * D.DISPLAY_RESY)).map
      (fun i => D.DISPLAY_RESX * D.DISPLAY_RESY - 1 - i)
  else if orientation = 270 then
    (List.range D.DISPLAY_RESY).flatMap (fun j =>
      (List.range D.DISPLAY_RESX).map (fun i => i * D.DISPLAY_RESY + (D.DISPLAY_RESY - 1 - j)))
  else []

/-- The function `display_refresh`, called with the samples of the
synchronization pin and the value that `HAL_GetTick()` returns if it is called;
no result while the busy-wait loops have not ended. -/
def display_refresh (D : DisplayEnv) (pins : List Bool) (tick : Nat) (st : DisplayState) :
    Option DisplayState :=
  match display_refresh_sync pins with
  | Option.none => Option.none
  | some _ =>
    if D.sectrue ≠ st.DBUF_DIRTY then some st
    else
      let t1 := tick % 2 ^ 32
      if t1 < (st.t0 + 16) % 2 ^ 32 then some { st with t0 := t1 }
      else
        let x0 := 0
        let y0 := 0
        let x1 := to_uint16 ((D.DISPLAY_RESX : Int) - 1)
        let y1 := to_uint16 ((D.DISPLAY_RESY : Int) - 1)
        let window := [CMD 0x2A, DATA (x0 >>> 8), DATA (x0 &&& 0xFF), DATA (x1 >>> 8),
          DATA (x1 &&& 0xFF), CMD 0x2B, DATA (y0 >>> 8), DATA (y0 &&& 0xFF), DATA (y1 >>> 8),
          DATA (y1 &&& 0xFF), CMD 0x2C]
        let pixels := (display_refresh_indices D st.DISPLAY_ORIENTATION).flatMap (fun o =>
          let d := rgb332to565lut.getD (st.DBUF o).val 0
          [DATA (d >>> 8), DATA (d &&& 0xFF)])
        some { st with t0 := t1, bus := st.bus ++ window ++ pixels, DBUF_DIRTY := D.secfalse }

/-- An instance of the display constants: 240 × 240 pixels in a frame memory of
240 × 320, the values of `secbool.h`, and an orientation that changes to a
valid number of degrees only. -/
def testDisplay : DisplayEnv where
  DISPLAY_RESX := 240
  DISPLAY_RESY := 240
  MAX_DISPLAY_RESX := 240
  MAX_DISPLAY_RESY := 320
  sectrue := 0xAAAAAAAA
  secfalse := 0
  display_orientation := fun cur degrees =>
    if degrees = 0 ∨ degrees = 90 ∨ degrees = 180 ∨ degrees = 270 then degrees else cur
  sectrue_ne_secfalse := by decide
  DISPLAY_RESX_pos := by decide
  DISPLAY_RESY_pos := by decide
  DISPLAY_RESX_lt := by decide
  DISPLAY_RESY_lt := by decide

/-- A state of the driver for evaluating it on concrete inputs: a buffer full
of the byte 255, marked clean. -/
def testDisplayState : DisplayState :=
  ⟨fun _ => 255, 0, ⟨⟨0, 0⟩, ⟨0, 0⟩, ⟨0, 0⟩⟩, ⟨0, 0⟩, 0, 0, []⟩

@[simp] theorem run_pure {α : Type} (a : α) (s : State Pt) :
    (pure a : M Pt α).run s = (.ok a, s) := rfl

@[simp] theorem run_bind {α β : Type} (m : M Pt α) (f : α → M Pt β) (s : State Pt) :
    (m >>= f).run s =
      match m.run s with
      | (.ok a, s1) => (f a).run s1
      | (.error e, s1) => (.error e, s1) := rfl

@[simp] theorem run_mp_raise {α : Type} (e : Exc) (s : State Pt) :
    (mp_raise e : M Pt α).run s = (.error e, s) := rfl

@[simp] theorem run_getState (s : State Pt) : (getState : M Pt _).run s = (.ok s, s) := rfl

@[simp] theorem run_alloc (c : Cell Pt) (s : State Pt) :
    (alloc c).run s = (.ok (.ref s.heap.length), { s with heap := s.heap ++ [c] }) := rfl

@[simp] theorem run_store (a : Nat) (c : Cell Pt) (s : State Pt) :
    (store a c).run s = (.ok (), { s with heap := s.heap.set a c }) := rfl

@[simp] theorem run_logCall (c : Call) (s : State Pt) :
    (logCall c : M Pt Unit).run s = (.ok (), { s with calls := s.calls ++ [c] }) := rfl

@[simp] theorem run_ite {α : Type} (c : Prop) [Decidable c] (m1 m2 : M Pt α) (s : State Pt) :
    (if c then m1 else m2).run s = if c then m1.run s else m2.run s := by
  split <;> rfl

theorem run_mp_get_buffer_raise_bytes (d : List Byte) (s : State Pt) :
    (mp_get_buffer_raise (.bytes d) .MP_BUFFER_READ).run s = (.ok ⟨Option.none, d⟩, s) := rfl

theorem MP_OBJ_IS_SCALAR_iff (s : State Pt) (o : Obj) :
    MP_OBJ_IS_SCALAR s o = true ↔ ∃ a p, o = .ref a ∧ s.heap[a]? = some (.scalar p) := by
  cases o <;> simp [MP_OBJ_IS_SCALAR, deref]
  split <;> simp_all

theorem lt_length_of_getElem? {α : Type} (l : List α) (i : Nat) (x : α) (h : l[i]? = some x) :
    i < l.length := by
  rcases Nat.lt_or_ge i l.length with h1 | h1
  · exact h1
  · rw [List.getElem?_eq_none h1] at h; cases h

/-! ## Scalars from byte strings -/

/-- C1: building a scalar from a byte string `d` (constructor, `init256_modm`,
`unpack256_modm`, with or without an output scalar) returns if and only if
`32 ≤ len d ≤ 64`; it then calls `expand256_modm` once on `d`, and for any
other length it raises without any library call. -/
theorem C1_scalar_from_bytes_length (s : State Pt) (d : List Byte) (r : Obj)
    (hr : MP_OBJ_IS_SCALAR s r = true) :
    ∀ m ∈ (scalar_from_bytes_calls r d : List (M Pt Obj)),
      (returned (m.run s) ↔ 32 ≤ d.length ∧ d.length ≤ 64) ∧
      (32 ≤ d.length ∧ d.length ≤ 64 →
        (m.run s).2.calls = s.calls ++ [Call.expand256_modm d d.length]) ∧
      (¬ (32 ≤ d.length ∧ d.length ≤ 64) →
        raised (m.run s) ∧ (m.run s).2.calls = s.calls) := by
  obtain ⟨a, p, rfl, ha⟩ := (MP_OBJ_IS_SCALAR_iff s r).1 hr
  intro m hm
  simp only [scalar_from_bytes_calls, List.mem_cons, List.mem_singleton, List.not_mem_nil,
    or_false] at hm
  by_cases hlen : d.length < 32 ∨ 64 < d.length
  · have hn : ¬ (32 ≤ d.length ∧ d.length ≤ 64) := by omega
    rcases hm with rfl | rfl | rfl | rfl | rfl <;>
    simp [mod_trezorcrypto_monero_bignum256modm_make_new, mp_arg_check_num,
      mod_trezorcrypto_monero_init256_modm_obj,
      mod_trezorcrypto_monero_init256_modm,
      mod_trezorcrypto_monero_unpack256_modm_obj, MP_DEFINE_CONST_FUN_OBJ_VAR_BETWEEN,
      mod_trezorcrypto_monero_unpack256_modm, mp_obj_new_scalar, assert_scalar, mp_unpack_scalar,
      run_mp_get_buffer_raise_bytes, argAt, MP_OBJ_IS_SCALAR, deref, mp_buffer_info_t.len,
      MP_OBJ_IS_STR_OR_BYTES,
      set_MP_OBJ_SCALAR, returned, raised, ha, hlen, hn]
  · have hn : (32 ≤ d.length ∧ d.length ≤ 64) := by omega
    rcases hm with rfl | rfl | rfl | rfl | rfl <;>
    simp [mod_trezorcrypto_monero_bignum256modm_make_new, mp_arg_check_num,
      mod_trezorcrypto_monero_init256_modm_obj,
      mod_trezorcrypto_monero_init256_modm,
      mod_trezorcrypto_monero_unpack256_modm_obj, MP_DEFINE_CONST_FUN_OBJ_VAR_BETWEEN,
      mod_trezorcrypto_monero_unpack256_modm, mp_obj_new_scalar, assert_scalar, mp_unpack_scalar,
      run_mp_get_buffer_raise_bytes, argAt, MP_OBJ_IS_SCALAR, deref, mp_buffer_info_t.len,
      MP_OBJ_IS_STR_OR_BYTES,
      set_MP_OBJ_SCALAR, returned, raised, ha, hlen, hn]

/-- Witness for C1: a heap holding one scalar, and a 40-byte string. -/
theorem C1_scalar_from_bytes_length_witness :
    MP_OBJ_IS_SCALAR (⟨[Cell.scalar 5], [], 0⟩ : State Int) (.ref 0) = true ∧
    ∀ m ∈ (scalar_from_bytes_calls (.ref 0) (List.replicate 40 7) : List (M Int Obj)),
      (returned (m.run ⟨[Cell.scalar 5], [], 0⟩) ↔
        32 ≤ (List.replicate 40 (7 : Byte)).length ∧ (List.replicate 40 (7 : Byte)).length ≤ 64) ∧
      (32 ≤ (List.replicate 40 (7 : Byte)).length ∧ (List.replicate 40 (7 : Byte)).length ≤ 64 →
        (m.run ⟨[Cell.scalar 5], [], 0⟩).2.calls =
          [] ++ [Call.expand256_modm (List.replicate 40 7) (List.replicate 40 (7 : Byte)).length]) ∧
      (¬ (32 ≤ (List.replicate 40 (7 : Byte)).length ∧ (List.replicate 40 (7 : Byte)).length ≤ 64) →
        raised (m.run ⟨[Cell.scalar 5], [], 0⟩) ∧ (m.run ⟨[Cell.scalar 5], [], 0⟩).2.calls = []) :=
  ⟨rfl, C1_scalar_from_bytes_length ⟨[Cell.scalar 5], [], 0⟩ (List.replicate 40 7) (.ref 0) rfl⟩

/-! ## Little-endian byte strings -/

theorem toLE_length (n v : Nat) : (toLE n v).length = n := by
  induction n generalizing v with
  | zero => rfl
  | succ n ih => simp [toLE, ih]

theorem fromLE_toLE (n v : Nat) : fromLE (toLE n v) = v % 256 ^ n := by
  induction n generalizing v with
  | zero => simp [toLE, fromLE, Nat.mod_one]
  | succ n ih =>
    simp only [toLE, fromLE, ih]
    rw [pow_succ, mul_comm (256 ^ n) 256, Nat.mod_mul, add_comm]

theorem ell_lt : ell < 256 ^ 32 := by decide

theorem expand256_modm_full (d : List Byte) : expand256_modm d d.length = fromLE d % ell := by
  simp [expand256_modm]

theorem unpack256_modm_of_32_bytes (s : State Pt) (d : List Byte) (hd : d.length = 32) :
    (mod_trezorcrypto_monero_unpack256_modm_obj [.bytes d]).run s =
      (.ok (.ref s.heap.length),
        { s with heap := s.heap ++ [.scalar (fromLE d % ell)],
                 calls := s.calls ++ [Call.expand256_modm d 32] }) := by
  have h := expand256_modm_full d
  rw [hd] at h
  simp [mod_trezorcrypto_monero_unpack256_modm_obj, MP_DEFINE_CONST_FUN_OBJ_VAR_BETWEEN,
    mod_trezorcrypto_monero_unpack256_modm, mp_obj_new_scalar, assert_scalar, mp_unpack_scalar,
    run_mp_get_buffer_raise_bytes, argAt, MP_OBJ_IS_SCALAR, deref, mp_buffer_info_t.len,
    set_MP_OBJ_SCALAR, hd, h]

/-- C2 fails as stated: the 32-byte string of `0xff` bytes encodes a value
`≥ ℓ`, and `unpack256_modm` returns a scalar for it instead of raising. -/
theorem C2_counterexample :
    (List.replicate 32 (255 : Byte)).length = 32 ∧
    ell ≤ fromLE (List.replicate 32 (255 : Byte)) ∧
    returned ((mod_trezorcrypto_monero_unpack256_modm_obj
      [.bytes (List.replicate 32 255)]).run (⟨[], [], 0⟩ : State Int)) ∧
    ¬ raised ((mod_trezorcrypto_monero_unpack256_modm_obj
      [.bytes (List.replicate 32 255)]).run (⟨[], [], 0⟩ : State Int)) := by
  refine ⟨rfl, by decide, ⟨.ref 0, rfl⟩, ?_⟩
  rintro ⟨e, he⟩
  change Except.ok (Obj.ref 0) = Except.error e at he
  cases he

/-- C2 (amended): `unpack256_modm` does no range check.  For every 32-byte
input it returns, without raising, a scalar holding the little-endian value of
the input reduced modulo ℓ: a fresh scalar in the one-argument form, the output
scalar `r` in the two-argument form. -/
theorem C2_unpack256_modm_reduces (s : State Pt) (d : List Byte) (a p : Nat)
    (hd : d.length = 32) (ha : s.heap[a]? = some (.scalar p)) :
    (mod_trezorcrypto_monero_unpack256_modm_obj [.bytes d]).run s =
      (.ok (.ref s.heap.length),
        { s with heap := s.heap ++ [.scalar (fromLE d % ell)],
                 calls := s.calls ++ [Call.expand256_modm d 32] }) ∧
    (mod_trezorcrypto_monero_unpack256_modm_obj [.ref a, .bytes d]).run s =
      (.ok (.ref a),
        { s with heap := s.heap.set a (.scalar (fromLE d % ell)),
                 calls := s.calls ++ [Call.expand256_modm d 32] }) := by
  have h := expand256_modm_full d
  rw [hd] at h
  constructor <;>
  simp [mod_trezorcrypto_monero_unpack256_modm_obj, MP_DEFINE_CONST_FUN_OBJ_VAR_BETWEEN,
    mod_trezorcrypto_monero_unpack256_modm, mp_obj_new_scalar, assert_scalar, mp_unpack_scalar,
    run_mp_get_buffer_raise_bytes, argAt, MP_OBJ_IS_SCALAR, deref, mp_buffer_info_t.len,
    set_MP_OBJ_SCALAR, ha, hd, h]

/-- Witness for C2 (amended): the all-`0xff` string and a heap with one scalar. -/
theorem C2_unpack256_modm_reduces_witness :
    (mod_trezorcrypto_monero_unpack256_modm_obj [.bytes (List.replicate 32 255)]).run
        (⟨[Cell.scalar 5], [], 0⟩ : State Int) =
      (.ok (.ref 1),
        ⟨[Cell.scalar 5] ++ [.scalar (fromLE (List.replicate 32 255) % ell)],
          [] ++ [Call.expand256_modm (List.replicate 32 255) 32], 0⟩) ∧
    (mod_trezorcrypto_monero_unpack256_modm_obj [.ref 0, .bytes (List.replicate 32 255)]).run
        (⟨[Cell.scalar 5], [], 0⟩ : State Int) =
      (.ok (.ref 0),
        ⟨[Cell.scalar 5].set 0 (.scalar (fromLE (List.replicate 32 255) % ell)),
          [] ++ [Call.expand256_modm (List.replicate 32 255) 32], 0⟩) :=
  C2_unpack256_modm_reduces ⟨[Cell.scalar 5], [], 0⟩ (List.replicate 32 255) 0 5 rfl rfl

/-! ## Fused multiply-subtract -/

/-- C9: for a canonical scalar (value `< ℓ`), `pack256_modm` returns a byte
string of exactly 32 bytes, `unpack256_modm` accepts that string (it returns,
so no length error), and the scalar it returns holds the original value. -/
theorem C9_scalar_round_trip (s : State Pt) (a v : Nat)
    (ha : s.heap[a]? = some (.scalar v)) (hv : v < ell) :
    ∃ b : List Byte,
      (mod_trezorcrypto_monero_pack256_modm_obj [.ref a]).run s = (.ok (.bytes b), s) ∧
      b.length = 32 ∧
      ∃ (res : Obj) (s2 : State Pt),
        (mod_trezorcrypto_monero_unpack256_modm_obj [.bytes b]).run s = (.ok res, s2) ∧
        deref s2 res = some (.scalar v) := by
  refine ⟨toLE 32 v, ?_, toLE_length 32 v, ?_⟩
  · simp [mod_trezorcrypto_monero_pack256_modm_obj, MP_DEFINE_CONST_FUN_OBJ_1,
      mod_trezorcrypto_monero_pack256_modm, assert_scalar, MP_OBJ_IS_SCALAR, MP_OBJ_C_SCALAR,
      deref, ha, mp_obj_new_bytes, contract256_modm]
    exact le_of_eq (toLE_length 32 v)
  · have h1 := (unpack256_modm_of_32_bytes s (toLE 32 v) (toLE_length 32 v))
    refine ⟨_, _, h1, ?_⟩
    have h2 : fromLE (toLE 32 v) % ell = v := by
      rw [fromLE_toLE, Nat.mod_eq_of_lt (lt_trans hv ell_lt), Nat.mod_eq_of_lt hv]
    simp [deref, h2]

/-- Witness for C9: the scalar 5 at address 0. -/
theorem C9_scalar_round_trip_witness :
    ∃ b : List Byte,
      (mod_trezorcrypto_monero_pack256_modm_obj [.ref 0]).run
          (⟨[Cell.scalar 5], [], 0⟩ : State Int) = (.ok (.bytes b), ⟨[Cell.scalar 5], [], 0⟩) ∧
      b.length = 32 ∧
      ∃ (res : Obj) (s2 : State Int),
        (mod_trezorcrypto_monero_unpack256_modm_obj [.bytes b]).run ⟨[Cell.scalar 5], [], 0⟩ =
          (.ok res, s2) ∧
        deref s2 res = some (.scalar 5) :=
  C9_scalar_round_trip ⟨[Cell.scalar 5], [], 0⟩ 0 5 rfl (by decide)

/-! ## Point decoding -/

/-- C3: decoding a point from a byte string `d` raises if and only if `len d`
is not 32 or the decoder does not return 1; otherwise the call returns a point
object holding what the decoder produced.  This holds for the constructor
`ge25519(d)` and for `ge25519_unpack_vartime` without and with an output point
(`old` is the content of the target before the decoder runs). -/
theorem C3_point_unpack_raises_iff [AddCommGroup Pt] (E : Env Pt) (s : State Pt)
    (d : List Byte) (a : Nat) (p : Pt) (ha : s.heap[a]? = some (.ge25519 p)) :
    ∀ c ∈ [(mod_trezorcrypto_monero_ge25519_make_new E 0 [.bytes d], E.ge25519_uninit),
           (mod_trezorcrypto_monero_ge25519_unpack_vartime_obj E [.bytes d], ge25519_set_neutral),
           (mod_trezorcrypto_monero_ge25519_unpack_vartime_obj E [.ref a, .bytes d], p)],
      (raised (c.1.run s) ↔ d.length ≠ 32 ∨ (E.ge25519_unpack_vartime c.2 d).1 ≠ 1) ∧
      (d.length = 32 → (E.ge25519_unpack_vartime c.2 d).1 = 1 →
        ∃ res, (c.1.run s).1 = .ok res ∧
          deref (c.1.run s).2 res = some (.ge25519 (E.ge25519_unpack_vartime c.2 d).2)) := by
  have hal : a < s.heap.length := by
    rcases Nat.lt_or_ge a s.heap.length with h | h
    · exact h
    · rw [List.getElem?_eq_none h] at ha; cases ha
  intro c hc
  simp only [List.mem_cons, List.mem_singleton, List.not_mem_nil, or_false] at hc
  by_cases hlen : d.length = 32
  · rcases hc with rfl | rfl | rfl
    · by_cases hres : (E.ge25519_unpack_vartime E.ge25519_uninit d).1 = 1 <;>
      simp [mod_trezorcrypto_monero_ge25519_make_new, mp_arg_check_num,
        mod_trezorcrypto_monero_ge25519_unpack_vartime_obj, MP_DEFINE_CONST_FUN_OBJ_VAR_BETWEEN,
        mod_trezorcrypto_monero_ge25519_unpack_vartime, mp_obj_new_ge25519, assert_ge25519,
        mp_unpack_ge25519, run_mp_get_buffer_raise_bytes, argAt, MP_OBJ_IS_GE25519,
        MP_OBJ_C_GE25519, deref, mp_buffer_info_t.len, MP_OBJ_IS_STR_OR_BYTES,
        set_MP_OBJ_GE25519, raised, ha, hal, hlen, hres]
    · by_cases hres : (E.ge25519_unpack_vartime ge25519_set_neutral d).1 = 1 <;>
      simp [mod_trezorcrypto_monero_ge25519_make_new, mp_arg_check_num,
        mod_trezorcrypto_monero_ge25519_unpack_vartime_obj, MP_DEFINE_CONST_FUN_OBJ_VAR_BETWEEN,
        mod_trezorcrypto_monero_ge25519_unpack_vartime, mp_obj_new_ge25519, assert_ge25519,
        mp_unpack_ge25519, run_mp_get_buffer_raise_bytes, argAt, MP_OBJ_IS_GE25519,
        MP_OBJ_C_GE25519, deref, mp_buffer_info_t.len, MP_OBJ_IS_STR_OR_BYTES,
        set_MP_OBJ_GE25519, raised, ha, hal, hlen, hres]
    · by_cases hres : (E.ge25519_unpack_vartime p d).1 = 1 <;>
      simp [mod_trezorcrypto_monero_ge25519_make_new, mp_arg_check_num,
        mod_trezorcrypto_monero_ge25519_unpack_vartime_obj, MP_DEFINE_CONST_FUN_OBJ_VAR_BETWEEN,
        mod_trezorcrypto_monero_ge25519_unpack_vartime, mp_obj_new_ge25519, assert_ge25519,
        mp_unpack_ge25519, run_mp_get_buffer_raise_bytes, argAt, MP_OBJ_IS_GE25519,
        MP_OBJ_C_GE25519, deref, mp_buffer_info_t.len, MP_OBJ_IS_STR_OR_BYTES,
        set_MP_OBJ_GE25519, raised, ha, hal, hlen, hres]
  · rcases hc with rfl | rfl | rfl <;>
      simp [mod_trezorcrypto_monero_ge25519_make_new, mp_arg_check_num,
        mod_trezorcrypto_monero_ge25519_unpack_vartime_obj, MP_DEFINE_CONST_FUN_OBJ_VAR_BETWEEN,
        mod_trezorcrypto_monero_ge25519_unpack_vartime, mp_obj_new_ge25519, assert_ge25519,
        mp_unpack_ge25519, run_mp_get_buffer_raise_bytes, argAt, MP_OBJ_IS_GE25519,
        MP_OBJ_C_GE25519, deref, mp_buffer_info_t.len, MP_OBJ_IS_STR_OR_BYTES,
        set_MP_OBJ_GE25519, raised, ha, hal, hlen]

/-! ## Integer conversions -/

theorem fromLE_append (l1 l2 : List Byte) :
    fromLE (l1 ++ l2) = fromLE l1 + 256 ^ l1.length * fromLE l2 := by
  induction l1 with
  | nil => simp [fromLE]
  | cons b t ih =>
    rw [List.cons_append, fromLE, ih, fromLE, List.length_cons, pow_succ]
    ring

theorem fromLE_lt (l : List Byte) : fromLE l < 256 ^ l.length := by
  induction l with
  | nil => simp [fromLE]
  | cons b t ih =>
    simp only [fromLE, List.length_cons, pow_succ]
    have := b.isLt
    omega

theorem mp_obj_uint64_get_checked_step (res b : Nat) (hres : res * 256 < 2 ^ 64)
    (hb : b < 256) : ((res <<< 8) % 2 ^ 64) ||| (b &&& 0xff) = res * 256 + b := by
  have h1 : res <<< 8 = res * 256 := by rw [Nat.shiftLeft_eq]
  have h2 : b &&& 0xff = b := by
    have := Nat.and_pow_two_sub_one_eq_mod b 8
    simp only [Nat.reducePow, Nat.add_one_sub_one] at this
    rw [this]; exact Nat.mod_eq_of_lt hb
  rw [h1, h2, Nat.mod_eq_of_lt hres]
  have h3 := Nat.mul_add_lt_is_or (i := 8) (b := b) hb res
  simp only [Nat.reducePow] at h3
  rw [mul_comm res 256, h3]

theorem mp_obj_uint64_get_checked_loop_eq (buff : List Byte) (res : Nat)
    (h : res * 256 ^ buff.length + fromLE buff.reverse < 2 ^ 64) :
    mp_obj_uint64_get_checked_loop buff res = res * 256 ^ buff.length + fromLE buff.reverse := by
  induction buff generalizing res with
  | nil => simp [mp_obj_uint64_get_checked_loop, fromLE]
  | cons b t ih =>
    simp only [List.length_cons, List.reverse_cons, fromLE_append, List.length_reverse, fromLE,
      pow_succ] at h ⊢
    have hb := b.isLt
    have hpos : 0 < 256 ^ t.length := Nat.pow_pos (by decide)
    have hres : res * 256 < 2 ^ 64 := by nlinarith
    rw [mp_obj_uint64_get_checked_loop, mp_obj_uint64_get_checked_step res b.val hres hb]
    rw [ih]
    · ring
    · nlinarith

theorem pow_256_8 : 256 ^ 8 = 2 ^ 64 := by norm_num

theorem mp_obj_uint64_get_checked_loop_be (l : List Byte) (hl : l.length = 8) :
    (match l.reverse with
      | [] => 0
      | b :: rest => mp_obj_uint64_get_checked_loop rest (0 ||| (b.val &&& 0xff))) = fromLE l := by
  have hlt : fromLE l < 2 ^ 64 := by
    have := fromLE_lt l
    rw [hl, pow_256_8] at this
    exact this
  cases h : l.reverse with
  | nil =>
    have := congrArg List.length h
    rw [List.length_reverse, hl] at this
    cases this
  | cons b rest =>
    have hrev : (b :: rest).reverse = l := by rw [← h, List.reverse_reverse]
    have h0 : mp_obj_uint64_get_checked_loop rest (0 ||| (b.val &&& 0xff)) =
        mp_obj_uint64_get_checked_loop (b :: rest) 0 := by
      rw [mp_obj_uint64_get_checked_loop.eq_def (b :: rest)]
      simp
    show mp_obj_uint64_get_checked_loop rest (0 ||| (b.val &&& 0xff)) = fromLE l
    rw [h0, mp_obj_uint64_get_checked_loop_eq]
    · rw [hrev, Nat.zero_mul, Nat.zero_add]
    · rw [hrev, Nat.zero_mul, Nat.zero_add]
      exact hlt

theorem to_uint64_lt (v : Int) : to_uint64 v < 2 ^ 64 := by
  unfold to_uint64
  omega

theorem mp_obj_int_to_bytes_impl_8 (v : Int) :
    mp_obj_int_to_bytes_impl v false 8 = toLE 8 (to_uint64 v) := by
  have hr : List.range 8 = [0, 1, 2, 3, 4, 5, 6, 7] := by decide
  simp only [mp_obj_int_to_bytes_impl, hr, List.map, Bool.false_eq_true, if_false, toLE,
    to_uint64, Int.reducePow, Nat.reducePow, pow_zero, pow_one, List.cons.injEq, Fin.mk.injEq,
    and_true]
  refine ⟨?_, ?_, ?_, ?_, ?_, ?_, ?_, ?_⟩ <;> omega

theorem fromLE_int_bytes_8 (v : Int) :
    fromLE (mp_obj_int_to_bytes_impl v false 8) = to_uint64 v := by
  rw [mp_obj_int_to_bytes_impl_8, fromLE_toLE]
  exact Nat.mod_eq_of_lt (by have := to_uint64_lt v; rw [pow_256_8]; exact this)

theorem mp_obj_int_to_bytes_impl_be (v : Int) (n : Nat) :
    mp_obj_int_to_bytes_impl v true n = (mp_obj_int_to_bytes_impl v false n).reverse := by
  simp [mp_obj_int_to_bytes_impl]

theorem mp_obj_int_to_bytes_impl_length (v : Int) (n : Nat) :
    (mp_obj_int_to_bytes_impl v false n).length = n := by
  simp [mp_obj_int_to_bytes_impl]

theorem mp_obj_uint64_get_checked_int (v : Int) :
    mp_obj_uint64_get_checked (.int v) = to_uint64 v := by
  have h := mp_obj_uint64_get_checked_loop_be (mp_obj_int_to_bytes_impl v false 8)
    (mp_obj_int_to_bytes_impl_length v 8)
  rw [fromLE_int_bytes_8] at h
  rw [← h]
  simp only [mp_obj_uint64_get_checked, MP_OBJ_IS_SMALL_INT, Bool.false_eq_true, if_false,
    mp_obj_int_to_bytes_impl_be]

theorem mp_obj_get_uint64_of_int (amt : Obj) (a : Int) (hamt : amt = .smallInt a ∨ amt = .int a)
    (s : State Pt) : (mp_obj_get_uint64 amt : M Pt Nat).run s = (.ok (to_uint64 a), s) := by
  rcases hamt with rfl | rfl
  · simp [mp_obj_get_uint64, MP_OBJ_IS_SMALL_INT, MP_OBJ_SMALL_INT_VALUE]
  · simp [mp_obj_get_uint64, MP_OBJ_IS_SMALL_INT, MP_OBJ_IS_TYPE_int,
      mp_obj_uint64_get_checked_int]

theorem getElem?_append_add {α : Type} (l r : List α) (i : Nat) :
    (l ++ r)[l.length + i]? = r[i]? := by
  rw [List.getElem?_append_right (Nat.le_add_right _ _)]
  simp

theorem getElem?_append_length {α : Type} (l r : List α) :
    (l ++ r)[l.length]? = r[0]? := getElem?_append_add l r 0

/-! ## Commitments -/

theorem run_ge25519_scalarmult_base_scalar [AddCommGroup Pt] (E : Env Pt) (s : State Pt)
    (m vm : Nat) (hm : s.heap[m]? = some (.scalar vm)) :
    (mod_trezorcrypto_monero_ge25519_scalarmult_base_obj E [.ref m]).run s =
      (.ok (.ref s.heap.length), { s with heap := s.heap ++ [.ge25519 (vm • E.basepoint)] }) := by
  have hml := lt_length_of_getElem? _ _ _ hm
  simp [mod_trezorcrypto_monero_ge25519_scalarmult_base_obj, MP_DEFINE_CONST_FUN_OBJ_VAR_BETWEEN,
    mod_trezorcrypto_monero_ge25519_scalarmult_base, mp_obj_new_ge25519, assert_ge25519,
    argAt, MP_OBJ_IS_GE25519, MP_OBJ_IS_SCALAR, MP_OBJ_C_SCALAR, deref, set_MP_OBJ_GE25519,
    ge25519_scalarmult_base_wrapper, List.getElem?_append_left, hml, hm]

theorem run_ge25519_set_xmr_h [AddCommGroup Pt] (E : Env Pt) (s : State Pt) :
    (mod_trezorcrypto_monero_ge25519_set_xmr_h_obj E []).run s =
      (.ok (.ref s.heap.length), { s with heap := s.heap ++ [.ge25519 E.xmr_h] }) := by
  simp [mod_trezorcrypto_monero_ge25519_set_xmr_h_obj, MP_DEFINE_CONST_FUN_OBJ_VAR_BETWEEN,
    mod_trezorcrypto_monero_ge25519_set_xmr_h, mp_obj_new_ge25519, assert_ge25519,
    argAt, MP_OBJ_IS_GE25519, deref, set_MP_OBJ_GE25519, ge25519_set_xmr_h]

theorem run_ge25519_scalarmult_int [AddCommGroup Pt] (E : Env Pt) (s : State Pt)
    (h : Nat) (P : Pt) (amt : Obj) (a : Int) (hh : s.heap[h]? = some (.ge25519 P))
    (hamt : amt = .smallInt a ∨ amt = .int a) (hfit : fits_mp_int E a = true) :
    (mod_trezorcrypto_monero_ge25519_scalarmult_obj E [.ref h, amt]).run s =
      (.ok (.ref s.heap.length), { s with heap := s.heap ++ [.ge25519 (to_uint64 a • P)] }) := by
  have hhl := lt_length_of_getElem? _ _ _ hh
  rcases hamt with rfl | rfl <;>
  simp [mod_trezorcrypto_monero_ge25519_scalarmult_obj, MP_DEFINE_CONST_FUN_OBJ_VAR_BETWEEN,
    mod_trezorcrypto_monero_ge25519_scalarmult, mp_obj_new_ge25519, assert_ge25519,
    argAt, MP_OBJ_IS_GE25519, MP_OBJ_IS_SCALAR, MP_OBJ_C_GE25519, deref, set_MP_OBJ_GE25519,
    ge25519_scalarmult_wrapper, set256_modm, List.getElem?_append_left, hhl, hh,
    mp_obj_is_integer, mp_obj_get_int, mp_obj_int_get_checked, hfit]

theorem run_ge25519_add_sign_0 [AddCommGroup Pt] (E : Env Pt) (s : State Pt)
    (x y : Nat) (X Y : Pt) (hx : s.heap[x]? = some (.ge25519 X))
    (hy : s.heap[y]? = some (.ge25519 Y)) :
    (mod_trezorcrypto_monero_ge25519_add_obj E [.ref x, .ref y, .smallInt 0]).run s =
      (.ok (.ref s.heap.length), { s with heap := s.heap ++ [.ge25519 (X + Y)] }) := by
  have hxl := lt_length_of_getElem? _ _ _ hx
  have hyl := lt_length_of_getElem? _ _ _ hy
  simp [mod_trezorcrypto_monero_ge25519_add_obj, MP_DEFINE_CONST_FUN_OBJ_VAR_BETWEEN,
    mod_trezorcrypto_monero_ge25519_add, mp_obj_new_ge25519, assert_ge25519, mp_obj_is_integer,
    mp_obj_get_int, to_uint8,
    argAt, MP_OBJ_IS_GE25519, MP_OBJ_C_GE25519, deref, set_MP_OBJ_GE25519,
    ge25519_add, List.getElem?_append_left, hxl, hyl, hx, hy]

theorem run_xmr_gen_c_int [AddCommGroup Pt] (E : Env Pt) (s : State Pt)
    (m vm : Nat) (amt : Obj) (a : Int) (hm : s.heap[m]? = some (.scalar vm))
    (hamt : amt = .smallInt a ∨ amt = .int a) :
    (mod_trezorcrypto_monero_xmr_gen_c_obj E [.ref m, amt]).run s =
      (.ok (.ref s.heap.length),
        { s with heap := s.heap ++ [.ge25519 (vm • E.basepoint + to_uint64 a • E.xmr_h)] }) := by
  have hml := lt_length_of_getElem? _ _ _ hm
  have h3 := fun t : State Pt => mp_obj_get_uint64_of_int amt a hamt t
  simp [mod_trezorcrypto_monero_xmr_gen_c_obj, MP_DEFINE_CONST_FUN_OBJ_VAR_BETWEEN,
    mod_trezorcrypto_monero_xmr_gen_c, mp_obj_new_ge25519, assert_ge25519, assert_scalar,
    argAt, MP_OBJ_IS_GE25519, MP_OBJ_IS_SCALAR, MP_OBJ_C_SCALAR, deref, set_MP_OBJ_GE25519,
    xmr_gen_c, List.getElem?_append_left, hml, hm, h3]

theorem run_ge25519_scalarmult_overflow [AddCommGroup Pt] (E : Env Pt) (s : State Pt)
    (h : Nat) (P : Pt) (a : Int) (hh : s.heap[h]? = some (.ge25519 P))
    (hfit : fits_mp_int E a = false) :
    (mod_trezorcrypto_monero_ge25519_scalarmult_obj E [.ref h, .int a]).run s =
      (.error (.OverflowError "overflow converting long int to machine word"),
        { s with heap := s.heap ++ [.ge25519 ge25519_set_neutral] }) := by
  have hhl := lt_length_of_getElem? _ _ _ hh
  simp [mod_trezorcrypto_monero_ge25519_scalarmult_obj, MP_DEFINE_CONST_FUN_OBJ_VAR_BETWEEN,
    mod_trezorcrypto_monero_ge25519_scalarmult, mp_obj_new_ge25519, assert_ge25519,
    argAt, MP_OBJ_IS_GE25519, MP_OBJ_IS_SCALAR, MP_OBJ_C_GE25519, deref, set_MP_OBJ_GE25519,
    ge25519_scalarmult_wrapper, set256_modm, List.getElem?_append_left, hhl, hh,
    mp_obj_is_integer, mp_obj_get_int, mp_obj_int_get_checked, hfit]

theorem run_commitment_by_parts [AddCommGroup Pt] (E : Env Pt) (s : State Pt)
    (m vm : Nat) (amt : Obj) (a : Int) (hm : s.heap[m]? = some (.scalar vm))
    (hamt : amt = .smallInt a ∨ amt = .int a) (hfit : fits_mp_int E a = true) :
    (commitment_by_parts E (.ref m) amt).run s =
      (.ok (.ref (s.heap.length + 3)),
        { s with heap := s.heap ++ [.ge25519 (vm • E.basepoint), .ge25519 E.xmr_h,
            .ge25519 (to_uint64 a • E.xmr_h),
            .ge25519 (vm • E.basepoint + to_uint64 a • E.xmr_h)] }) := by
  unfold commitment_by_parts
  rw [run_bind, run_ge25519_scalarmult_base_scalar E s m vm hm]
  simp only []
  rw [run_bind, run_ge25519_set_xmr_h]
  simp only []
  rw [run_bind, run_ge25519_scalarmult_int E _ _ E.xmr_h amt a
    (List.getElem?_concat_length _ _) hamt hfit]
  simp only []
  rw [run_ge25519_add_sign_0 E _ _ _ (vm • E.basepoint) (to_uint64 a • E.xmr_h)
    (by simp only [List.append_assoc, getElem?_append_length]; rfl)
    (List.getElem?_concat_length _ _)]
  simp [Nat.add_assoc]

theorem commitment_by_parts_overflow [AddCommGroup Pt] (E : Env Pt) (s : State Pt)
    (m vm : Nat) (a : Int) (hm : s.heap[m]? = some (.scalar vm))
    (hfit : fits_mp_int E a = false) :
    ∃ out, (commitment_by_parts E (.ref m) (.int a)).run s =
      (.error (.OverflowError "overflow converting long int to machine word"), out) := by
  unfold commitment_by_parts
  rw [run_bind, run_ge25519_scalarmult_base_scalar E s m vm hm]
  simp only []
  rw [run_bind, run_ge25519_set_xmr_h]
  simp only []
  rw [run_bind, run_ge25519_scalarmult_overflow E _ _ E.xmr_h a
    (List.getElem?_concat_length _ _) hfit]
  exact ⟨_, rfl⟩

theorem to_uint64_of_nonneg (a : Int) (h0 : 0 ≤ a) (h2 : a < 2 ^ 64) : to_uint64 a = a.toNat := by
  unfold to_uint64
  rw [Int.emod_eq_of_lt h0 h2]

/-- C10 fails as stated: for the amount `2^64 − 1`, `xmr_gen_c(mask, amount)`
returns a commitment, but the expression
`ge25519_add(ge25519_scalarmult_base(mask), ge25519_scalarmult(H, amount), 0)`
raises `OverflowError` in `ge25519_scalarmult`, with a 32-bit and with a 64-bit
`mp_int_t`. -/
theorem C10_counterexample :
    (0 : Int) ≤ 2 ^ 64 - 1 ∧ (2 : Int) ^ 64 - 1 < 2 ^ 64 ∧
    (∀ bits ∈ [32, 64],
      returned ((mod_trezorcrypto_monero_xmr_gen_c_obj (testEnv bits)
        [.ref 0, .int (2 ^ 64 - 1)]).run ⟨[Cell.scalar 3], [], 0⟩) ∧
      ∃ out, (commitment_by_parts (testEnv bits) (.ref 0) (.int (2 ^ 64 - 1))).run
          ⟨[Cell.scalar 3], [], 0⟩ =
        (.error (.OverflowError "overflow converting long int to machine word"), out)) := by
  refine ⟨by norm_num, by norm_num, ?_⟩
  intro bits hbits
  refine ⟨⟨_, congrArg Prod.fst
    (run_xmr_gen_c_int (testEnv bits) ⟨[Cell.scalar 3], [], 0⟩ 0 3 _ (2 ^ 64 - 1) rfl
      (Or.inr rfl))⟩, ?_⟩
  apply commitment_by_parts_overflow (testEnv bits) ⟨[Cell.scalar 3], [], 0⟩ 0 3 _ rfl
  simp only [List.mem_cons, List.mem_singleton, List.not_mem_nil, or_false] at hbits
  rcases hbits with rfl | rfl <;> simp only [fits_mp_int, testEnv] <;> norm_num

/-- C10 (amended): for every mask scalar and every integer amount `a` with
`0 ≤ a < 2^64` that is also representable in `mp_int_t` (`a < 2^(bits−1)`),
given as a small int or as a big int, `xmr_gen_c(mask, a)` and
`ge25519_add(ge25519_scalarmult_base(mask), ge25519_scalarmult(ge25519_set_h(), a), 0)`
both return, and both results hold the point `mask·G + a·H`. -/
theorem C10_xmr_gen_c_by_parts [AddCommGroup Pt] (E : Env Pt) (s : State Pt)
    (m vm : Nat) (amt : Obj) (a : Int) (hm : s.heap[m]? = some (.scalar vm))
    (hamt : amt = .smallInt a ∨ amt = .int a)
    (h0 : 0 ≤ a) (h1 : a < 2 ^ (E.mp_int_bits - 1)) (h2 : a < 2 ^ 64) :
    ∃ (r1 : Obj) (s1 : State Pt) (r2 : Obj) (s2 : State Pt),
      (mod_trezorcrypto_monero_xmr_gen_c_obj E [.ref m, amt]).run s = (.ok r1, s1) ∧
      (commitment_by_parts E (.ref m) amt).run s = (.ok r2, s2) ∧
      deref s1 r1 = some (.ge25519 (vm • E.basepoint + a.toNat • E.xmr_h)) ∧
      deref s2 r2 = some (.ge25519 (vm • E.basepoint + a.toNat • E.xmr_h)) := by
  have hfit : fits_mp_int E a = true := by
    have hp : (0 : Int) < 2 ^ (E.mp_int_bits - 1) := by positivity
    simp only [fits_mp_int, Bool.and_eq_true, decide_eq_true_eq]
    exact ⟨by linarith, h1⟩
  refine ⟨_, _, _, _, run_xmr_gen_c_int E s m vm amt a hm hamt,
    run_commitment_by_parts E s m vm amt a hm hamt hfit, ?_, ?_⟩
  · simp [deref, to_uint64_of_nonneg a h0 h2]
  · simp only [deref, getElem?_append_add, to_uint64_of_nonneg a h0 h2]
    rfl

/-- Witness for C10 (amended): mask 3 and amount 5 on a 32-bit `mp_int_t`. -/
theorem C10_xmr_gen_c_by_parts_witness :
    ∃ (r1 : Obj) (s1 : State Int) (r2 : Obj) (s2 : State Int),
      (mod_trezorcrypto_monero_xmr_gen_c_obj (testEnv 32) [.ref 0, .smallInt 5]).run
        ⟨[Cell.scalar 3], [], 0⟩ = (.ok r1, s1) ∧
      (commitment_by_parts (testEnv 32) (.ref 0) (.smallInt 5)).run
        ⟨[Cell.scalar 3], [], 0⟩ = (.ok r2, s2) ∧
      deref s1 r1 = some (.ge25519 (3 • (testEnv 32).basepoint + (5 : Int).toNat • (testEnv 32).xmr_h)) ∧
      deref s2 r2 = some (.ge25519 (3 • (testEnv 32).basepoint + (5 : Int).toNat • (testEnv 32).xmr_h)) :=
  C10_xmr_gen_c_by_parts (testEnv 32) ⟨[Cell.scalar 3], [], 0⟩ 0 3 (.smallInt 5) 5 rfl
    (Or.inl rfl) (by norm_num) (by simp only [testEnv]; norm_num) (by norm_num)

/-- Witness for C3: a 32-byte string of zeros and a heap holding one point. -/
theorem C3_point_unpack_raises_iff_witness :
    (⟨[Cell.ge25519 3], [], 0⟩ : State Int).heap[0]? = some (.ge25519 3) ∧
    ∀ c ∈ [(mod_trezorcrypto_monero_ge25519_make_new (testEnv 32) 0
              [.bytes (List.replicate 32 0)], (testEnv 32).ge25519_uninit),
           (mod_trezorcrypto_monero_ge25519_unpack_vartime_obj (testEnv 32)
              [.bytes (List.replicate 32 0)], ge25519_set_neutral),
           (mod_trezorcrypto_monero_ge25519_unpack_vartime_obj (testEnv 32)
              [.ref 0, .bytes (List.replicate 32 0)], (3 : Int))],
      (raised (c.1.run ⟨[Cell.ge25519 3], [], 0⟩) ↔
        (List.replicate 32 (0 : Byte)).length ≠ 32 ∨
          ((testEnv 32).ge25519_unpack_vartime c.2 (List.replicate 32 0)).1 ≠ 1) ∧
      ((List.replicate 32 (0 : Byte)).length = 32 →
        ((testEnv 32).ge25519_unpack_vartime c.2 (List.replicate 32 0)).1 = 1 →
        ∃ res, (c.1.run ⟨[Cell.ge25519 3], [], 0⟩).1 = .ok res ∧
          deref (c.1.run ⟨[Cell.ge25519 3], [], 0⟩).2 res =
            some (.ge25519 ((testEnv 32).ge25519_unpack_vartime c.2 (List.replicate 32 0)).2)) :=
  ⟨rfl, C3_point_unpack_raises_iff (testEnv 32) ⟨[Cell.ge25519 3], [], 0⟩ (List.replicate 32 0)
    0 3 rfl⟩

/-! ## Range proof generation -/

@[simp] theorem run_write_buffer (buf : Option Nat) (new : List Byte) (s : State Pt) :
    (write_buffer buf new).run s = (.ok (), write_buffer_state buf new s) := rfl

@[simp] theorem run_set_rng (r : Nat) (s : State Pt) :
    (set_rng r : M Pt Unit).run s = (.ok (), { s with rng := r }) := rfl

theorem run_mp_get_buffer_raise_bytearray (s : State Pt) (a : Nat) (d : List Byte)
    (flags : BufferFlags) (ha : s.heap[a]? = some (.bytearray d)) :
    (mp_get_buffer_raise (.ref a) flags).run s = (.ok ⟨some a, d⟩, s) := by
  simp [mp_get_buffer_raise, M.run, ha]

theorem run_mp_obj_get_uint64_integer (amt : Obj) (h : mp_obj_is_integer amt = true)
    (s : State Pt) : ∃ v, (mp_obj_get_uint64 amt : M Pt Nat).run s = (.ok v, s) := by
  cases amt with
  | bool b => cases b <;> simp [mp_obj_get_uint64]
  | smallInt v => simp [mp_obj_get_uint64, MP_OBJ_IS_SMALL_INT]
  | int v => simp [mp_obj_get_uint64, MP_OBJ_IS_SMALL_INT, MP_OBJ_IS_TYPE_int]
  | null => cases h
  | none => cases h
  | bytes d => cases h
  | ref a => cases h

theorem mp_get_buffer_raise_cases (o : Obj) (flags : BufferFlags) (s : State Pt) :
    (∃ e, (mp_get_buffer_raise o flags).run s = (.error e, s)) ∨
    (∃ bi, (mp_get_buffer_raise o flags).run s = (.ok bi, s)) := by
  cases o <;> simp [mp_get_buffer_raise, M.run]
  · split <;> simp
  · split <;> simp

theorem mp_obj_get_uint64_cases (o : Obj) (s : State Pt) :
    (∃ e, (mp_obj_get_uint64 o : M Pt Nat).run s = (.error e, s)) ∨
    (∃ v, (mp_obj_get_uint64 o : M Pt Nat).run s = (.ok v, s)) := by
  unfold mp_obj_get_uint64
  split
  · exact Or.inr ⟨_, rfl⟩
  · split
    · exact Or.inr ⟨_, rfl⟩
    · split
      · exact Or.inr ⟨_, rfl⟩
      · split
        · exact Or.inr ⟨_, rfl⟩
        · exact Or.inl ⟨_, rfl⟩

/-- C4: `gen_range_proof` raises when the proof buffer is shorter than 6176
bytes; with five arguments it raises when either scratch buffer is shorter
than `64 * sizeof(bignum256modm)`; with an integer amount, a proof buffer of at
least 6176 bytes and (five arguments) scratch buffers of at least that size it
returns; and with two to four arguments it returns whatever the third and
fourth arguments are, so no scratch-buffer check is made. -/
theorem C4_gen_range_proof_checks (E : Env Pt) (s : State Pt) :
    (∀ (b : Nat) (d0 : List Byte) (rest : List Obj),
      s.heap[b]? = some (.bytearray d0) → d0.length < 6176 →
      raised ((mod_trezorcrypto_monero_gen_range_proof_obj E (.ref b :: rest)).run s)) ∧
    (∀ (proof amount last_mask : Obj) (x y : Nat) (dx dy : List Byte),
      s.heap[x]? = some (.bytearray dx) → s.heap[y]? = some (.bytearray dy) →
      (dx.length < E.sizeof_bignum256modm * 64 ∨ dy.length < E.sizeof_bignum256modm * 64) →
      raised ((mod_trezorcrypto_monero_gen_range_proof_obj E
        [proof, amount, last_mask, .ref x, .ref y]).run s)) ∧
    (∀ (b : Nat) (d0 : List Byte) (amount : Obj),
      E.sizeof_xmr_range_sig_t = 6176 →
      s.heap[b]? = some (.bytearray d0) → 6176 ≤ d0.length → mp_obj_is_integer amount = true →
      (returned ((mod_trezorcrypto_monero_gen_range_proof_obj E [.ref b, amount]).run s) ∧
       (∀ last_mask, returned ((mod_trezorcrypto_monero_gen_range_proof_obj E
          [.ref b, amount, last_mask]).run s)) ∧
       (∀ last_mask a3, returned ((mod_trezorcrypto_monero_gen_range_proof_obj E
          [.ref b, amount, last_mask, a3]).run s)) ∧
       (∀ (last_mask : Obj) (x y : Nat) (dx dy : List Byte),
          s.heap[x]? = some (.bytearray dx) → s.heap[y]? = some (.bytearray dy) →
          E.sizeof_bignum256modm * 64 ≤ dx.length → E.sizeof_bignum256modm * 64 ≤ dy.length →
          returned ((mod_trezorcrypto_monero_gen_range_proof_obj E
            [.ref b, amount, last_mask, .ref x, .ref y]).run s)))) := by
  refine ⟨?_, ?_, ?_⟩
  · intro b d0 rest hb hlen
    by_cases hsz : E.sizeof_xmr_range_sig_t = 6176 <;>
    by_cases hn : rest.length + 1 < 2 ∨ 5 < rest.length + 1 <;>
    simp [mod_trezorcrypto_monero_gen_range_proof_obj, MP_DEFINE_CONST_FUN_OBJ_VAR_BETWEEN,
      mod_trezorcrypto_monero_gen_range_proof, run_mp_get_buffer_raise_bytearray s b d0 _ hb,
      argAt, mp_buffer_info_t.len, RSIG_SIZE, raised, hsz, hn, hlen]
  · intro proof amount last_mask x y dx dy hx hy hlen
    have hl : (decide (dx.length < E.sizeof_bignum256modm * 64) ||
        decide (dy.length < E.sizeof_bignum256modm * 64)) = true := by
      simpa using hlen
    by_cases hsz : E.sizeof_xmr_range_sig_t = 6176
    · rcases mp_get_buffer_raise_cases proof .MP_BUFFER_WRITE s with ⟨e, h1⟩ | ⟨bi, h1⟩
      · simp [mod_trezorcrypto_monero_gen_range_proof_obj, MP_DEFINE_CONST_FUN_OBJ_VAR_BETWEEN,
          mod_trezorcrypto_monero_gen_range_proof, argAt, RSIG_SIZE, raised, hsz, h1]
      · by_cases hb : bi.len < 6176
        · simp [mod_trezorcrypto_monero_gen_range_proof_obj, MP_DEFINE_CONST_FUN_OBJ_VAR_BETWEEN,
            mod_trezorcrypto_monero_gen_range_proof, argAt, RSIG_SIZE, raised, hsz, h1, hb]
        · rcases mp_obj_get_uint64_cases amount s with ⟨e, h2⟩ | ⟨v, h2⟩
          · simp [mod_trezorcrypto_monero_gen_range_proof_obj,
              MP_DEFINE_CONST_FUN_OBJ_VAR_BETWEEN,
              mod_trezorcrypto_monero_gen_range_proof, argAt, RSIG_SIZE, raised, hsz, h1, hb, h2]
          · simp [mod_trezorcrypto_monero_gen_range_proof_obj,
              MP_DEFINE_CONST_FUN_OBJ_VAR_BETWEEN,
              mod_trezorcrypto_monero_gen_range_proof, argAt, RSIG_SIZE, raised, hsz, h1, hb, h2,
              run_mp_get_buffer_raise_bytearray s x dx _ hx,
              run_mp_get_buffer_raise_bytearray s y dy _ hy, mp_buffer_info_t.len, hlen]
            split <;> exact ⟨_, rfl⟩
    · simp [mod_trezorcrypto_monero_gen_range_proof_obj, MP_DEFINE_CONST_FUN_OBJ_VAR_BETWEEN,
        mod_trezorcrypto_monero_gen_range_proof, argAt, RSIG_SIZE, raised, hsz]
  · intro b d0 amount hsz hb hlen hint
    obtain ⟨v, hv⟩ := run_mp_obj_get_uint64_integer amount hint s
    have hlen2 : ¬ d0.length < 6176 := by omega
    refine ⟨?_, ?_, ?_, ?_⟩
    · simp [mod_trezorcrypto_monero_gen_range_proof_obj, MP_DEFINE_CONST_FUN_OBJ_VAR_BETWEEN,
        mod_trezorcrypto_monero_gen_range_proof, argAt, RSIG_SIZE, returned, hsz,
        run_mp_get_buffer_raise_bytearray s b d0 _ hb, mp_buffer_info_t.len, hlen2, hv,
        call_xmr_gen_range_sig, mp_obj_from_ge25519, mp_obj_from_scalar]
    · intro last_mask
      simp [mod_trezorcrypto_monero_gen_range_proof_obj, MP_DEFINE_CONST_FUN_OBJ_VAR_BETWEEN,
        mod_trezorcrypto_monero_gen_range_proof, argAt, RSIG_SIZE, returned, hsz,
        run_mp_get_buffer_raise_bytearray s b d0 _ hb, mp_buffer_info_t.len, hlen2, hv,
        call_xmr_gen_range_sig, mp_obj_from_ge25519, mp_obj_from_scalar]
    · intro last_mask a3
      simp [mod_trezorcrypto_monero_gen_range_proof_obj, MP_DEFINE_CONST_FUN_OBJ_VAR_BETWEEN,
        mod_trezorcrypto_monero_gen_range_proof, argAt, RSIG_SIZE, returned, hsz,
        run_mp_get_buffer_raise_bytearray s b d0 _ hb, mp_buffer_info_t.len, hlen2, hv,
        call_xmr_gen_range_sig, mp_obj_from_ge25519, mp_obj_from_scalar]
    · intro last_mask x y dx dy hx hy hdx hdy
      have hdx2 : ¬ dx.length < E.sizeof_bignum256modm * 64 := by omega
      have hdy2 : ¬ dy.length < E.sizeof_bignum256modm * 64 := by omega
      simp [mod_trezorcrypto_monero_gen_range_proof_obj, MP_DEFINE_CONST_FUN_OBJ_VAR_BETWEEN,
        mod_trezorcrypto_monero_gen_range_proof, argAt, RSIG_SIZE, returned, hsz,
        run_mp_get_buffer_raise_bytearray s b d0 _ hb, mp_buffer_info_t.len, hlen2, hv,
        run_mp_get_buffer_raise_bytearray s x dx _ hx,
        run_mp_get_buffer_raise_bytearray s y dy _ hy, hdx2, hdy2,
        call_xmr_gen_range_sig_ex, mp_obj_from_ge25519, mp_obj_from_scalar]

/-- Witness for C4: a 10-byte proof buffer and a 10-byte scratch buffer are
rejected; the calls with adequate buffers return. -/
theorem C4_gen_range_proof_checks_witness :
    raised ((mod_trezorcrypto_monero_gen_range_proof_obj (testEnv 32)
      (.ref 3 :: [.smallInt 5])).run testState) ∧
    raised ((mod_trezorcrypto_monero_gen_range_proof_obj (testEnv 32)
      [.ref 0, .smallInt 5, .none, .ref 1, .ref 3]).run testState) ∧
    returned ((mod_trezorcrypto_monero_gen_range_proof_obj (testEnv 32)
      [.ref 0, .smallInt 5]).run testState) ∧
    returned ((mod_trezorcrypto_monero_gen_range_proof_obj (testEnv 32)
      [.ref 0, .smallInt 5, .none, .ref 1, .ref 2]).run testState) :=
  ⟨(C4_gen_range_proof_checks (testEnv 32) testState).1 3 (List.replicate 10 0) [.smallInt 5]
      rfl (by rw [List.length_replicate]; decide),
   (C4_gen_range_proof_checks (testEnv 32) testState).2.1 (.ref 0) (.smallInt 5) .none 1 3
      (List.replicate 2304 0) (List.replicate 10 0) rfl rfl (Or.inr (by rw [List.length_replicate]; decide)),
   ((C4_gen_range_proof_checks (testEnv 32) testState).2.2 0 (List.replicate 6176 0)
      (.smallInt 5) rfl rfl (by rw [List.length_replicate]) rfl).1,
   ((C4_gen_range_proof_checks (testEnv 32) testState).2.2 0 (List.replicate 6176 0)
      (.smallInt 5) rfl rfl (by rw [List.length_replicate]) rfl).2.2.2 .none 1 2
      (List.replicate 2304 0) (List.replicate 2304 0) rfl rfl (by rw [List.length_replicate]; decide)
      (by rw [List.length_replicate]; decide)⟩

theorem lenAt_eq_some_iff (s : State Pt) (a n : Nat) :
    lenAt s a = some n ↔ ∃ d, s.heap[a]? = some (.bytearray d) ∧ d.length = n := by
  unfold lenAt
  split
  · next d h => simp [h]
  · next h =>
    constructor
    · intro h0; cases h0
    · rintro ⟨d, hd, -⟩
      exact absurd hd (h d)

theorem lenAt_write_buffer_state (t : Nat) (new : List Byte) (s : State Pt) (k : Nat)
    (ht : lenAt s t = some k) (hk : new.length ≤ k) (a : Nat) :
    lenAt (write_buffer_state (some t) new s) a = lenAt s a := by
  obtain ⟨old, hold, hlen⟩ := (lenAt_eq_some_iff s t k).1 ht
  have htl := lt_length_of_getElem? _ _ _ hold
  simp only [write_buffer_state, hold]
  by_cases hat : a = t
  · subst hat
    simp [lenAt, hold, List.getElem?_set_self, htl]
    omega
  · simp [lenAt, List.getElem?_set_ne (Ne.symm hat)]

theorem mp_get_buffer_raise_write_ok (o : Obj) (s s1 : State Pt) (bi : mp_buffer_info_t)
    (h : (mp_get_buffer_raise o .MP_BUFFER_WRITE).run s = (.ok bi, s1)) :
    ∃ b, o = .ref b ∧ s.heap[b]? = some (.bytearray bi.data) ∧ bi.buf = some b ∧ s1 = s := by
  cases o <;> simp [mp_get_buffer_raise, M.run] at h
  next a =>
    split at h
    · next d hd =>
      simp only [Prod.mk.injEq, Except.ok.injEq] at h
      obtain ⟨rfl, rfl⟩ := h
      exact ⟨a, rfl, hd, rfl, rfl⟩
    · simp at h

theorem lenAt_heap_eq (s t : State Pt) (h : t.heap = s.heap) (a : Nat) :
    lenAt t a = lenAt s a := by
  unfold lenAt
  rw [h]

theorem gen_range_proof_tuple_state (S s1 : State Pt) (args : List Obj) (b k : Nat) (res : Obj)
    (x1 x2 : Cell Pt) (cs : List Call) (r : Nat) (hb0 : argAt args 0 = .ref b)
    (hS : lenAt S b = some k)
    (h : Obj.ref S.heap.length = res ∧
      ({ heap := S.heap ++ [Cell.tuple [.ref (S.heap.length + 1), .ref (S.heap.length + 2),
          argAt args 0], x1, x2], calls := cs, rng := r } : State Pt) = s1) :
    ∃ (d1 : List Byte) (t : Nat) (c m : Obj),
      res = .ref t ∧ s1.heap[t]? = some (.tuple [c, m, .ref b]) ∧
      s1.heap[b]? = some (.bytearray d1) ∧ d1.length = k := by
  obtain ⟨d1, hd1, hk⟩ := (lenAt_eq_some_iff S b k).1 hS
  have hbl := lt_length_of_getElem? _ _ _ hd1
  obtain ⟨rfl, rfl⟩ := h
  refine ⟨d1, S.heap.length, .ref (S.heap.length + 1), .ref (S.heap.length + 2), rfl, ?_, ?_, hk⟩
  · simp only [getElem?_append_length, hb0]
    rfl
  · simp only [List.getElem?_append_left hbl, hd1]

theorem gen_range_proof_returns (E : Env Pt) (s s1 : State Pt) (args : List Obj) (res : Obj)
    (h : (mod_trezorcrypto_monero_gen_range_proof_obj E args).run s = (.ok res, s1)) :
    ∃ (b : Nat) (d0 d1 : List Byte) (t : Nat) (c m : Obj),
      argAt args 0 = .ref b ∧ s.heap[b]? = some (.bytearray d0) ∧ 6176 ≤ d0.length ∧
      res = .ref t ∧ s1.heap[t]? = some (.tuple [c, m, .ref b]) ∧
      s1.heap[b]? = some (.bytearray d1) ∧ d1.length = d0.length := by
  by_cases hn : args.length < 2 ∨ 5 < args.length
  · simp [mod_trezorcrypto_monero_gen_range_proof_obj, MP_DEFINE_CONST_FUN_OBJ_VAR_BETWEEN, hn]
      at h
  by_cases hsz : E.sizeof_xmr_range_sig_t = 6176
  swap
  · simp [mod_trezorcrypto_monero_gen_range_proof_obj, MP_DEFINE_CONST_FUN_OBJ_VAR_BETWEEN, hn,
      mod_trezorcrypto_monero_gen_range_proof, RSIG_SIZE, hsz] at h
  rcases mp_get_buffer_raise_cases (argAt args 0) .MP_BUFFER_WRITE s with ⟨e, h1⟩ | ⟨bi, h1⟩
  · simp [mod_trezorcrypto_monero_gen_range_proof_obj, MP_DEFINE_CONST_FUN_OBJ_VAR_BETWEEN, hn,
      mod_trezorcrypto_monero_gen_range_proof, RSIG_SIZE, hsz, h1] at h
  obtain ⟨b, hb0, hb, hbuf, -⟩ := mp_get_buffer_raise_write_ok _ _ _ _ h1
  by_cases hlen : bi.len < 6176
  · simp [mod_trezorcrypto_monero_gen_range_proof_obj, MP_DEFINE_CONST_FUN_OBJ_VAR_BETWEEN, hn,
      mod_trezorcrypto_monero_gen_range_proof, RSIG_SIZE, hsz, h1, hlen] at h
  have hlen2 : 6176 ≤ bi.data.length := by
    simp only [mp_buffer_info_t.len] at hlen; omega
  rcases mp_obj_get_uint64_cases (argAt args 1) s with ⟨e, h2⟩ | ⟨v, h2⟩
  · simp [mod_trezorcrypto_monero_gen_range_proof_obj, MP_DEFINE_CONST_FUN_OBJ_VAR_BETWEEN, hn,
      mod_trezorcrypto_monero_gen_range_proof, RSIG_SIZE, hsz, h1, hlen, h2] at h
  have hbl : lenAt s b = some bi.data.length := (lenAt_eq_some_iff s b _).2 ⟨_, hb, rfl⟩
  by_cases h4 : 4 < args.length
  · rcases mp_get_buffer_raise_cases (argAt args 3) .MP_BUFFER_WRITE s with ⟨e, h5⟩ | ⟨bx, h5⟩
    · simp [mod_trezorcrypto_monero_gen_range_proof_obj, MP_DEFINE_CONST_FUN_OBJ_VAR_BETWEEN, hn,
        mod_trezorcrypto_monero_gen_range_proof, RSIG_SIZE, hsz, h1, hlen, h2, h4, h5] at h
    rcases mp_get_buffer_raise_cases (argAt args 4) .MP_BUFFER_WRITE s with ⟨e, h6⟩ | ⟨by1, h6⟩
    · simp [mod_trezorcrypto_monero_gen_range_proof_obj, MP_DEFINE_CONST_FUN_OBJ_VAR_BETWEEN, hn,
        mod_trezorcrypto_monero_gen_range_proof, RSIG_SIZE, hsz, h1, hlen, h2, h4, h5, h6] at h
    obtain ⟨x, -, hx, hxbuf, -⟩ := mp_get_buffer_raise_write_ok _ _ _ _ h5
    obtain ⟨y, -, hy, hybuf, -⟩ := mp_get_buffer_raise_write_ok _ _ _ _ h6
    by_cases hxl : bx.len < E.sizeof_bignum256modm * 64
    · simp [mod_trezorcrypto_monero_gen_range_proof_obj, MP_DEFINE_CONST_FUN_OBJ_VAR_BETWEEN, hn,
        mod_trezorcrypto_monero_gen_range_proof, RSIG_SIZE, hsz, h1, hlen, h2, h4, h5, h6, hxl]
        at h
    by_cases hyl : by1.len < E.sizeof_bignum256modm * 64
    · simp [mod_trezorcrypto_monero_gen_range_proof_obj, MP_DEFINE_CONST_FUN_OBJ_VAR_BETWEEN, hn,
        mod_trezorcrypto_monero_gen_range_proof, RSIG_SIZE, hsz, h1, hlen, h2, h4, h5, h6, hxl,
        hyl] at h
    have hxl2 : E.sizeof_bignum256modm * 64 ≤ bx.data.length := by
      simp only [mp_buffer_info_t.len] at hxl; omega
    have hyl2 : E.sizeof_bignum256modm * 64 ≤ by1.data.length := by
      simp only [mp_buffer_info_t.len] at hyl; omega
    simp [mod_trezorcrypto_monero_gen_range_proof_obj, MP_DEFINE_CONST_FUN_OBJ_VAR_BETWEEN, hn,
      mod_trezorcrypto_monero_gen_range_proof, RSIG_SIZE, hsz, h1, hlen, h2, h4, h5, h6, hxl, hyl,
      call_xmr_gen_range_sig_ex, mp_obj_from_ge25519, mp_obj_from_scalar, hbuf, hxbuf, hybuf] at h
    generalize hout : E.xmr_gen_range_sig_ex _ _ _ _ _ = out at h
    generalize hS0 : ({ heap := s.heap, calls := _, rng := out.rng } : State Pt) = S0 at h
    have hS0h : S0.heap = s.heap := by rw [← hS0]
    have ha : out.ai.length = E.sizeof_bignum256modm * 64 := by
      rw [← hout]; exact E.xmr_gen_range_sig_ex_ai_length _ _ _ _ _
    have hal : out.alpha.length = E.sizeof_bignum256modm * 64 := by
      rw [← hout]; exact E.xmr_gen_range_sig_ex_alpha_length _ _ _ _ _
    have hr : out.rsig.length = 6176 := by
      rw [← hout, ← hsz]; exact E.xmr_gen_range_sig_ex_length _ _ _ _ _
    have hx0 : lenAt S0 x = some bx.data.length :=
      (lenAt_heap_eq s S0 hS0h x).trans ((lenAt_eq_some_iff s x _).2 ⟨_, hx, rfl⟩)
    have hy0 : lenAt S0 y = some by1.data.length :=
      (lenAt_heap_eq s S0 hS0h y).trans ((lenAt_eq_some_iff s y _).2 ⟨_, hy, rfl⟩)
    have hb1 : lenAt S0 b = some bi.data.length := (lenAt_heap_eq s S0 hS0h b).trans hbl
    have w1 := lenAt_write_buffer_state x out.ai S0 _ hx0 (by omega)
    have hy1 := (w1 y).trans hy0
    have w2 := lenAt_write_buffer_state y out.alpha _ _ hy1 (by omega)
    have hb2 := (w2 b).trans ((w1 b).trans hb1)
    have w3 := lenAt_write_buffer_state b out.rsig _ _ hb2 (by omega)
    have hb3 := (w3 b).trans hb2
    obtain ⟨d1, t, c, m, r1, r2, r3, r4⟩ :=
      gen_range_proof_tuple_state _ s1 args b _ res _ _ _ _ hb0 hb3 h
    exact ⟨b, bi.data, d1, t, c, m, hb0, hb, hlen2, r1, r2, r3, r4⟩
  · simp [mod_trezorcrypto_monero_gen_range_proof_obj, MP_DEFINE_CONST_FUN_OBJ_VAR_BETWEEN, hn,
      mod_trezorcrypto_monero_gen_range_proof, RSIG_SIZE, hsz, h1, hlen, h2, h4,
      call_xmr_gen_range_sig, mp_obj_from_ge25519, mp_obj_from_scalar, hbuf] at h
    generalize hout : E.xmr_gen_range_sig _ _ _ = out at h
    generalize hS0 : ({ heap := s.heap, calls := _, rng := out.rng } : State Pt) = S0 at h
    have hS0h : S0.heap = s.heap := by rw [← hS0]
    have hr : out.rsig.length = 6176 := by
      rw [← hout, ← hsz]; exact E.xmr_gen_range_sig_length _ _ _
    have hb1 : lenAt S0 b = some bi.data.length := (lenAt_heap_eq s S0 hS0h b).trans hbl
    have w3 := lenAt_write_buffer_state b out.rsig _ _ hb1 (by omega)
    have hb3 := (w3 b).trans hb1
    obtain ⟨d1, t, c, m, r1, r2, r3, r4⟩ :=
      gen_range_proof_tuple_state _ s1 args b _ res _ _ _ _ hb0 hb3 h
    exact ⟨b, bi.data, d1, t, c, m, hb0, hb, hlen2, r1, r2, r3, r4⟩

theorem gen_range_proof_2_args_returns (E : Env Pt) (s : State Pt) (b : Nat) (d0 : List Byte)
    (amount : Obj) (hsz : E.sizeof_xmr_range_sig_t = 6176)
    (hb : s.heap[b]? = some (.bytearray d0)) (hlen : 6176 ≤ d0.length)
    (hint : mp_obj_is_integer amount = true) :
    ∃ res s1, (mod_trezorcrypto_monero_gen_range_proof_obj E [.ref b, amount]).run s =
      (.ok res, s1) := by
  obtain ⟨v, hv⟩ := run_mp_obj_get_uint64_integer amount hint s
  have hlen2 : ¬ d0.length < 6176 := by omega
  simp [mod_trezorcrypto_monero_gen_range_proof_obj, MP_DEFINE_CONST_FUN_OBJ_VAR_BETWEEN,
    mod_trezorcrypto_monero_gen_range_proof, argAt, RSIG_SIZE, hsz,
    run_mp_get_buffer_raise_bytearray s b d0 _ hb, mp_buffer_info_t.len, hlen2, hv,
    call_xmr_gen_range_sig, mp_obj_from_ge25519, mp_obj_from_scalar]

/-- C5 fails as stated: called with a proof buffer of 6177 bytes (and amount
0), `gen_range_proof` returns a triple whose proof component is that buffer,
6177 bytes long. -/
theorem C5_counterexample :
    ∃ (res : Obj) (s1 : State Int) (t : Nat) (c m : Obj) (d1 : List Byte),
      (mod_trezorcrypto_monero_gen_range_proof_obj (testEnv 32) [.ref 0, .smallInt 0]).run
        ⟨[.bytearray (List.replicate 6177 0)], [], 0⟩ = (.ok res, s1) ∧
      res = .ref t ∧ s1.heap[t]? = some (.tuple [c, m, .ref 0]) ∧
      s1.heap[0]? = some (.bytearray d1) ∧ d1.length = 6177 ∧ d1.length ≠ 6176 := by
  obtain ⟨res, s1, h⟩ := gen_range_proof_2_args_returns (testEnv 32)
    ⟨[.bytearray (List.replicate 6177 0)], [], 0⟩ 0 (List.replicate 6177 0) (.smallInt 0)
    rfl rfl (by rw [List.length_replicate]; decide) rfl
  obtain ⟨b, d0, d1, t, c, m, hb0, hb, -, r1, r2, r3, r4⟩ :=
    gen_range_proof_returns _ _ _ _ _ h
  have hb00 : b = 0 := by
    have : Obj.ref 0 = Obj.ref b := hb0
    exact (Obj.ref.inj this).symm
  subst hb00
  have hd0 : d0 = List.replicate 6177 0 := by
    have : some (Cell.bytearray (List.replicate 6177 (0 : Byte))) = some (Cell.bytearray d0) := hb
    exact (Cell.bytearray.inj (Option.some.inj this)).symm
  have hl : d1.length = 6177 := by rw [r4, hd0, List.length_replicate]
  exact ⟨res, s1, t, c, m, d1, h, r1, r2, r3, hl, by rw [hl]; decide⟩

/-- C5 (amended): for every call of `gen_range_proof` that returns, the result
is a tuple whose third component is the caller's proof buffer itself (the first
argument), whose length is the same as before the call and at least 6176
bytes. -/
theorem C5_gen_range_proof_proof_length (E : Env Pt) (s s1 : State Pt) (args : List Obj)
    (res : Obj)
    (h : (mod_trezorcrypto_monero_gen_range_proof_obj E args).run s = (.ok res, s1)) :
    ∃ (b : Nat) (d0 d1 : List Byte) (t : Nat) (c m : Obj),
      argAt args 0 = .ref b ∧ s.heap[b]? = some (.bytearray d0) ∧ 6176 ≤ d0.length ∧
      res = .ref t ∧ s1.heap[t]? = some (.tuple [c, m, .ref b]) ∧
      s1.heap[b]? = some (.bytearray d1) ∧ d1.length = d0.length :=
  gen_range_proof_returns E s s1 args res h

/-- Witness for C5 (amended): the two-argument call on a 6176-byte buffer. -/
theorem C5_gen_range_proof_proof_length_witness :
    ∃ (res : Obj) (s1 : State Int),
      (mod_trezorcrypto_monero_gen_range_proof_obj (testEnv 32) [.ref 0, .smallInt 5]).run
        testState = (.ok res, s1) ∧
      ∃ (b : Nat) (d0 d1 : List Byte) (t : Nat) (c m : Obj),
        argAt [.ref 0, .smallInt 5] 0 = .ref b ∧ testState.heap[b]? = some (.bytearray d0) ∧
        6176 ≤ d0.length ∧
        res = .ref t ∧ s1.heap[t]? = some (.tuple [c, m, .ref b]) ∧
        s1.heap[b]? = some (.bytearray d1) ∧ d1.length = d0.length := by
  obtain ⟨res, s1, h⟩ := gen_range_proof_2_args_returns (testEnv 32) testState 0
    (List.replicate 6176 0) (.smallInt 5) rfl rfl (by rw [List.length_replicate]) rfl
  exact ⟨res, s1, h, C5_gen_range_proof_proof_length (testEnv 32) testState s1
    [.ref 0, .smallInt 5] res h⟩

/-! ## Base58 address codec -/

theorem digitsLE_length (b n v : Nat) : (digitsLE b n v).length = n := by
  induction n generalizing v with
  | zero => rfl
  | succ n ih => simp [digitsLE, ih]

theorem digitsLE_lt (b : Nat) (hb : 0 < b) (n v : Nat) : ∀ d ∈ digitsLE b n v, d < b := by
  induction n generalizing v with
  | zero => intro d hd; cases hd
  | succ n ih =>
    intro d hd
    simp only [digitsLE, List.mem_cons] at hd
    rcases hd with rfl | hd
    · exact Nat.mod_lt _ hb
    · exact ih _ d hd

theorem ofDigitsLE_digitsLE (b n v : Nat) : ofDigitsLE b (digitsLE b n v) = v % b ^ n := by
  induction n generalizing v with
  | zero => simp [digitsLE, ofDigitsLE, Nat.mod_one]
  | succ n ih =>
    simp only [digitsLE, ofDigitsLE, ih]
    rw [pow_succ, mul_comm (b ^ n) b, Nat.mod_mul]

theorem toLE_fromLE (l : List Byte) : toLE l.length (fromLE l) = l := by
  induction l with
  | nil => rfl
  | cons b t ih =>
    have hb := b.isLt
    have h1 : (b.val + 256 * fromLE t) % 256 = b.val := by omega
    have h2 : (b.val + 256 * fromLE t) / 256 = fromLE t := by omega
    simp only [List.length_cons, fromLE, toLE, h1, h2, ih]

theorem b58_digit_char : ∀ d, d < 58 → b58_digit (b58_char d) = some d := by
  decide

theorem b58_digits_map_char (l : List Nat) (h : ∀ d ∈ l, d < 58) :
    b58_digits (l.map b58_char) = some l := by
  induction l with
  | nil => rfl
  | cons d t ih =>
    have hd := b58_digit_char d (h d (List.mem_cons_self _ _))
    have ht := ih (fun x hx => h x (List.mem_cons_of_mem _ hx))
    simp only [List.map_cons, b58_digits, hd, ht]

theorem decoded_encoded_block_size (n : Nat) (h1 : 1 ≤ n) (h8 : n ≤ 8) :
    decoded_block_size (encoded_block_size n) = some n ∧ 256 ^ n ≤ 58 ^ encoded_block_size n := by
  interval_cases n <;> exact ⟨rfl, by decide⟩

theorem encode_block_length (bs : List Byte) :
    (encode_block bs).length = encoded_block_size bs.length := by
  simp [encode_block, digitsLE_length]

theorem decode_encode_block (bs : List Byte) (h1 : 1 ≤ bs.length) (h8 : bs.length ≤ 8) :
    decode_block (encode_block bs) = some bs := by
  obtain ⟨hsz, hpow⟩ := decoded_encoded_block_size bs.length h1 h8
  have hnum : fromLE bs.reverse < 256 ^ bs.length := by
    have := fromLE_lt bs.reverse
    rwa [List.length_reverse] at this
  have hdig : b58_digits (encode_block bs) =
      some (digitsLE 58 (encoded_block_size bs.length) (fromLE bs.reverse)).reverse := by
    unfold encode_block
    apply b58_digits_map_char
    intro d hd
    exact digitsLE_lt 58 (by decide) _ _ d (List.mem_reverse.1 hd)
  have hval : ofDigitsLE 58 (digitsLE 58 (encoded_block_size bs.length) (fromLE bs.reverse)) =
      fromLE bs.reverse := by
    rw [ofDigitsLE_digitsLE]
    exact Nat.mod_eq_of_lt (lt_of_lt_of_le hnum hpow)
  have hback : (toLE bs.length (fromLE bs.reverse)).reverse = bs := by
    have := toLE_fromLE bs.reverse
    rw [List.length_reverse] at this
    rw [this, List.reverse_reverse]
  simp only [decode_block, encode_block_length, hsz, hdig, List.reverse_reverse, hval, hnum,
    if_true, hback]

theorem xmr_base58_encode_length (data : List Byte) :
    (xmr_base58_encode data).length =
      data.length / 8 * 11 + encoded_block_size (data.length % 8) := by
  generalize h : data.length = n
  induction n using Nat.strong_induction_on generalizing data with
  | _ n ih =>
    subst h
    rw [xmr_base58_encode]
    by_cases h0 : data.length = 0
    · simp [h0, encoded_block_size, encoded_block_sizes]
    · by_cases h8 : data.length < 8
      · have hn : data.length / 8 = 0 := by omega
        have hm : data.length % 8 = data.length := by omega
        simp [h0, h8, encode_block_length, hn, hm]
      · have hlt : (data.drop 8).length < data.length := by simp only [List.length_drop]; omega
        have hrec := ih _ hlt (data.drop 8) rfl
        have htl : (data.take 8).length = 8 := by simp only [List.length_take]; omega
        simp only [h0, h8, if_false, dite_false, List.length_append, encode_block_length, htl,
          hrec, List.length_drop]
        have e8 : encoded_block_size 8 = 11 := rfl
        have hd : (data.length - 8) / 8 = data.length / 8 - 1 := by omega
        have hm : (data.length - 8) % 8 = data.length % 8 := by omega
        rw [e8, hd, hm]
        omega

theorem xmr_base58_decode_encode (data : List Byte) :
    xmr_base58_decode (xmr_base58_encode data) = some data := by
  generalize h : data.length = n
  induction n using Nat.strong_induction_on generalizing data with
  | _ n ih =>
    subst h
    rw [xmr_base58_encode]
    by_cases h0 : data.length = 0
    · have : data = [] := List.length_eq_zero.1 h0
      subst this
      rw [xmr_base58_decode]
      simp
    · by_cases h8 : data.length < 8
      · have hel : (encode_block data).length = encoded_block_size data.length :=
          encode_block_length data
        have hbound : 0 < (encode_block data).length ∧ (encode_block data).length < 11 := by
          rw [hel]
          have : data.length = 1 ∨ data.length = 2 ∨ data.length = 3 ∨ data.length = 4 ∨
              data.length = 5 ∨ data.length = 6 ∨ data.length = 7 := by omega
          rcases this with e | e | e | e | e | e | e <;> rw [e] <;> decide
        simp only [h0, h8, if_false, dite_true]
        rw [xmr_base58_decode]
        have hne : ¬ (encode_block data).length = 0 := by omega
        simp only [hne, hbound.2, if_false, dite_true]
        exact decode_encode_block data (by omega) (by omega)
      · have hlt : (data.drop 8).length < data.length := by simp only [List.length_drop]; omega
        have hrec := ih _ hlt (data.drop 8) rfl
        have htl : (data.take 8).length = 8 := by simp only [List.length_take]; omega
        have hel : (encode_block (data.take 8)).length = 11 := by
          rw [encode_block_length, htl]; rfl
        simp only [h0, h8, if_false, dite_false]
        rw [xmr_base58_decode]
        have hne : ¬ (encode_block (data.take 8) ++ xmr_base58_encode (data.drop 8)).length = 0 := by
          rw [List.length_append, hel]; omega
        have hge : ¬ (encode_block (data.take 8) ++ xmr_base58_encode (data.drop 8)).length < 11 := by
          rw [List.length_append, hel]; omega
        have htake : (encode_block (data.take 8) ++ xmr_base58_encode (data.drop 8)).take 11 =
            encode_block (data.take 8) := by
          rw [List.take_append_of_le_length (le_of_eq hel.symm), List.take_of_length_le (le_of_eq hel)]
        have hdrop : (encode_block (data.take 8) ++ xmr_base58_encode (data.drop 8)).drop 11 =
            xmr_base58_encode (data.drop 8) := by
          rw [List.drop_append_of_le_length (le_of_eq hel.symm), List.drop_of_length_le (le_of_eq hel),
            List.nil_append]
        simp only [hne, hge, if_false, dite_false, htake, hdrop, hrec,
          decode_encode_block (data.take 8) (by omega) (by omega), List.take_append_drop]

theorem xmr_write_varint_small (t : Nat) (ht : t < 128) :
    xmr_write_varint t = [⟨t % 256, Nat.mod_lt _ (by decide)⟩] := by
  rw [xmr_write_varint]
  simp [ht]

theorem xmr_read_varint_small (t : Nat) (ht : t < 128) (rest : List Byte) :
    xmr_read_varint (xmr_write_varint t ++ rest) = some (t, rest) := by
  have h1 : t % 256 = t := by omega
  have h2 : t < 18446744073709551616 := by omega
  simp [xmr_write_varint_small t ht, xmr_read_varint, read_varint_groups, h1, ht, h2]

theorem xmr_base58_addr_decode_encode (E : Env Pt) (t : Nat) (d : List Byte) (ht : t < 128)
    (hd : 1 ≤ d.length)
    (hfit : (xmr_base58_encode (xmr_write_varint t ++ d ++
      (E.xmr_fast_hash (xmr_write_varint t ++ d)).take addr_checksum_size)).length ≤ 128) :
    ∃ enc, xmr_base58_addr_encode_check E t d d.length 128 = (enc.length, enc) ∧
      enc.length ≠ 0 ∧
      xmr_base58_addr_decode_check E enc enc.length 128 = (d.length, t, d) := by
  have hchk : ((E.xmr_fast_hash (xmr_write_varint t ++ d)).take addr_checksum_size).length = 4 := by
    rw [List.length_take, E.xmr_fast_hash_length]; rfl
  have hvl : (xmr_write_varint t).length = 1 := by rw [xmr_write_varint_small t ht]; rfl
  generalize hbuf : xmr_write_varint t ++ d = buf at hfit hchk
  generalize hc : (E.xmr_fast_hash buf).take addr_checksum_size = chk at hfit hchk
  have hbl : buf.length = 1 + d.length := by rw [← hbuf, List.length_append, hvl]
  have hlen := xmr_base58_encode_length (buf ++ chk)
  have hfl : (buf ++ chk).length = d.length + 5 := by rw [List.length_append, hbl, hchk]; omega
  refine ⟨xmr_base58_encode (buf ++ chk), ?_, ?_, ?_⟩
  · simp only [xmr_base58_addr_encode_check, List.take_length, hbuf, hc]
    rw [if_neg (by omega)]
  · rw [hlen]
    have hpos : 1 ≤ encoded_block_size ((buf ++ chk).length % 8) ∨ 1 ≤ (buf ++ chk).length / 8 := by
      rcases Nat.lt_or_ge (buf ++ chk).length 8 with h8 | h8
      · left
        have : (buf ++ chk).length % 8 = 6 ∨ (buf ++ chk).length % 8 = 7 := by omega
        rcases this with e | e <;> rw [e] <;> decide
      · right; omega
    omega
  · have hd128 : d.length ≤ 128 := by
      rw [hlen] at hfit
      omega
    have htake : (buf ++ chk).take ((buf ++ chk).length - addr_checksum_size) = buf := by
      have : (buf ++ chk).length - addr_checksum_size = buf.length := by
        rw [List.length_append, hchk]; simp [addr_checksum_size]
      rw [this, List.take_left']
      rfl
    have hdrop : (buf ++ chk).drop ((buf ++ chk).length - addr_checksum_size) = chk := by
      have : (buf ++ chk).length - addr_checksum_size = buf.length := by
        rw [List.length_append, hchk]; simp [addr_checksum_size]
      rw [this, List.drop_left']
      rfl
    have hrv : xmr_read_varint buf = some (t, d) := by
      rw [← hbuf]; exact xmr_read_varint_small t ht d
    have hgt : ¬ (buf ++ chk).length ≤ addr_checksum_size := by
      rw [hfl]; simp [addr_checksum_size]
    simp only [xmr_base58_addr_decode_check, List.take_length, xmr_base58_decode_encode, hgt,
      if_false, htake, hdrop, hc, ne_eq, not_true_eq_false, hrv]
    rw [if_neg (by omega)]

theorem int_value_mp_obj_new_int_from_ull (E : Env Pt) (v : Nat) :
    int_value (mp_obj_new_int_from_ull E v) = some (v : Int) := by
  unfold mp_obj_new_int_from_ull
  split <;> rfl

theorem run_base58_addr_decode_check (E : Env Pt) (S : State Pt) (enc d : List Byte) (tag : Nat)
    (hdec : xmr_base58_addr_decode_check E enc enc.length 128 = (d.length, tag, d))
    (hd : 1 ≤ d.length) :
    (mod_trezorcrypto_monero_xmr_base58_addr_decode_check_obj E [.bytes enc]).run S =
      (.ok (.ref S.heap.length),
        { S with heap := S.heap ++ [.tuple [.bytes d, mp_obj_new_int_from_ull E tag]],
                 calls := S.calls ++ [Call.xmr_base58_addr_decode_check enc 128] }) := by
  have hne : ¬ d.length = 0 := by omega
  simp [mod_trezorcrypto_monero_xmr_base58_addr_decode_check_obj,
    MP_DEFINE_CONST_FUN_OBJ_VAR_BETWEEN, mod_trezorcrypto_monero_xmr_base58_addr_decode_check,
    argAt, run_mp_get_buffer_raise_bytes, mp_buffer_info_t.len, hdec, mp_obj_new_bytes, hne]

theorem run_base58_round_trip (E : Env Pt) (s : State Pt) (t : Int) (d : List Byte)
    (h0 : 0 ≤ t) (h1 : t < 128) (hd : 1 ≤ d.length) (hd2 : d.length ≤ 80) :
    ∃ (enc : List Byte) (s1 : State Pt),
      (mod_trezorcrypto_monero_xmr_base58_addr_encode_check_obj E [.smallInt t, .bytes d]).run s =
        (.ok (.bytes enc), s1) ∧
      ∃ (res : Obj) (s2 : State Pt) (tagObj : Obj),
        (mod_trezorcrypto_monero_xmr_base58_addr_decode_check_obj E [.bytes enc]).run s1 =
          (.ok res, s2) ∧
        deref s2 res = some (.tuple [.bytes d, tagObj]) ∧ int_value tagObj = some t := by
  have ht : t.toNat < 128 := by omega
  have htu : to_uint64 t = t.toNat := to_uint64_of_nonneg t h0 (by omega)
  have hvl : (xmr_write_varint t.toNat).length = 1 := by
    rw [xmr_write_varint_small _ ht]; rfl
  have hfit : (xmr_base58_encode (xmr_write_varint t.toNat ++ d ++
      (E.xmr_fast_hash (xmr_write_varint t.toNat ++ d)).take addr_checksum_size)).length ≤
      128 := by
    rw [xmr_base58_encode_length]
    have hl : (xmr_write_varint t.toNat ++ d ++
        (E.xmr_fast_hash (xmr_write_varint t.toNat ++ d)).take addr_checksum_size).length =
        d.length + 5 := by
      rw [List.length_append, List.length_append, hvl, List.length_take,
        E.xmr_fast_hash_length]
      simp [addr_checksum_size]; omega
    rw [hl]
    have hb : encoded_block_size ((d.length + 5) % 8) ≤ 11 := by
      have : (d.length + 5) % 8 < 8 := Nat.mod_lt _ (by decide)
      interval_cases (d.length + 5) % 8 <;> decide
    omega
  obtain ⟨enc, he, hne, hdec⟩ := xmr_base58_addr_decode_encode E t.toNat d ht hd hfit
  refine ⟨enc, { s with calls := s.calls ++ [Call.xmr_base58_addr_encode_check t.toNat d 128] },
    ?_, ?_⟩
  · simp [mod_trezorcrypto_monero_xmr_base58_addr_encode_check_obj,
      MP_DEFINE_CONST_FUN_OBJ_VAR_BETWEEN, mod_trezorcrypto_monero_xmr_base58_addr_encode_check,
      argAt, run_mp_get_buffer_raise_bytes, mp_obj_get_int, mp_buffer_info_t.len, htu, he, hne,
      mp_obj_new_bytes]
  · refine ⟨_, _, mp_obj_new_int_from_ull E t.toNat,
      run_base58_addr_decode_check E _ enc d t.toNat hdec hd, ?_, ?_⟩
    · simp [deref]
    · rw [int_value_mp_obj_new_int_from_ull, Int.toNat_of_nonneg h0]

theorem run_base58_encode_too_long (E : Env Pt) (s : State Pt) (t : Int) (d : List Byte)
    (h0 : 0 ≤ t) (h1 : t < 128) (hd : 91 ≤ d.length) :
    (mod_trezorcrypto_monero_xmr_base58_addr_encode_check_obj E [.smallInt t, .bytes d]).run s =
      (.error (.ValueError "b58 encoding error"),
        { s with calls := s.calls ++ [Call.xmr_base58_addr_encode_check t.toNat d 128] }) := by
  have ht : t.toNat < 128 := by omega
  have htu : to_uint64 t = t.toNat := to_uint64_of_nonneg t h0 (by omega)
  have hvl : (xmr_write_varint t.toNat).length = 1 := by
    rw [xmr_write_varint_small _ ht]; rfl
  have hl : (xmr_write_varint t.toNat ++ d ++
      (E.xmr_fast_hash (xmr_write_varint t.toNat ++ d)).take addr_checksum_size).length =
      d.length + 5 := by
    rw [List.length_append, List.length_append, hvl, List.length_take,
      E.xmr_fast_hash_length]
    simp [addr_checksum_size]; omega
  have hlong : 128 < (xmr_base58_encode (xmr_write_varint t.toNat ++ d ++
      (E.xmr_fast_hash (xmr_write_varint t.toNat ++ d)).take addr_checksum_size)).length := by
    rw [xmr_base58_encode_length, hl]
    omega
  have he : xmr_base58_addr_encode_check E t.toNat d d.length 128 = (0, []) := by
    simp only [xmr_base58_addr_encode_check, List.take_length]
    rw [if_pos hlong]
  simp [mod_trezorcrypto_monero_xmr_base58_addr_encode_check_obj,
    MP_DEFINE_CONST_FUN_OBJ_VAR_BETWEEN, mod_trezorcrypto_monero_xmr_base58_addr_encode_check,
    argAt, run_mp_get_buffer_raise_bytes, mp_obj_get_int, mp_buffer_info_t.len, htu, he]

/-- C6 fails as stated: for tag 0 and a payload of 128 bytes,
`xmr_base58_addr_encode_check` raises ("b58 encoding error"), because the
encoding does not fit the 128-byte output buffer of the binding. -/
theorem C6_counterexample :
    (List.replicate 128 (7 : Byte)).length = 128 ∧
    raised ((mod_trezorcrypto_monero_xmr_base58_addr_encode_check_obj (testEnv 32)
      [.smallInt 0, .bytes (List.replicate 128 7)]).run ⟨[], [], 0⟩) :=
  ⟨List.length_replicate _ _, ⟨_, congrArg Prod.fst
    (run_base58_encode_too_long (testEnv 32) ⟨[], [], 0⟩ 0 (List.replicate 128 7)
      (le_refl _) (by decide) (by rw [List.length_replicate]; decide))⟩⟩

/-- C6 (amended): for every tag in {0, 1}: for every payload of length 1, 8 or
33 bytes, `xmr_base58_addr_encode_check(tag, data)` returns a byte string, and
`xmr_base58_addr_decode_check` applied to it returns the pair of `data` and an
integer equal to `tag`; and for every payload of 128 bytes
`xmr_base58_addr_encode_check(tag, data)` raises. -/
theorem C6_base58_round_trip (E : Env Pt) (s : State Pt) (t : Int) (ht : t = 0 ∨ t = 1) :
    (∀ d : List Byte, (d.length = 1 ∨ d.length = 8 ∨ d.length = 33) →
      ∃ (enc : List Byte) (s1 : State Pt),
        (mod_trezorcrypto_monero_xmr_base58_addr_encode_check_obj E
          [.smallInt t, .bytes d]).run s = (.ok (.bytes enc), s1) ∧
        ∃ (res : Obj) (s2 : State Pt) (tagObj : Obj),
          (mod_trezorcrypto_monero_xmr_base58_addr_decode_check_obj E [.bytes enc]).run s1 =
            (.ok res, s2) ∧
          deref s2 res = some (.tuple [.bytes d, tagObj]) ∧ int_value tagObj = some t) ∧
    (∀ d : List Byte, d.length = 128 →
      raised ((mod_trezorcrypto_monero_xmr_base58_addr_encode_check_obj E
        [.smallInt t, .bytes d]).run s)) := by
  constructor
  · intro d hd
    exact run_base58_round_trip E s t d (by omega) (by omega) (by omega) (by omega)
  · intro d hd
    exact ⟨_, congrArg Prod.fst
      (run_base58_encode_too_long E s t d (by omega) (by omega) (by omega))⟩

/-- Witness for C6 (amended): tag 1, a 33-byte payload and a 128-byte payload. -/
theorem C6_base58_round_trip_witness :
    (∃ (enc : List Byte) (s1 : State Int),
      (mod_trezorcrypto_monero_xmr_base58_addr_encode_check_obj (testEnv 32)
        [.smallInt 1, .bytes (List.replicate 33 7)]).run ⟨[], [], 0⟩ = (.ok (.bytes enc), s1) ∧
      ∃ (res : Obj) (s2 : State Int) (tagObj : Obj),
        (mod_trezorcrypto_monero_xmr_base58_addr_decode_check_obj (testEnv 32) [.bytes enc]).run
          s1 = (.ok res, s2) ∧
        deref s2 res = some (.tuple [.bytes (List.replicate 33 7), tagObj]) ∧
        int_value tagObj = some 1) ∧
    raised ((mod_trezorcrypto_monero_xmr_base58_addr_encode_check_obj (testEnv 32)
      [.smallInt 1, .bytes (List.replicate 128 7)]).run ⟨[], [], 0⟩) :=
  ⟨(C6_base58_round_trip (testEnv 32) ⟨[], [], 0⟩ 1 (Or.inr rfl)).1 (List.replicate 33 7)
      (Or.inr (Or.inr (List.length_replicate _ _))),
   (C6_base58_round_trip (testEnv 32) ⟨[], [], 0⟩ 1 (Or.inr rfl)).2 (List.replicate 128 7)
      (List.length_replicate _ _)⟩

theorem run_base58_encode_tag_overflow (E : Env Pt) (s : State Pt) (t : Int) (d : List Byte)
    (hfit : fits_mp_int E t = false) :
    (mod_trezorcrypto_monero_xmr_base58_addr_encode_check_obj E [.int t, .bytes d]).run s =
      (.error (.OverflowError "overflow converting long int to machine word"), s) := by
  simp [mod_trezorcrypto_monero_xmr_base58_addr_encode_check_obj,
    MP_DEFINE_CONST_FUN_OBJ_VAR_BETWEEN, mod_trezorcrypto_monero_xmr_base58_addr_encode_check,
    argAt, run_mp_get_buffer_raise_bytes, mp_obj_get_int, mp_obj_int_get_checked, hfit]

/-- C7, the code at the failing input: for the tag `2^64 − 1` (a big int) the
binding raises `OverflowError` from `mp_obj_get_int` and leaves the state as it
was, so the encoder is never called; this holds with a 32-bit and with a 64-bit
`mp_int_t`. -/
theorem C7_tag_overflow :
    (0 : Int) ≤ 2 ^ 64 - 1 ∧ (2 : Int) ^ 64 - 1 < 2 ^ 64 ∧
    (mod_trezorcrypto_monero_xmr_base58_addr_encode_check_obj (testEnv 32)
      [.int (2 ^ 64 - 1), .bytes [0]]).run ⟨[], [], 0⟩ =
      (.error (.OverflowError "overflow converting long int to machine word"), ⟨[], [], 0⟩) ∧
    (mod_trezorcrypto_monero_xmr_base58_addr_encode_check_obj (testEnv 64)
      [.int (2 ^ 64 - 1), .bytes [0]]).run ⟨[], [], 0⟩ =
      (.error (.OverflowError "overflow converting long int to machine word"), ⟨[], [], 0⟩) := by
  refine ⟨by norm_num, by norm_num, ?_, ?_⟩
  · exact run_base58_encode_tag_overflow (testEnv 32) ⟨[], [], 0⟩ _ _
      (by simp only [fits_mp_int, testEnv]; norm_num)
  · exact run_base58_encode_tag_overflow (testEnv 64) ⟨[], [], 0⟩ _ _
      (by simp only [fits_mp_int, testEnv]; norm_num)

/-! ## Amounts -/

theorem write_buffer_state_calls (buf : Option Nat) (new : List Byte) (S : State Pt) :
    (write_buffer_state buf new S).calls = S.calls := by
  unfold write_buffer_state
  split
  · split <;> rfl
  · rfl

theorem write_buffer_state_rng (buf : Option Nat) (new : List Byte) (S : State Pt) :
    (write_buffer_state buf new S).rng = S.rng := by
  unfold write_buffer_state
  split
  · split <;> rfl
  · rfl

theorem gen_range_proof_calls (E : Env Pt) (s s1 : State Pt) (args : List Obj) (res : Obj)
    (h : (mod_trezorcrypto_monero_gen_range_proof_obj E args).run s = (.ok res, s1)) :
    ∃ v, (mp_obj_get_uint64 (argAt args 1) : M Pt Nat).run s = (.ok v, s) ∧
      ((∃ lm, s1.calls = s.calls ++ [.xmr_gen_range_sig v lm]) ∨
       (∃ lm ai al, s1.calls = s.calls ++ [.xmr_gen_range_sig_ex v lm ai al])) := by
  by_cases hn : args.length < 2 ∨ 5 < args.length
  · simp [mod_trezorcrypto_monero_gen_range_proof_obj, MP_DEFINE_CONST_FUN_OBJ_VAR_BETWEEN, hn]
      at h
  by_cases hsz : E.sizeof_xmr_range_sig_t = 6176
  swap
  · simp [mod_trezorcrypto_monero_gen_range_proof_obj, MP_DEFINE_CONST_FUN_OBJ_VAR_BETWEEN, hn,
      mod_trezorcrypto_monero_gen_range_proof, RSIG_SIZE, hsz] at h
  rcases mp_get_buffer_raise_cases (argAt args 0) .MP_BUFFER_WRITE s with ⟨e, h1⟩ | ⟨bi, h1⟩
  · simp [mod_trezorcrypto_monero_gen_range_proof_obj, MP_DEFINE_CONST_FUN_OBJ_VAR_BETWEEN, hn,
      mod_trezorcrypto_monero_gen_range_proof, RSIG_SIZE, hsz, h1] at h
  by_cases hlen : bi.len < 6176
  · simp [mod_trezorcrypto_monero_gen_range_proof_obj, MP_DEFINE_CONST_FUN_OBJ_VAR_BETWEEN, hn,
      mod_trezorcrypto_monero_gen_range_proof, RSIG_SIZE, hsz, h1, hlen] at h
  rcases mp_obj_get_uint64_cases (argAt args 1) s with ⟨e, h2⟩ | ⟨v, h2⟩
  · simp [mod_trezorcrypto_monero_gen_range_proof_obj, MP_DEFINE_CONST_FUN_OBJ_VAR_BETWEEN, hn,
      mod_trezorcrypto_monero_gen_range_proof, RSIG_SIZE, hsz, h1, hlen, h2] at h
  refine ⟨v, h2, ?_⟩
  by_cases h4 : 4 < args.length
  · rcases mp_get_buffer_raise_cases (argAt args 3) .MP_BUFFER_WRITE s with ⟨e, h5⟩ | ⟨bx, h5⟩
    · simp [mod_trezorcrypto_monero_gen_range_proof_obj, MP_DEFINE_CONST_FUN_OBJ_VAR_BETWEEN, hn,
        mod_trezorcrypto_monero_gen_range_proof, RSIG_SIZE, hsz, h1, hlen, h2, h4, h5] at h
    rcases mp_get_buffer_raise_cases (argAt args 4) .MP_BUFFER_WRITE s with ⟨e, h6⟩ | ⟨by1, h6⟩
    · simp [mod_trezorcrypto_monero_gen_range_proof_obj, MP_DEFINE_CONST_FUN_OBJ_VAR_BETWEEN, hn,
        mod_trezorcrypto_monero_gen_range_proof, RSIG_SIZE, hsz, h1, hlen, h2, h4, h5, h6] at h
    by_cases hxl : bx.len < E.sizeof_bignum256modm * 64
    · simp [mod_trezorcrypto_monero_gen_range_proof_obj, MP_DEFINE_CONST_FUN_OBJ_VAR_BETWEEN, hn,
        mod_trezorcrypto_monero_gen_range_proof, RSIG_SIZE, hsz, h1, hlen, h2, h4, h5, h6, hxl]
        at h
    by_cases hyl : by1.len < E.sizeof_bignum256modm * 64
    · simp [mod_trezorcrypto_monero_gen_range_proof_obj, MP_DEFINE_CONST_FUN_OBJ_VAR_BETWEEN, hn,
        mod_trezorcrypto_monero_gen_range_proof, RSIG_SIZE, hsz, h1, hlen, h2, h4, h5, h6, hxl,
        hyl] at h
    right
    simp [mod_trezorcrypto_monero_gen_range_proof_obj, MP_DEFINE_CONST_FUN_OBJ_VAR_BETWEEN, hn,
      mod_trezorcrypto_monero_gen_range_proof, RSIG_SIZE, hsz, h1, hlen, h2, h4, h5, h6, hxl, hyl,
      call_xmr_gen_range_sig_ex, mp_obj_from_ge25519, mp_obj_from_scalar] at h
    obtain ⟨-, rfl⟩ := h
    exact ⟨_, _, _, by simp only [write_buffer_state_calls]; rfl⟩
  · left
    simp [mod_trezorcrypto_monero_gen_range_proof_obj, MP_DEFINE_CONST_FUN_OBJ_VAR_BETWEEN, hn,
      mod_trezorcrypto_monero_gen_range_proof, RSIG_SIZE, hsz, h1, hlen, h2, h4,
      call_xmr_gen_range_sig, mp_obj_from_ge25519, mp_obj_from_scalar] at h
    obtain ⟨-, rfl⟩ := h
    exact ⟨_, by simp only [write_buffer_state_calls]; rfl⟩

/-- C11: for every integer `v` with `0 ≤ v < 2^64`, held as a small int or as a
big int, `mp_obj_get_uint64` returns exactly `v` (for a big int, by the 8-byte
big-endian reassembly loop).  So `xmr_gen_c` computes the commitment to the
amount `v`, every returning call of `gen_range_proof` passes the amount `v` to
the proof generator, and the integer scalar constructor builds the scalar `v`. -/
theorem C11_amount_is_raw_uint64 [AddCommGroup Pt] (E : Env Pt) (s : State Pt) (v : Int)
    (amt : Obj) (h0 : 0 ≤ v) (h2 : v < 2 ^ 64) (hamt : amt = .smallInt v ∨ amt = .int v) :
    (mp_obj_get_uint64 amt : M Pt Nat).run s = (.ok v.toNat, s) ∧
    (amt = .int v → mp_obj_uint64_get_checked amt = v.toNat) ∧
    (∀ (m vm : Nat), s.heap[m]? = some (.scalar vm) →
      (mod_trezorcrypto_monero_xmr_gen_c_obj E [.ref m, amt]).run s =
        (.ok (.ref s.heap.length),
          { s with heap := s.heap ++ [.ge25519 (xmr_gen_c E vm v.toNat)] })) ∧
    (∀ (args : List Obj) (res : Obj) (s1 : State Pt), argAt args 1 = amt →
      (mod_trezorcrypto_monero_gen_range_proof_obj E args).run s = (.ok res, s1) →
      ((∃ lm, s1.calls = s.calls ++ [.xmr_gen_range_sig v.toNat lm]) ∨
       (∃ lm ai al, s1.calls = s.calls ++ [.xmr_gen_range_sig_ex v.toNat lm ai al]))) ∧
    (mod_trezorcrypto_monero_bignum256modm_make_new 0 [amt]).run s =
      (.ok (.ref s.heap.length), { s with heap := s.heap ++ [.scalar (set256_modm v.toNat)] }) := by
  have hv : to_uint64 v = v.toNat := to_uint64_of_nonneg v h0 h2
  have hg : ∀ t : State Pt, (mp_obj_get_uint64 amt : M Pt Nat).run t = (.ok v.toNat, t) := by
    intro t
    rw [mp_obj_get_uint64_of_int amt v hamt t, hv]
  refine ⟨hg s, ?_, ?_, ?_, ?_⟩
  · rintro rfl
    rw [mp_obj_uint64_get_checked_int, hv]
  · intro m vm hm
    rw [run_xmr_gen_c_int E s m vm amt v hm hamt, hv]
    rfl
  · intro args res s1 ha h
    obtain ⟨w, hw, hc⟩ := gen_range_proof_calls E s s1 args res h
    rw [ha, hg s] at hw
    have hwv : v.toNat = w := by
      have := congrArg Prod.fst hw
      simpa using this
    rw [hwv]
    exact hc
  · rcases hamt with rfl | rfl <;>
    simp [mod_trezorcrypto_monero_bignum256modm_make_new, mp_arg_check_num, argAt,
      MP_OBJ_IS_SCALAR, deref, MP_OBJ_IS_STR_OR_BYTES, mp_obj_is_integer, hg,
      set_MP_OBJ_SCALAR]

/-- Witness for C11: the amount `2^64 - 1` held as a big int. -/
theorem C11_amount_is_raw_uint64_witness :
    (mp_obj_get_uint64 (.int (2 ^ 64 - 1)) : M Int Nat).run testState =
      (.ok ((2 : Int) ^ 64 - 1).toNat, testState) :=
  (C11_amount_is_raw_uint64 (testEnv 32) testState (2 ^ 64 - 1) (.int (2 ^ 64 - 1))
    (by decide) (by decide) (Or.inr rfl)).1

/-! ## Output scalar and allocating forms -/

/-- C12: for scalars `x`, `y`, `z` and every scalar `r` (which may be one of
the operands), `add256_modm`, `sub256_modm` and `mulsub256_modm` called with
the leading output scalar `r` return `r` itself holding the value that the
allocating form returns in a fresh scalar; both forms read the operands `x`,
`y` (and `z`) in the same order. -/
theorem C12_output_and_allocating_forms_agree (s : State Pt) (r x y z vr vx vy vz : Nat)
    (hr : s.heap[r]? = some (.scalar vr)) (hx : s.heap[x]? = some (.scalar vx))
    (hy : s.heap[y]? = some (.scalar vy)) (hz : s.heap[z]? = some (.scalar vz)) :
    ((mod_trezorcrypto_monero_add256_modm_obj [.ref r, .ref x, .ref y]).run s =
        (.ok (.ref r), { s with heap := s.heap.set r (.scalar (add256_modm vx vy)) }) ∧
     (mod_trezorcrypto_monero_add256_modm_obj [.ref x, .ref y]).run s =
        (.ok (.ref s.heap.length),
          { s with heap := s.heap ++ [.scalar (add256_modm vx vy)] })) ∧
    ((mod_trezorcrypto_monero_sub256_modm_obj [.ref r, .ref x, .ref y]).run s =
        (.ok (.ref r), { s with heap := s.heap.set r (.scalar (sub256_modm vx vy)) }) ∧
     (mod_trezorcrypto_monero_sub256_modm_obj [.ref x, .ref y]).run s =
        (.ok (.ref s.heap.length),
          { s with heap := s.heap ++ [.scalar (sub256_modm vx vy)] })) ∧
    ((mod_trezorcrypto_monero_mulsub256_modm_obj [.ref r, .ref x, .ref y, .ref z]).run s =
        (.ok (.ref r), { s with heap := s.heap.set r (.scalar (mulsub256_modm vx vy vz)) }) ∧
     (mod_trezorcrypto_monero_mulsub256_modm_obj [.ref x, .ref y, .ref z]).run s =
        (.ok (.ref s.heap.length),
          { s with heap := s.heap ++ [.scalar (mulsub256_modm vx vy vz)] })) := by
  have hxl := lt_length_of_getElem? _ _ _ hx
  have hyl := lt_length_of_getElem? _ _ _ hy
  have hzl := lt_length_of_getElem? _ _ _ hz
  refine ⟨⟨?_, ?_⟩, ⟨?_, ?_⟩, ⟨?_, ?_⟩⟩
  · simp [mod_trezorcrypto_monero_add256_modm_obj, MP_DEFINE_CONST_FUN_OBJ_VAR_BETWEEN,
      mod_trezorcrypto_monero_add256_modm, assert_scalar,
      argAt, MP_OBJ_IS_SCALAR, MP_OBJ_C_SCALAR, deref, set_MP_OBJ_SCALAR, hr, hx, hy]
  · simp [mod_trezorcrypto_monero_add256_modm_obj, MP_DEFINE_CONST_FUN_OBJ_VAR_BETWEEN,
      mod_trezorcrypto_monero_add256_modm, mp_obj_new_scalar, assert_scalar,
      argAt, MP_OBJ_IS_SCALAR, MP_OBJ_C_SCALAR, deref, set_MP_OBJ_SCALAR,
      List.getElem?_append_left, hxl, hyl, hx, hy]
  · simp [mod_trezorcrypto_monero_sub256_modm_obj, MP_DEFINE_CONST_FUN_OBJ_VAR_BETWEEN,
      mod_trezorcrypto_monero_sub256_modm, assert_scalar,
      argAt, MP_OBJ_IS_SCALAR, MP_OBJ_C_SCALAR, deref, set_MP_OBJ_SCALAR, hr, hx, hy]
  · simp [mod_trezorcrypto_monero_sub256_modm_obj, MP_DEFINE_CONST_FUN_OBJ_VAR_BETWEEN,
      mod_trezorcrypto_monero_sub256_modm, mp_obj_new_scalar, assert_scalar,
      argAt, MP_OBJ_IS_SCALAR, MP_OBJ_C_SCALAR, deref, set_MP_OBJ_SCALAR,
      List.getElem?_append_left, hxl, hyl, hx, hy]
  · simp [mod_trezorcrypto_monero_mulsub256_modm_obj, MP_DEFINE_CONST_FUN_OBJ_VAR_BETWEEN,
      mod_trezorcrypto_monero_mulsub256_modm, assert_scalar,
      argAt, MP_OBJ_IS_SCALAR, MP_OBJ_C_SCALAR, deref, set_MP_OBJ_SCALAR, hr, hx, hy, hz]
  · simp [mod_trezorcrypto_monero_mulsub256_modm_obj, MP_DEFINE_CONST_FUN_OBJ_VAR_BETWEEN,
      mod_trezorcrypto_monero_mulsub256_modm, mp_obj_new_scalar, assert_scalar,
      argAt, MP_OBJ_IS_SCALAR, MP_OBJ_C_SCALAR, deref, set_MP_OBJ_SCALAR,
      List.getElem?_append_left, hxl, hyl, hzl, hx, hy, hz]

/-- Witness for C12: the scalars 2, 3, 5 at addresses 1, 2, 3 and the output
scalar at address 0; in the second conjunct the output scalar is the first
operand. -/
theorem C12_output_and_allocating_forms_agree_witness :
    ((mod_trezorcrypto_monero_add256_modm_obj [.ref 0, .ref 1, .ref 2]).run
        (⟨[Cell.scalar 9, Cell.scalar 2, Cell.scalar 3, Cell.scalar 5], [], 0⟩ : State Int) =
      (.ok (.ref 0),
        ⟨[Cell.scalar 9, Cell.scalar 2, Cell.scalar 3, Cell.scalar 5].set 0
          (.scalar (add256_modm 2 3)), [], 0⟩)) ∧
    ((mod_trezorcrypto_monero_sub256_modm_obj [.ref 1, .ref 1, .ref 2]).run
        (⟨[Cell.scalar 9, Cell.scalar 2, Cell.scalar 3, Cell.scalar 5], [], 0⟩ : State Int) =
      (.ok (.ref 1),
        ⟨[Cell.scalar 9, Cell.scalar 2, Cell.scalar 3, Cell.scalar 5].set 1
          (.scalar (sub256_modm 2 3)), [], 0⟩)) :=
  ⟨(C12_output_and_allocating_forms_agree
      ⟨[Cell.scalar 9, Cell.scalar 2, Cell.scalar 3, Cell.scalar 5], [], 0⟩
      0 1 2 3 9 2 3 5 rfl rfl rfl rfl).1.1,
   (C12_output_and_allocating_forms_agree
      ⟨[Cell.scalar 9, Cell.scalar 2, Cell.scalar 3, Cell.scalar 5], [], 0⟩
      1 1 2 3 2 2 3 5 rfl rfl rfl rfl).2.1.1⟩

/-! ## Point addition -/

/-- C13: for points `a`, `b`, every output point `r` (which may be one of the
operands) and a sign `sg` in {0, 1} passed as an integer, `ge25519_add(a, b, sg)`
returns a fresh point and `ge25519_add(r, a, b, sg)` returns `r`, each holding
the result of the group addition called with the operands `a`, `b` and the sign
`sg`; `ge25519_add(r, a, b)` returns `r` holding the result for the sign 0. -/
theorem C13_ge25519_add_calling_forms [AddCommGroup Pt] (E : Env Pt) (s : State Pt)
    (r a b : Nat) (vr va vb : Pt) (sg : Int)
    (hr : s.heap[r]? = some (.ge25519 vr)) (ha : s.heap[a]? = some (.ge25519 va))
    (hb : s.heap[b]? = some (.ge25519 vb)) (hsg : sg = 0 ∨ sg = 1) :
    (mod_trezorcrypto_monero_ge25519_add_obj E [.ref a, .ref b, .smallInt sg]).run s =
      (.ok (.ref s.heap.length),
        { s with heap := s.heap ++ [.ge25519 (ge25519_add E va vb sg.toNat)] }) ∧
    (mod_trezorcrypto_monero_ge25519_add_obj E [.ref r, .ref a, .ref b, .smallInt sg]).run s =
      (.ok (.ref r), { s with heap := s.heap.set r (.ge25519 (ge25519_add E va vb sg.toNat)) }) ∧
    (mod_trezorcrypto_monero_ge25519_add_obj E [.ref r, .ref a, .ref b]).run s =
      (.ok (.ref r), { s with heap := s.heap.set r (.ge25519 (ge25519_add E va vb 0)) }) := by
  have hal := lt_length_of_getElem? _ _ _ ha
  have hbl := lt_length_of_getElem? _ _ _ hb
  have h8 : to_uint8 sg = sg.toNat := by
    rcases hsg with rfl | rfl <;> decide
  refine ⟨?_, ?_, ?_⟩
  · simp [mod_trezorcrypto_monero_ge25519_add_obj, MP_DEFINE_CONST_FUN_OBJ_VAR_BETWEEN,
      mod_trezorcrypto_monero_ge25519_add, mp_obj_new_ge25519, assert_ge25519,
      argAt, MP_OBJ_IS_GE25519, MP_OBJ_C_GE25519, deref, set_MP_OBJ_GE25519,
      mp_obj_is_integer, mp_obj_get_int, List.getElem?_append_left, hal, hbl, ha, hb, h8]
  · simp [mod_trezorcrypto_monero_ge25519_add_obj, MP_DEFINE_CONST_FUN_OBJ_VAR_BETWEEN,
      mod_trezorcrypto_monero_ge25519_add, assert_ge25519,
      argAt, MP_OBJ_IS_GE25519, MP_OBJ_C_GE25519, deref, set_MP_OBJ_GE25519,
      mp_obj_is_integer, mp_obj_get_int, hr, ha, hb, h8]
  · simp [mod_trezorcrypto_monero_ge25519_add_obj, MP_DEFINE_CONST_FUN_OBJ_VAR_BETWEEN,
      mod_trezorcrypto_monero_ge25519_add, assert_ge25519,
      argAt, MP_OBJ_IS_GE25519, MP_OBJ_C_GE25519, deref, set_MP_OBJ_GE25519,
      mp_obj_is_integer, hr, ha, hb, to_uint8]

/-- Witness for C13: the points 4 and 9 of the additive group of the integers
at addresses 1 and 2, the output point at address 0, and the sign 1. -/
theorem C13_ge25519_add_calling_forms_witness :
    (mod_trezorcrypto_monero_ge25519_add_obj (testEnv 32)
        [.ref 0, .ref 1, .ref 2, .smallInt 1]).run
        (⟨[Cell.ge25519 0, Cell.ge25519 4, Cell.ge25519 9], [], 0⟩ : State Int) =
      (.ok (.ref 0),
        ⟨[Cell.ge25519 0, Cell.ge25519 4, Cell.ge25519 9].set 0
          (.ge25519 (ge25519_add (testEnv 32) 4 9 (1 : Int).toNat)), [], 0⟩) :=
  (C13_ge25519_add_calling_forms (testEnv 32)
    ⟨[Cell.ge25519 0, Cell.ge25519 4, Cell.ge25519 9], [], 0⟩ 0 1 2 0 4 9 1 rfl rfl rfl
    (Or.inr rfl)).2.1

/-! ## Scalar multiplication of the basepoint -/

theorem mp_obj_get_int_uint64 (E : Env Pt) (n : Obj) (hint : mp_obj_is_integer n = true) :
    (∃ e, ∀ t : State Pt, (mp_obj_get_int E n).run t = (.error e, t)) ∨
    (∃ v, (∀ t : State Pt, (mp_obj_get_int E n).run t = (.ok v, t)) ∧
      ∀ t : State Pt, (mp_obj_get_uint64 n : M Pt Nat).run t = (.ok (to_uint64 v), t)) := by
  cases n with
  | null => cases hint
  | none => cases hint
  | bytes d => cases hint
  | ref a => cases hint
  | bool b =>
    cases b
    · exact Or.inr ⟨0, fun t => rfl, fun t => rfl⟩
    · exact Or.inr ⟨1, fun t => rfl, fun t => rfl⟩
  | smallInt v => exact Or.inr ⟨v, fun t => rfl, fun t => rfl⟩
  | int v =>
    by_cases hfit : fits_mp_int E v = true
    · refine Or.inr ⟨v, fun t => ?_, fun t => mp_obj_get_uint64_of_int (.int v) v (Or.inr rfl) t⟩
      simp [mp_obj_get_int, mp_obj_int_get_checked, hfit]
    · refine Or.inl ⟨.OverflowError "overflow converting long int to machine word", fun t => ?_⟩
      simp [mp_obj_get_int, mp_obj_int_get_checked, hfit]

theorem run_init256_modm_integer (s : State Pt) (n : Obj) (w : Nat)
    (hint : mp_obj_is_integer n = true)
    (hw : ∀ t : State Pt, (mp_obj_get_uint64 n : M Pt Nat).run t = (.ok w, t)) :
    (mod_trezorcrypto_monero_init256_modm_obj [n]).run s =
      (.ok (.ref s.heap.length), { s with heap := s.heap ++ [.scalar (set256_modm w)] }) := by
  cases n <;> first
    | (simp [mod_trezorcrypto_monero_init256_modm_obj, MP_DEFINE_CONST_FUN_OBJ_VAR_BETWEEN,
        mod_trezorcrypto_monero_init256_modm, mp_obj_new_scalar, assert_scalar, argAt,
        MP_OBJ_IS_SCALAR, MP_OBJ_IS_STR_OR_BYTES, deref, set_MP_OBJ_SCALAR, mp_obj_is_integer,
        hw]; done)
    | cases hint

theorem run_ge25519_scalarmult_base_integer [AddCommGroup Pt] (E : Env Pt) (s : State Pt)
    (n : Obj) (v : Int) (hint : mp_obj_is_integer n = true)
    (hv : ∀ t : State Pt, (mp_obj_get_int E n).run t = (.ok v, t)) :
    (mod_trezorcrypto_monero_ge25519_scalarmult_base_obj E [n]).run s =
      (.ok (.ref s.heap.length), { s with heap := s.heap ++
        [.ge25519 (ge25519_scalarmult_base_wrapper E (set256_modm (to_uint64 v)))] }) := by
  cases n <;> first
    | (simp [mod_trezorcrypto_monero_ge25519_scalarmult_base_obj,
        MP_DEFINE_CONST_FUN_OBJ_VAR_BETWEEN,
        mod_trezorcrypto_monero_ge25519_scalarmult_base, mp_obj_new_ge25519, assert_ge25519,
        argAt, MP_OBJ_IS_GE25519, MP_OBJ_IS_SCALAR, deref, set_MP_OBJ_GE25519,
        mp_obj_is_integer, hv]; done)
    | cases hint

theorem returned_point_alloc (s : State Pt) (cs : List (Cell Pt)) (P : Pt) :
    returned_point ((.ok (.ref (s.heap ++ cs).length),
      { s with heap := s.heap ++ cs ++ [.ge25519 P] }) : Except Exc Obj × State Pt) = some P := by
  simp only [returned_point, deref]
  rw [List.getElem?_concat_length]

/-- C14: `ge25519_scalarmult_base(0)` returns the neutral element and
`ge25519_scalarmult_base(1)` the basepoint; and for every integer object `n`
that `ge25519_scalarmult_base(n)` accepts (the call returns), the point it
returns is the point that `ge25519_scalarmult_base(init256_modm(n))` returns. -/
theorem C14_scalarmult_base_integer_form [AddCommGroup Pt] (E : Env Pt) (s : State Pt) :
    returned_point ((mod_trezorcrypto_monero_ge25519_scalarmult_base_obj E [.smallInt 0]).run s)
      = some ge25519_set_neutral ∧
    returned_point ((mod_trezorcrypto_monero_ge25519_scalarmult_base_obj E [.smallInt 1]).run s)
      = some E.basepoint ∧
    ∀ n : Obj, mp_obj_is_integer n = true →
      returned ((mod_trezorcrypto_monero_ge25519_scalarmult_base_obj E [n]).run s) →
      ∃ P : Pt,
        returned_point ((mod_trezorcrypto_monero_ge25519_scalarmult_base_obj E [n]).run s)
          = some P ∧
        returned_point ((scalarmult_base_of_init256_modm E n).run s) = some P := by
  refine ⟨?_, ?_, ?_⟩
  · rw [run_ge25519_scalarmult_base_integer E s (.smallInt 0) 0 rfl (fun t => rfl)]
    have := returned_point_alloc s [] (ge25519_scalarmult_base_wrapper E (set256_modm (to_uint64 0)))
    simp only [List.append_nil] at this
    rw [this]
    simp [ge25519_scalarmult_base_wrapper, set256_modm, to_uint64, ge25519_set_neutral]
  · rw [run_ge25519_scalarmult_base_integer E s (.smallInt 1) 1 rfl (fun t => rfl)]
    have := returned_point_alloc s [] (ge25519_scalarmult_base_wrapper E (set256_modm (to_uint64 1)))
    simp only [List.append_nil] at this
    rw [this]
    simp [ge25519_scalarmult_base_wrapper, set256_modm, to_uint64]
  · intro n hint hret
    rcases mp_obj_get_int_uint64 E n hint with ⟨e, he⟩ | ⟨v, hv, hw⟩
    · exfalso
      obtain ⟨o, ho⟩ := hret
      cases n <;> first
        | (simp [mod_trezorcrypto_monero_ge25519_scalarmult_base_obj,
            MP_DEFINE_CONST_FUN_OBJ_VAR_BETWEEN,
            mod_trezorcrypto_monero_ge25519_scalarmult_base, mp_obj_new_ge25519, assert_ge25519,
            argAt, MP_OBJ_IS_GE25519, MP_OBJ_IS_SCALAR, deref, set_MP_OBJ_GE25519,
            mp_obj_is_integer, he] at ho; done)
        | cases hint
    · refine ⟨ge25519_scalarmult_base_wrapper E (set256_modm (to_uint64 v)), ?_, ?_⟩
      · rw [run_ge25519_scalarmult_base_integer E s n v hint hv]
        have := returned_point_alloc s []
          (ge25519_scalarmult_base_wrapper E (set256_modm (to_uint64 v)))
        simp only [List.append_nil] at this
        exact this
      · have h1 := run_init256_modm_integer s n (to_uint64 v) hint hw
        have h2 := run_ge25519_scalarmult_base_scalar E
          { s with heap := s.heap ++ [.scalar (set256_modm (to_uint64 v))] } s.heap.length
          (set256_modm (to_uint64 v)) (List.getElem?_concat_length _ _)
        simp only [scalarmult_base_of_init256_modm, run_bind, h1, h2]
        exact returned_point_alloc s [.scalar (set256_modm (to_uint64 v))] _

/-- Witness for C14: the big int `2^30`, which fits the 32-bit `mp_int_t`, on
the empty heap. -/
theorem C14_scalarmult_base_integer_form_witness :
    ∃ P : Int,
      returned_point ((mod_trezorcrypto_monero_ge25519_scalarmult_base_obj (testEnv 32)
        [.int (2 ^ 30)]).run ⟨[], [], 0⟩) = some P ∧
      returned_point ((scalarmult_base_of_init256_modm (testEnv 32) (.int (2 ^ 30))).run
        ⟨[], [], 0⟩) = some P := by
  have hfit : fits_mp_int (testEnv 32) (2 ^ 30) = true := by
    simp only [fits_mp_int, testEnv]
    norm_num
  have hv : ∀ t : State Int, (mp_obj_get_int (testEnv 32) (.int (2 ^ 30))).run t =
      (.ok (2 ^ 30), t) := by
    intro t
    simp only [mp_obj_get_int, mp_obj_int_get_checked, hfit, ↓reduceIte]
    rfl
  exact (C14_scalarmult_base_integer_form (testEnv 32) ⟨[], [], 0⟩).2.2 (.int (2 ^ 30)) rfl
    ⟨.ref 0, by rw [run_ge25519_scalarmult_base_integer (testEnv 32) ⟨[], [], 0⟩
      (.int (2 ^ 30)) (2 ^ 30) rfl hv]; rfl⟩

/-! ## Failure of point decoding -/

theorem gen_range_proof_raise_state (E : Env Pt) (s : State Pt) (args : List Obj)
    (h : raised ((mod_trezorcrypto_monero_gen_range_proof_obj E args).run s)) :
    ((mod_trezorcrypto_monero_gen_range_proof_obj E args).run s).2 = s := by
  by_cases hn : args.length < 2 ∨ 5 < args.length
  · simp [mod_trezorcrypto_monero_gen_range_proof_obj, MP_DEFINE_CONST_FUN_OBJ_VAR_BETWEEN, hn]
  by_cases hsz : E.sizeof_xmr_range_sig_t = 6176
  swap
  · simp [mod_trezorcrypto_monero_gen_range_proof_obj, MP_DEFINE_CONST_FUN_OBJ_VAR_BETWEEN, hn,
      mod_trezorcrypto_monero_gen_range_proof, RSIG_SIZE, hsz]
  rcases mp_get_buffer_raise_cases (argAt args 0) .MP_BUFFER_WRITE s with ⟨e, h1⟩ | ⟨bi, h1⟩
  · simp [mod_trezorcrypto_monero_gen_range_proof_obj, MP_DEFINE_CONST_FUN_OBJ_VAR_BETWEEN, hn,
      mod_trezorcrypto_monero_gen_range_proof, RSIG_SIZE, hsz, h1]
  by_cases hlen : bi.len < 6176
  · simp [mod_trezorcrypto_monero_gen_range_proof_obj, MP_DEFINE_CONST_FUN_OBJ_VAR_BETWEEN, hn,
      mod_trezorcrypto_monero_gen_range_proof, RSIG_SIZE, hsz, h1, hlen]
  rcases mp_obj_get_uint64_cases (argAt args 1) s with ⟨e, h2⟩ | ⟨v, h2⟩
  · simp [mod_trezorcrypto_monero_gen_range_proof_obj, MP_DEFINE_CONST_FUN_OBJ_VAR_BETWEEN, hn,
      mod_trezorcrypto_monero_gen_range_proof, RSIG_SIZE, hsz, h1, hlen, h2]
  by_cases h4 : 4 < args.length
  · rcases mp_get_buffer_raise_cases (argAt args 3) .MP_BUFFER_WRITE s with ⟨e, h5⟩ | ⟨bx, h5⟩
    · simp [mod_trezorcrypto_monero_gen_range_proof_obj, MP_DEFINE_CONST_FUN_OBJ_VAR_BETWEEN, hn,
        mod_trezorcrypto_monero_gen_range_proof, RSIG_SIZE, hsz, h1, hlen, h2, h4, h5]
    rcases mp_get_buffer_raise_cases (argAt args 4) .MP_BUFFER_WRITE s with ⟨e, h6⟩ | ⟨by1, h6⟩
    · simp [mod_trezorcrypto_monero_gen_range_proof_obj, MP_DEFINE_CONST_FUN_OBJ_VAR_BETWEEN, hn,
        mod_trezorcrypto_monero_gen_range_proof, RSIG_SIZE, hsz, h1, hlen, h2, h4, h5, h6]
    by_cases hxl : bx.len < E.sizeof_bignum256modm * 64
    · simp [mod_trezorcrypto_monero_gen_range_proof_obj, MP_DEFINE_CONST_FUN_OBJ_VAR_BETWEEN, hn,
        mod_trezorcrypto_monero_gen_range_proof, RSIG_SIZE, hsz, h1, hlen, h2, h4, h5, h6, hxl]
    by_cases hyl : by1.len < E.sizeof_bignum256modm * 64
    · simp [mod_trezorcrypto_monero_gen_range_proof_obj, MP_DEFINE_CONST_FUN_OBJ_VAR_BETWEEN, hn,
        mod_trezorcrypto_monero_gen_range_proof, RSIG_SIZE, hsz, h1, hlen, h2, h4, h5, h6, hxl,
        hyl]
    exfalso
    simp [mod_trezorcrypto_monero_gen_range_proof_obj, MP_DEFINE_CONST_FUN_OBJ_VAR_BETWEEN, hn,
      mod_trezorcrypto_monero_gen_range_proof, RSIG_SIZE, hsz, h1, hlen, h2, h4, h5, h6, hxl, hyl,
      call_xmr_gen_range_sig_ex, mp_obj_from_ge25519, mp_obj_from_scalar, raised] at h
  · exfalso
    simp [mod_trezorcrypto_monero_gen_range_proof_obj, MP_DEFINE_CONST_FUN_OBJ_VAR_BETWEEN, hn,
      mod_trezorcrypto_monero_gen_range_proof, RSIG_SIZE, hsz, h1, hlen, h2, h4,
      call_xmr_gen_range_sig, mp_obj_from_ge25519, mp_obj_from_scalar, raised] at h

/-- C16: whenever `gen_range_proof` raises, the state after the call is the
state before it: the proof buffer, the scratch buffers and every other object
hold their pre-call contents, and no call to a proof generator was made. -/
theorem C16_gen_range_proof_atomic (E : Env Pt) (s : State Pt) (args : List Obj)
    (h : raised ((mod_trezorcrypto_monero_gen_range_proof_obj E args).run s)) :
    ((mod_trezorcrypto_monero_gen_range_proof_obj E args).run s).2 = s :=
  gen_range_proof_raise_state E s args h

/-- Witness for C16: the call with a 10-byte proof buffer. -/
theorem C16_gen_range_proof_atomic_witness :
    raised ((mod_trezorcrypto_monero_gen_range_proof_obj (testEnv 32)
      [.ref 0, .smallInt 5]).run ⟨[.bytearray (List.replicate 10 0)], [], 0⟩) ∧
    ((mod_trezorcrypto_monero_gen_range_proof_obj (testEnv 32)
      [.ref 0, .smallInt 5]).run ⟨[.bytearray (List.replicate 10 0)], [], 0⟩).2 =
      ⟨[.bytearray (List.replicate 10 0)], [], 0⟩ :=
  ⟨⟨.ValueError "rsize buff too small", rfl⟩,
   C16_gen_range_proof_atomic (testEnv 32) ⟨[.bytearray (List.replicate 10 0)], [], 0⟩
    [.ref 0, .smallInt 5] ⟨.ValueError "rsize buff too small", rfl⟩⟩

/-! ## The explicit-randomness variant -/

/-- C18, evaluated on the code: for every hasher object (at address
`pre.length`, holding the state `h`) `hasher.copy()` returns that same object;
the clone it allocated at the end of the heap is not what the caller gets. -/
theorem C18_hasher_copy_returns_original (pre post : List (Cell Pt)) (h : List Byte)
    (calls : List Call) (rng : Nat) :
    (mod_trezorcrypto_monero_hasher_copy_obj [.ref pre.length]).run
        ⟨pre ++ Cell.hasher h :: post, calls, rng⟩ =
      (.ok (.ref pre.length), ⟨(pre ++ Cell.hasher h :: post) ++ [Cell.hasher h], calls, rng⟩) ∧
    pre.length ≠ (pre ++ Cell.hasher h :: post).length ∧
    ((mod_trezorcrypto_monero_hasher_copy_obj [.ref pre.length] >>= fun c =>
        mod_trezorcrypto_monero_hasher_update_obj [c, .bytes [1]]).run
        ⟨pre ++ Cell.hasher h :: post, calls, rng⟩).2.heap[pre.length]? =
      some (Cell.hasher (h ++ [1])) := by
  have e0 : (pre ++ Cell.hasher h :: post)[pre.length]? = some (Cell.hasher h) := by
    rw [getElem?_append_length]; simp
  have hl : pre.length < (pre ++ Cell.hasher h :: post).length := by
    rw [List.length_append, List.length_cons]; omega
  have e1 : ((pre ++ Cell.hasher h :: post) ++ [Cell.hasher h])[pre.length]? =
      some (Cell.hasher h) := by
    rw [List.getElem?_append_left hl]; exact e0
  refine ⟨?_, Nat.ne_of_lt hl, ?_⟩
  · simp only [mod_trezorcrypto_monero_hasher_copy_obj, MP_DEFINE_CONST_FUN_OBJ_1,
      mod_trezorcrypto_monero_hasher_copy, run_bind, run_getState, run_alloc, run_pure,
      mp_obj_hasher_t_h, deref, e0]
  · simp only [mod_trezorcrypto_monero_hasher_copy_obj, MP_DEFINE_CONST_FUN_OBJ_1,
      mod_trezorcrypto_monero_hasher_copy, run_bind, run_getState, run_alloc, run_pure,
      mod_trezorcrypto_monero_hasher_update_obj, MP_DEFINE_CONST_FUN_OBJ_2,
      mod_trezorcrypto_monero_hasher_update, run_mp_get_buffer_raise_bytes,
      mp_obj_hasher_t_h, deref, e0, e1, set_mp_obj_hasher_t_h, run_store, run_ite,
      mp_buffer_info_t.len, xmr_hasher_update]
    have hl2 : pre.length < (pre ++ Cell.hasher h :: post ++ [Cell.hasher h]).length := by
      rw [List.length_append]; omega
    rw [if_pos (by decide)]
    exact List.getElem?_set_self hl2

theorem run_hasher_digest (E : Env Pt) (s : State Pt) (a : Nat) (h : List Byte)
    (ha : s.heap[a]? = some (.hasher h)) :
    (mod_trezorcrypto_monero_hasher_digest_obj E [.ref a]).run s =
      (.ok (.bytes (E.xmr_fast_hash h)), s) := by
  have ht : List.take 32 (E.xmr_fast_hash h) = E.xmr_fast_hash h :=
    List.take_of_length_le (le_of_eq (E.xmr_fast_hash_length h))
  simp only [mod_trezorcrypto_monero_hasher_digest_obj, MP_DEFINE_CONST_FUN_OBJ_1,
    mod_trezorcrypto_monero_hasher_digest, run_bind, run_getState, run_pure,
    mp_obj_hasher_t_h, deref, ha, xmr_hasher_final, mp_obj_new_bytes, SHA3_256_DIGEST_LENGTH, ht]

/-- C19: for every hasher object and every state `h` of it, `hasher.digest()`
returns the digest of `h` and leaves the whole interpreter state, and so the
hasher, unchanged; two consecutive calls return the same bytes, and `digest()`
followed by `update(x)` ends in the same state, with the same outcome, as
`update(x)` alone. -/
theorem C19_hasher_digest_frame (E : Env Pt) (s : State Pt) (a : Nat) (h : List Byte)
    (ha : s.heap[a]? = some (.hasher h)) :
    (mod_trezorcrypto_monero_hasher_digest_obj E [.ref a]).run s =
      (.ok (.bytes (xmr_hasher_final E h)), s) ∧
    (mod_trezorcrypto_monero_hasher_digest_obj E [.ref a] >>= fun d1 =>
      mod_trezorcrypto_monero_hasher_digest_obj E [.ref a] >>= fun d2 =>
        (pure (d1, d2) : M Pt (Obj × Obj))).run s =
      (.ok (.bytes (xmr_hasher_final E h), .bytes (xmr_hasher_final E h)), s) ∧
    ∀ x : Obj,
      (mod_trezorcrypto_monero_hasher_digest_obj E [.ref a] >>= fun _ =>
        mod_trezorcrypto_monero_hasher_update_obj [.ref a, x]).run s =
      (mod_trezorcrypto_monero_hasher_update_obj [.ref a, x]).run s := by
  have hd := run_hasher_digest E s a h ha
  refine ⟨hd, ?_, ?_⟩
  · simp only [run_bind, hd, run_pure]
    rfl
  · intro x
    simp only [run_bind, hd]

/-- Witness for C19: a hasher that has absorbed the bytes 1, 2. -/
theorem C19_hasher_digest_frame_witness :
    (mod_trezorcrypto_monero_hasher_digest_obj (testEnv 32) [.ref 0]).run
        (⟨[Cell.hasher [1, 2]], [], 0⟩ : State Int) =
      (.ok (.bytes (xmr_hasher_final (testEnv 32) [1, 2])), ⟨[Cell.hasher [1, 2]], [], 0⟩) :=
  (C19_hasher_digest_frame (testEnv 32) ⟨[Cell.hasher [1, 2]], [], 0⟩ 0 [1, 2] rfl).1

/-! ## Packing into a caller's buffer -/

theorem prefix_write (p d : List Byte) (hp : p.length = 32) :
    (p ++ d.drop 32).take 32 = p ∧ (p ++ d.drop 32).drop 32 = d.drop 32 :=
  ⟨List.take_left' hp, List.drop_left' hp⟩

theorem run_pack256_modm_into (s : State Pt) (a b v : Nat) (d : List Byte)
    (ha : s.heap[a]? = some (.scalar v)) (hb : s.heap[b]? = some (.bytearray d)) :
    (mod_trezorcrypto_monero_pack256_modm_into_obj [.ref a, .ref b]).run s =
      if d.length < 32 then (.error (.ValueError "Buffer too small"), s)
      else (.ok (.ref b),
        { s with heap := s.heap.set b (.bytearray (contract256_modm v ++ d.drop 32)) }) := by
  have hp : (contract256_modm v).length = 32 := toLE_length 32 v
  by_cases hlen : d.length < 32 <;>
  simp [hp, mod_trezorcrypto_monero_pack256_modm_into_obj, MP_DEFINE_CONST_FUN_OBJ_2,
    mod_trezorcrypto_monero_pack256_modm_into, assert_scalar, MP_OBJ_IS_SCALAR,
    MP_OBJ_C_SCALAR, deref, ha, run_mp_get_buffer_raise_bytearray s b d _ hb,
    mp_buffer_info_t.len, write_buffer_state, hb, hlen]

theorem run_ge25519_pack_into (E : Env Pt) (s : State Pt) (c b : Nat) (P : Pt) (d : List Byte)
    (hc : s.heap[c]? = some (.ge25519 P)) (hb : s.heap[b]? = some (.bytearray d)) :
    (mod_trezorcrypto_monero_ge25519_pack_into_obj E [.ref c, .ref b]).run s =
      if d.length < 32 then (.error (.ValueError "Buffer too small"), s)
      else (.ok (.ref b),
        { s with heap := s.heap.set b (.bytearray (E.ge25519_pack P ++ d.drop 32)) }) := by
  have hp : (E.ge25519_pack P).length = 32 := E.ge25519_pack_length P
  by_cases hlen : d.length < 32 <;>
  simp [hp, mod_trezorcrypto_monero_ge25519_pack_into_obj, MP_DEFINE_CONST_FUN_OBJ_2,
    mod_trezorcrypto_monero_ge25519_pack_into, assert_ge25519, MP_OBJ_IS_GE25519,
    MP_OBJ_C_GE25519, deref, hc, run_mp_get_buffer_raise_bytearray s b d _ hb,
    mp_buffer_info_t.len, write_buffer_state, hb, hlen]

/-- C20: for a scalar `sc`, a point `pt` and a bytearray `buf` of content `d`,
`pack256_modm_into(sc, buf)` and `ge25519_pack_into(pt, buf)` raise if and only
if `len(buf) < 32`; otherwise each returns `buf` itself, whose new content `d1`
has as its first 32 bytes the string `p` that `pack256_modm(sc)` (respectively
`ge25519_pack(pt)`) returns and is unchanged from index 32 on; nothing else in
the state changes. -/
theorem C20_pack_into (E : Env Pt) (s : State Pt) (a c b v : Nat) (P : Pt) (d : List Byte)
    (ha : s.heap[a]? = some (.scalar v)) (hc : s.heap[c]? = some (.ge25519 P))
    (hb : s.heap[b]? = some (.bytearray d)) :
    (raised ((mod_trezorcrypto_monero_pack256_modm_into_obj [.ref a, .ref b]).run s) ↔
      d.length < 32) ∧
    (raised ((mod_trezorcrypto_monero_ge25519_pack_into_obj E [.ref c, .ref b]).run s) ↔
      d.length < 32) ∧
    (32 ≤ d.length →
      (∃ p d1 : List Byte,
        (mod_trezorcrypto_monero_pack256_modm_obj [.ref a]).run s = (.ok (.bytes p), s) ∧
        (mod_trezorcrypto_monero_pack256_modm_into_obj [.ref a, .ref b]).run s =
          (.ok (.ref b), { s with heap := s.heap.set b (.bytearray d1) }) ∧
        d1.take 32 = p ∧ d1.drop 32 = d.drop 32) ∧
      (∃ p d1 : List Byte,
        (mod_trezorcrypto_monero_ge25519_pack_obj E [.ref c]).run s = (.ok (.bytes p), s) ∧
        (mod_trezorcrypto_monero_ge25519_pack_into_obj E [.ref c, .ref b]).run s =
          (.ok (.ref b), { s with heap := s.heap.set b (.bytearray d1) }) ∧
        d1.take 32 = p ∧ d1.drop 32 = d.drop 32)) := by
  have h1 := run_pack256_modm_into s a b v d ha hb
  have h2 := run_ge25519_pack_into E s c b P d hc hb
  have hp1 : (contract256_modm v).length = 32 := toLE_length 32 v
  have hp2 : (E.ge25519_pack P).length = 32 := E.ge25519_pack_length P
  refine ⟨?_, ?_, ?_⟩
  · rw [h1]
    by_cases hlen : d.length < 32 <;> simp [raised, hlen]
  · rw [h2]
    by_cases hlen : d.length < 32 <;> simp [raised, hlen]
  · intro hlen
    have hlen2 : ¬ d.length < 32 := by omega
    rw [h1, h2, if_neg hlen2, if_neg hlen2]
    refine ⟨⟨contract256_modm v, _, ?_, rfl, prefix_write _ d hp1⟩,
      ⟨E.ge25519_pack P, _, ?_, rfl, prefix_write _ d hp2⟩⟩
    · simp [mod_trezorcrypto_monero_pack256_modm_obj, MP_DEFINE_CONST_FUN_OBJ_1,
        mod_trezorcrypto_monero_pack256_modm, assert_scalar, MP_OBJ_IS_SCALAR,
        MP_OBJ_C_SCALAR, deref, ha, mp_obj_new_bytes]
      exact le_of_eq hp1
    · simp [mod_trezorcrypto_monero_ge25519_pack_obj, MP_DEFINE_CONST_FUN_OBJ_1,
        mod_trezorcrypto_monero_ge25519_pack, assert_ge25519, MP_OBJ_IS_GE25519,
        MP_OBJ_C_GE25519, deref, hc, mp_obj_new_bytes]
      exact le_of_eq hp2

/-- Witness for C20: the scalar 258 at address 0, a point at address 1, and a
40-byte buffer at address 2. -/
theorem C20_pack_into_witness :
    (raised ((mod_trezorcrypto_monero_pack256_modm_into_obj [.ref 0, .ref 2]).run
      (⟨[Cell.scalar 258, Cell.ge25519 4, Cell.bytearray (List.replicate 40 7)], [], 0⟩ :
        State Int)) ↔ (List.replicate 40 (7 : Byte)).length < 32) ∧
    ∃ p d1 : List Byte,
      (mod_trezorcrypto_monero_pack256_modm_obj [.ref 0]).run
        (⟨[Cell.scalar 258, Cell.ge25519 4, Cell.bytearray (List.replicate 40 7)], [], 0⟩ :
          State Int) = (.ok (.bytes p),
        ⟨[Cell.scalar 258, Cell.ge25519 4, Cell.bytearray (List.replicate 40 7)], [], 0⟩) ∧
      (mod_trezorcrypto_monero_pack256_modm_into_obj [.ref 0, .ref 2]).run
        (⟨[Cell.scalar 258, Cell.ge25519 4, Cell.bytearray (List.replicate 40 7)], [], 0⟩ :
          State Int) = (.ok (.ref 2),
        ⟨[Cell.scalar 258, Cell.ge25519 4, Cell.bytearray (List.replicate 40 7)].set 2
          (.bytearray d1), [], 0⟩) ∧
      d1.take 32 = p ∧ d1.drop 32 = (List.replicate 40 (7 : Byte)).drop 32 :=
  ⟨(C20_pack_into (testEnv 32)
      ⟨[Cell.scalar 258, Cell.ge25519 4, Cell.bytearray (List.replicate 40 7)], [], 0⟩
      0 1 2 258 4 (List.replicate 40 7) rfl rfl rfl).1,
   ((C20_pack_into (testEnv 32)
      ⟨[Cell.scalar 258, Cell.ge25519 4, Cell.bytearray (List.replicate 40 7)], [], 0⟩
      0 1 2 258 4 (List.replicate 40 7) rfl rfl rfl).2.2 (by decide)).1⟩

/-! ## The forced mask -/

theorem gen_range_proof_last_mask (E : Env Pt) (s s1 : State Pt) (args : List Obj) (res : Obj)
    (h : (mod_trezorcrypto_monero_gen_range_proof_obj E args).run s = (.ok res, s1)) :
    ∃ c, s1.calls = s.calls ++ [c] ∧
      c.last_mask_passed = some
        (if 2 < args.length ∧ MP_OBJ_IS_SCALAR s (argAt args 2) = true then
          some (MP_OBJ_C_SCALAR s (argAt args 2)) else Option.none) := by
  by_cases hn : args.length < 2 ∨ 5 < args.length
  · simp [mod_trezorcrypto_monero_gen_range_proof_obj, MP_DEFINE_CONST_FUN_OBJ_VAR_BETWEEN, hn]
      at h
  by_cases hsz : E.sizeof_xmr_range_sig_t = 6176
  swap
  · simp [mod_trezorcrypto_monero_gen_range_proof_obj, MP_DEFINE_CONST_FUN_OBJ_VAR_BETWEEN, hn,
      mod_trezorcrypto_monero_gen_range_proof, RSIG_SIZE, hsz] at h
  rcases mp_get_buffer_raise_cases (argAt args 0) .MP_BUFFER_WRITE s with ⟨e, h1⟩ | ⟨bi, h1⟩
  · simp [mod_trezorcrypto_monero_gen_range_proof_obj, MP_DEFINE_CONST_FUN_OBJ_VAR_BETWEEN, hn,
      mod_trezorcrypto_monero_gen_range_proof, RSIG_SIZE, hsz, h1] at h
  by_cases hlen : bi.len < 6176
  · simp [mod_trezorcrypto_monero_gen_range_proof_obj, MP_DEFINE_CONST_FUN_OBJ_VAR_BETWEEN, hn,
      mod_trezorcrypto_monero_gen_range_proof, RSIG_SIZE, hsz, h1, hlen] at h
  rcases mp_obj_get_uint64_cases (argAt args 1) s with ⟨e, h2⟩ | ⟨v, h2⟩
  · simp [mod_trezorcrypto_monero_gen_range_proof_obj, MP_DEFINE_CONST_FUN_OBJ_VAR_BETWEEN, hn,
      mod_trezorcrypto_monero_gen_range_proof, RSIG_SIZE, hsz, h1, hlen, h2] at h
  by_cases h4 : 4 < args.length
  · rcases mp_get_buffer_raise_cases (argAt args 3) .MP_BUFFER_WRITE s with ⟨e, h5⟩ | ⟨bx, h5⟩
    · simp [mod_trezorcrypto_monero_gen_range_proof_obj, MP_DEFINE_CONST_FUN_OBJ_VAR_BETWEEN, hn,
        mod_trezorcrypto_monero_gen_range_proof, RSIG_SIZE, hsz, h1, hlen, h2, h4, h5] at h
    rcases mp_get_buffer_raise_cases (argAt args 4) .MP_BUFFER_WRITE s with ⟨e, h6⟩ | ⟨by1, h6⟩
    · simp [mod_trezorcrypto_monero_gen_range_proof_obj, MP_DEFINE_CONST_FUN_OBJ_VAR_BETWEEN, hn,
        mod_trezorcrypto_monero_gen_range_proof, RSIG_SIZE, hsz, h1, hlen, h2, h4, h5, h6] at h
    by_cases hxl : bx.len < E.sizeof_bignum256modm * 64
    · simp [mod_trezorcrypto_monero_gen_range_proof_obj, MP_DEFINE_CONST_FUN_OBJ_VAR_BETWEEN, hn,
        mod_trezorcrypto_monero_gen_range_proof, RSIG_SIZE, hsz, h1, hlen, h2, h4, h5, h6, hxl]
        at h
    by_cases hyl : by1.len < E.sizeof_bignum256modm * 64
    · simp [mod_trezorcrypto_monero_gen_range_proof_obj, MP_DEFINE_CONST_FUN_OBJ_VAR_BETWEEN, hn,
        mod_trezorcrypto_monero_gen_range_proof, RSIG_SIZE, hsz, h1, hlen, h2, h4, h5, h6, hxl,
        hyl] at h
    simp [mod_trezorcrypto_monero_gen_range_proof_obj, MP_DEFINE_CONST_FUN_OBJ_VAR_BETWEEN, hn,
      mod_trezorcrypto_monero_gen_range_proof, RSIG_SIZE, hsz, h1, hlen, h2, h4, h5, h6, hxl, hyl,
      call_xmr_gen_range_sig_ex, mp_obj_from_ge25519, mp_obj_from_scalar] at h
    obtain ⟨-, rfl⟩ := h
    refine ⟨_, (by simp only [write_buffer_state_calls]; rfl), ?_⟩
    rfl
  · simp [mod_trezorcrypto_monero_gen_range_proof_obj, MP_DEFINE_CONST_FUN_OBJ_VAR_BETWEEN, hn,
      mod_trezorcrypto_monero_gen_range_proof, RSIG_SIZE, hsz, h1, hlen, h2, h4,
      call_xmr_gen_range_sig, mp_obj_from_ge25519, mp_obj_from_scalar] at h
    obtain ⟨-, rfl⟩ := h
    refine ⟨_, (by simp only [write_buffer_state_calls]; rfl), ?_⟩
    rfl

theorem gen_range_proof_3_args_returns (E : Env Pt) (s : State Pt) (b : Nat) (d0 : List Byte)
    (amount x : Obj) (hsz : E.sizeof_xmr_range_sig_t = 6176)
    (hb : s.heap[b]? = some (.bytearray d0)) (hlen : 6176 ≤ d0.length)
    (hint : mp_obj_is_integer amount = true) :
    ∃ res s1, (mod_trezorcrypto_monero_gen_range_proof_obj E [.ref b, amount, x]).run s =
      (.ok res, s1) := by
  obtain ⟨v, hv⟩ := run_mp_obj_get_uint64_integer amount hint s
  have hlen2 : ¬ d0.length < 6176 := by omega
  simp [mod_trezorcrypto_monero_gen_range_proof_obj, MP_DEFINE_CONST_FUN_OBJ_VAR_BETWEEN,
    mod_trezorcrypto_monero_gen_range_proof, argAt, RSIG_SIZE, hsz,
    run_mp_get_buffer_raise_bytearray s b d0 _ hb, mp_buffer_info_t.len, hlen2, hv,
    call_xmr_gen_range_sig, mp_obj_from_ge25519, mp_obj_from_scalar]

/-- C21: every returning call of `gen_range_proof` makes exactly one generator
call, and the forced mask it passes is the scalar held by the third argument
when there is a third argument and it is a scalar object, and none otherwise.
With a proof buffer of at least 6176 bytes and an integer amount the call
returns without a third argument and with any third argument `x`, so a third
argument that is not a scalar raises no error and gives a call with no forced
mask; a scalar gives a call with its value as the forced mask. -/
theorem C21_last_mask_forwarding (E : Env Pt) (s : State Pt) :
    (∀ (args : List Obj) (res : Obj) (s1 : State Pt),
      (mod_trezorcrypto_monero_gen_range_proof_obj E args).run s = (.ok res, s1) →
      ∃ c, s1.calls = s.calls ++ [c] ∧
        c.last_mask_passed = some
          (if 2 < args.length ∧ MP_OBJ_IS_SCALAR s (argAt args 2) = true then
            some (MP_OBJ_C_SCALAR s (argAt args 2)) else Option.none)) ∧
    (∀ (b : Nat) (d0 : List Byte) (amount : Obj),
      E.sizeof_xmr_range_sig_t = 6176 →
      s.heap[b]? = some (.bytearray d0) → 6176 ≤ d0.length → mp_obj_is_integer amount = true →
      (∃ res s1 c, (mod_trezorcrypto_monero_gen_range_proof_obj E [.ref b, amount]).run s =
          (.ok res, s1) ∧ s1.calls = s.calls ++ [c] ∧
          c.last_mask_passed = some Option.none) ∧
      (∀ x : Obj, MP_OBJ_IS_SCALAR s x = false →
        ∃ res s1 c, (mod_trezorcrypto_monero_gen_range_proof_obj E [.ref b, amount, x]).run s =
          (.ok res, s1) ∧ s1.calls = s.calls ++ [c] ∧
          c.last_mask_passed = some Option.none) ∧
      (∀ (m vm : Nat), s.heap[m]? = some (.scalar vm) →
        ∃ res s1 c, (mod_trezorcrypto_monero_gen_range_proof_obj E [.ref b, amount, .ref m]).run s =
          (.ok res, s1) ∧ s1.calls = s.calls ++ [c] ∧
          c.last_mask_passed = some (some vm))) := by
  refine ⟨fun args res s1 h => gen_range_proof_last_mask E s s1 args res h, ?_⟩
  intro b d0 amount hsz hb hlen hint
  refine ⟨?_, ?_, ?_⟩
  · obtain ⟨res, s1, h⟩ := gen_range_proof_2_args_returns E s b d0 amount hsz hb hlen hint
    obtain ⟨c, hc, hm⟩ := gen_range_proof_last_mask E s s1 _ res h
    exact ⟨res, s1, c, h, hc, by simpa using hm⟩
  · intro x hx
    obtain ⟨res, s1, h⟩ := gen_range_proof_3_args_returns E s b d0 amount x hsz hb hlen hint
    obtain ⟨c, hc, hm⟩ := gen_range_proof_last_mask E s s1 _ res h
    refine ⟨res, s1, c, h, hc, ?_⟩
    simpa [argAt, hx] using hm
  · intro m vm hmv
    obtain ⟨res, s1, h⟩ := gen_range_proof_3_args_returns E s b d0 amount (.ref m) hsz hb hlen hint
    obtain ⟨c, hc, hm⟩ := gen_range_proof_last_mask E s s1 _ res h
    refine ⟨res, s1, c, h, hc, ?_⟩
    simpa [argAt, MP_OBJ_IS_SCALAR, MP_OBJ_C_SCALAR, deref, hmv] using hm

/-- Witness for C21: `None` as the third argument, with a 6176-byte proof
buffer. -/
theorem C21_last_mask_forwarding_witness :
    ∃ res s1 c, (mod_trezorcrypto_monero_gen_range_proof_obj (testEnv 32)
        [.ref 0, .smallInt 5, .none]).run testState = (.ok res, s1) ∧
      s1.calls = testState.calls ++ [c] ∧ c.last_mask_passed = some Option.none :=
  ((C21_last_mask_forwarding (testEnv 32) testState).2 0 (List.replicate 6176 0) (.smallInt 5)
    rfl rfl (by rw [List.length_replicate]) rfl).2.1 .none rfl

/-! ## Colour conversion of the display driver -/

theorem testBit_0xE000 : ∀ i, i < 16 → Nat.testBit 0xE000 i = decide (13 ≤ i) := by decide

theorem testBit_0x700 : ∀ i, i < 16 → Nat.testBit 0x700 i = decide (8 ≤ i ∧ i ≤ 10) := by decide

theorem testBit_0x18 : ∀ i, i < 16 → Nat.testBit 0x18 i = decide (3 ≤ i ∧ i ≤ 4) := by decide

/-- C22: for every colour `c`, the byte `d` that `PIXELDATA(c)` stores has bits
7..5 equal to bits 15..13 of `c`, bits 4..2 equal to bits 10..8 of `c`, and
bits 1..0 equal to bits 4..3 of `c` (bit `j` of each group counted from its
lowest bit). -/
theorem C22_pixeldata_565_to_332 (c : Nat) :
    (∀ j, j < 3 → (PIXELDATA_d c).val.testBit (5 + j) = c.testBit (13 + j)) ∧
    (∀ j, j < 3 → (PIXELDATA_d c).val.testBit (2 + j) = c.testBit (8 + j)) ∧
    (∀ j, j < 2 → (PIXELDATA_d c).val.testBit j = c.testBit (3 + j)) := by
  have h256 : (256 : Nat) = 2 ^ 8 := by norm_num
  refine ⟨?_, ?_, ?_⟩
  · intro j hj
    simp only [PIXELDATA_d, h256, Nat.testBit_mod_two_pow, Nat.testBit_or, Nat.testBit_shiftRight,
      Nat.testBit_and]
    interval_cases j <;> simp [testBit_0xE000, testBit_0x700, testBit_0x18]
  · intro j hj
    simp only [PIXELDATA_d, h256, Nat.testBit_mod_two_pow, Nat.testBit_or, Nat.testBit_shiftRight,
      Nat.testBit_and]
    interval_cases j <;> simp [testBit_0xE000, testBit_0x700, testBit_0x18]
  · intro j hj
    simp only [PIXELDATA_d, h256, Nat.testBit_mod_two_pow, Nat.testBit_or, Nat.testBit_shiftRight,
      Nat.testBit_and]
    interval_cases j <;> simp [testBit_0xE000, testBit_0x700, testBit_0x18]

set_option maxRecDepth 100000 in
/-- C23: for every byte `d`, the byte that `PIXELDATA` stores for the colour
`rgb332to565lut[d]`, the entry that `display_refresh` sends for `d`, is `d`
itself; the table has 256 entries. -/
theorem C23_lut_round_trip :
    rgb332to565lut.length = 256 ∧
    ∀ d : Byte, PIXELDATA_d (rgb332to565lut.getD d.val 0) = d := by
  decide

/-! ## Filling a window of the display buffer -/

theorem succ_div_mod (k w : Nat) (hw : 0 < w) :
    (k % w + 1 < w ∧ (k + 1) % w = k % w + 1 ∧ (k + 1) / w = k / w) ∨
    (k % w + 1 = w ∧ (k + 1) % w = 0 ∧ (k + 1) / w = k / w + 1) := by
  have hlt := Nat.mod_lt k hw
  have hk : k + 1 = w * (k / w) + (k % w + 1) := by
    have := Nat.div_add_mod k w
    omega
  rcases Nat.lt_or_ge (k % w + 1) w with h | h
  · left
    refine ⟨h, ?_, ?_⟩
    · rw [hk, Nat.mul_add_mod, Nat.mod_eq_of_lt h]
    · rw [hk, Nat.mul_add_div hw, Nat.div_eq_of_lt h, Nat.add_zero]
  · right
    have he : k % w + 1 = w := by omega
    refine ⟨he, ?_, ?_⟩
    · rw [hk, Nat.mul_add_mod, he, Nat.mod_self]
    · rw [hk, Nat.mul_add_div hw, he, Nat.div_self hw]

theorem PIXELDATA_calls_append (D : DisplayEnv) (cs : List Nat) (c : Nat) (st : DisplayState) :
    PIXELDATA_calls D (cs ++ [c]) st = PIXELDATA D c (PIXELDATA_calls D cs st) := by
  simp [PIXELDATA_calls, List.foldl_append]

theorem PIXELDATA_PIXELWINDOW (D : DisplayEnv) (c : Nat) (st : DisplayState) :
    (PIXELDATA D c st).PIXELWINDOW =
      if (st.PIXELWINDOW.pos.x + 1) % 2 ^ 16 > st.PIXELWINDOW.end_.x then
        { st.PIXELWINDOW with
          pos := ⟨st.PIXELWINDOW.start.x, (st.PIXELWINDOW.pos.y + 1) % 2 ^ 16⟩ }
      else
        { st.PIXELWINDOW with pos := ⟨(st.PIXELWINDOW.pos.x + 1) % 2 ^ 16, st.PIXELWINDOW.pos.y⟩ } := by
  unfold PIXELDATA
  simp only []
  split <;> rfl

theorem PIXELDATA_DBUF (D : DisplayEnv) (c : Nat) (st : DisplayState) :
    (PIXELDATA D c st).DBUF =
      (if st.PIXELWINDOW.pos.x ≤ st.PIXELWINDOW.end_.x ∧
          st.PIXELWINDOW.pos.y ≤ st.PIXELWINDOW.end_.y ∧
          st.PIXELWINDOW.pos.x + st.PIXELWINDOW.pos.y * D.DISPLAY_RESX <
            D.DISPLAY_RESX * D.DISPLAY_RESY then
        Function.update st.DBUF (st.PIXELWINDOW.pos.x + st.PIXELWINDOW.pos.y * D.DISPLAY_RESX)
          (PIXELDATA_d (c % 2 ^ 16))
      else st.DBUF) ∧
    (PIXELDATA D c st).DBUF_DIRTY =
      (if st.PIXELWINDOW.pos.x ≤ st.PIXELWINDOW.end_.x ∧
          st.PIXELWINDOW.pos.y ≤ st.PIXELWINDOW.end_.y ∧
          st.PIXELWINDOW.pos.x + st.PIXELWINDOW.pos.y * D.DISPLAY_RESX <
            D.DISPLAY_RESX * D.DISPLAY_RESY then D.sectrue
      else st.DBUF_DIRTY) := by
  unfold PIXELDATA
  simp only []
  by_cases h1 : st.PIXELWINDOW.pos.x ≤ st.PIXELWINDOW.end_.x ∧
      st.PIXELWINDOW.pos.y ≤ st.PIXELWINDOW.end_.y
  · by_cases h2 : st.PIXELWINDOW.pos.x + st.PIXELWINDOW.pos.y * D.DISPLAY_RESX <
        D.DISPLAY_RESX * D.DISPLAY_RESY
    · have h3 : st.PIXELWINDOW.pos.x ≤ st.PIXELWINDOW.end_.x ∧
          st.PIXELWINDOW.pos.y ≤ st.PIXELWINDOW.end_.y ∧
          st.PIXELWINDOW.pos.x + st.PIXELWINDOW.pos.y * D.DISPLAY_RESX <
            D.DISPLAY_RESX * D.DISPLAY_RESY := ⟨h1.1, h1.2, h2⟩
      rw [if_pos h1, if_pos h2, if_pos h3, if_pos h3]
      split <;> exact ⟨rfl, rfl⟩
    · have h3 : ¬ (st.PIXELWINDOW.pos.x ≤ st.PIXELWINDOW.end_.x ∧
          st.PIXELWINDOW.pos.y ≤ st.PIXELWINDOW.end_.y ∧
          st.PIXELWINDOW.pos.x + st.PIXELWINDOW.pos.y * D.DISPLAY_RESX <
            D.DISPLAY_RESX * D.DISPLAY_RESY) := fun h => h2 h.2.2
      rw [if_pos h1, if_neg h2, if_neg h3, if_neg h3]
      split <;> exact ⟨rfl, rfl⟩
  · have h3 : ¬ (st.PIXELWINDOW.pos.x ≤ st.PIXELWINDOW.end_.x ∧
        st.PIXELWINDOW.pos.y ≤ st.PIXELWINDOW.end_.y ∧
        st.PIXELWINDOW.pos.x + st.PIXELWINDOW.pos.y * D.DISPLAY_RESX <
          D.DISPLAY_RESX * D.DISPLAY_RESY) := fun h => h1 ⟨h.1, h.2.1⟩
    rw [if_neg h1, if_neg h3, if_neg h3]
    split <;> exact ⟨rfl, rfl⟩

theorem PIXELDATA_calls_PIXELWINDOW (D : DisplayEnv) (x0 y0 x1 y1 : Nat) (hx : x0 ≤ x1)
    (hx1 : x1 + 1 < 2 ^ 16) (hy0 : y0 < 2 ^ 16) (st0 : DisplayState)
    (h0 : st0.PIXELWINDOW = ⟨⟨x0, y0⟩, ⟨x1, y1⟩, ⟨x0, y0⟩⟩) (cs : List Nat) :
    (PIXELDATA_calls D cs st0).PIXELWINDOW =
      ⟨⟨x0, y0⟩, ⟨x1, y1⟩,
        ⟨x0 + cs.length % (x1 - x0 + 1), (y0 + cs.length / (x1 - x0 + 1)) % 2 ^ 16⟩⟩ := by
  induction cs using List.reverseRecOn with
  | nil =>
    simp only [PIXELDATA_calls, List.foldl_nil, h0, List.length_nil, Nat.zero_mod, Nat.zero_div,
      Nat.add_zero, Nat.mod_eq_of_lt hy0]
  | append_singleton cs c ih =>
    rw [PIXELDATA_calls_append, PIXELDATA_PIXELWINDOW, ih, List.length_append,
      List.length_singleton]
    have hw : 0 < x1 - x0 + 1 := Nat.succ_pos _
    have hlt := Nat.mod_lt cs.length hw
    have h16 : (2 : Nat) ^ 16 = 65536 := by norm_num
    rw [h16] at hx1 hy0 ⊢
    rcases succ_div_mod cs.length (x1 - x0 + 1) hw with ⟨h1, h2, h3⟩ | ⟨h1, h2, h3⟩
    · have hmod : (x0 + cs.length % (x1 - x0 + 1) + 1) % 65536 =
          x0 + cs.length % (x1 - x0 + 1) + 1 := Nat.mod_eq_of_lt (by omega)
      have hng : ¬ x0 + cs.length % (x1 - x0 + 1) + 1 > x1 := by omega
      simp only [hmod, h2, h3]
      rw [if_neg hng, Nat.add_assoc]
    · have hmod : (x0 + cs.length % (x1 - x0 + 1) + 1) % 65536 =
          x0 + cs.length % (x1 - x0 + 1) + 1 := Nat.mod_eq_of_lt (by omega)
      have hg : x0 + cs.length % (x1 - x0 + 1) + 1 > x1 := by omega
      have hy : ((y0 + cs.length / (x1 - x0 + 1)) % 65536 + 1) % 65536 =
          (y0 + (cs.length / (x1 - x0 + 1) + 1)) % 65536 := by omega
      simp only [hmod, h2, h3, hy, if_pos hg, Nat.add_zero]

/-- C24 fails as stated: with the one-pixel window at the origin (`w * h = 1`),
the call number `k = 65536` of `PIXELDATA` after `display_set_window(0, 0, 0, 0)`
stores its colour at index 0 of `DBUF`: after 65536 calls the 16-bit row
counter `pos.y` is back at 0. -/
theorem C24_counterexample :
    (PIXELDATA testDisplay 0xFFFF
      (PIXELDATA_calls testDisplay (List.replicate 65536 0)
        (display_set_window 0 0 0 0 testDisplayState))).DBUF 0 = 255 ∧
    (PIXELDATA testDisplay 0x0000
      (PIXELDATA_calls testDisplay (List.replicate 65536 0)
        (display_set_window 0 0 0 0 testDisplayState))).DBUF 0 = 0 ∧
    (0 - 0 + 1) * (0 - 0 + 1) ≤ (List.replicate 65536 0).length ∧
    ∃ c, (PIXELDATA testDisplay c
      (PIXELDATA_calls testDisplay (List.replicate 65536 0)
        (display_set_window 0 0 0 0 testDisplayState))).DBUF ≠
      (PIXELDATA_calls testDisplay (List.replicate 65536 0)
        (display_set_window 0 0 0 0 testDisplayState)).DBUF := by
  have hw := PIXELDATA_calls_PIXELWINDOW testDisplay 0 0 0 0 (Nat.le_refl 0) (by norm_num)
    (by norm_num) (display_set_window 0 0 0 0 testDisplayState) rfl (List.replicate 65536 0)
  rw [List.length_replicate] at hw
  have hw2 : (PIXELDATA_calls testDisplay (List.replicate 65536 0)
      (display_set_window 0 0 0 0 testDisplayState)).PIXELWINDOW =
      ⟨⟨0, 0⟩, ⟨0, 0⟩, ⟨0, 0⟩⟩ := by
    rw [hw]
    rfl
  have hd := fun c => PIXELDATA_DBUF testDisplay c
    (PIXELDATA_calls testDisplay (List.replicate 65536 0)
      (display_set_window 0 0 0 0 testDisplayState))
  simp only [hw2] at hd
  have hg : (0 : Nat) ≤ 0 ∧ (0 : Nat) ≤ 0 ∧
      0 + 0 * testDisplay.DISPLAY_RESX < testDisplay.DISPLAY_RESX * testDisplay.DISPLAY_RESY := by
    decide
  simp only [if_pos hg] at hd
  have e1 : (PIXELDATA testDisplay 0xFFFF
      (PIXELDATA_calls testDisplay (List.replicate 65536 0)
        (display_set_window 0 0 0 0 testDisplayState))).DBUF 0 = 255 := by
    rw [(hd 0xFFFF).1]
    rw [show (0 + 0 * testDisplay.DISPLAY_RESX) = 0 from rfl, Function.update_same]
    decide
  have e2 : (PIXELDATA testDisplay 0x0000
      (PIXELDATA_calls testDisplay (List.replicate 65536 0)
        (display_set_window 0 0 0 0 testDisplayState))).DBUF 0 = 0 := by
    rw [(hd 0x0000).1]
    rw [show (0 + 0 * testDisplay.DISPLAY_RESX) = 0 from rfl, Function.update_same]
    decide
  refine ⟨e1, e2, ?_, ?_⟩
  · rw [List.length_replicate]
    decide
  · by_cases h : (PIXELDATA_calls testDisplay (List.replicate 65536 0)
        (display_set_window 0 0 0 0 testDisplayState)).DBUF 0 = 0
    · refine ⟨0xFFFF, fun heq => ?_⟩
      rw [heq, h] at e1
      exact absurd e1 (by decide)
    · refine ⟨0x0000, fun heq => ?_⟩
      rw [heq] at e2
      exact h e2

theorem display_set_window_PIXELWINDOW (st : DisplayState) (x0 y0 x1 y1 : Nat)
    (hoff : st.BUFFER_OFFSET = ⟨0, 0⟩) (hx0 : x0 < 2 ^ 16) (hy0 : y0 < 2 ^ 16)
    (hx1 : x1 < 2 ^ 16) (hy1 : y1 < 2 ^ 16) :
    (display_set_window x0 y0 x1 y1 st).PIXELWINDOW = ⟨⟨x0, y0⟩, ⟨x1, y1⟩, ⟨x0, y0⟩⟩ := by
  simp only [display_set_window, hoff, Nat.add_zero, Nat.mod_eq_of_lt hx0, Nat.mod_eq_of_lt hy0,
    Nat.mod_eq_of_lt hx1, Nat.mod_eq_of_lt hy1]

theorem index_lt_of_coord_lt (x y rx ry : Nat) (hx : x < rx) (hy : y < ry) :
    x + y * rx < rx * ry := by
  have h1 : (y + 1) * rx ≤ ry * rx := Nat.mul_le_mul_right rx hy
  rw [Nat.add_mul, Nat.one_mul] at h1
  rw [Nat.mul_comm rx ry]
  omega

theorem PIXELDATA_fill (D : DisplayEnv) (st0 : DisplayState) (x0 y0 x1 y1 : Nat)
    (h0 : st0.PIXELWINDOW = ⟨⟨x0, y0⟩, ⟨x1, y1⟩, ⟨x0, y0⟩⟩) (hx : x0 ≤ x1) (hx1 : x1 < D.DISPLAY_RESX)
    (hy : y0 ≤ y1) (hy1 : y1 < D.DISPLAY_RESY) (cs : List Nat) (c : Nat) :
    (cs.length < (x1 - x0 + 1) * (y1 - y0 + 1) →
      (PIXELDATA D c (PIXELDATA_calls D cs st0)).DBUF =
        Function.update (PIXELDATA_calls D cs st0).DBUF
          ((x0 + cs.length % (x1 - x0 + 1)) + (y0 + cs.length / (x1 - x0 + 1)) * D.DISPLAY_RESX)
          (PIXELDATA_d (c % 2 ^ 16)) ∧
      (PIXELDATA D c (PIXELDATA_calls D cs st0)).DBUF_DIRTY =
        D.sectrue) ∧
    ((x1 - x0 + 1) * (y1 - y0 + 1) ≤ cs.length → cs.length < (x1 - x0 + 1) * (2 ^ 16 - y0) →
      (PIXELDATA D c (PIXELDATA_calls D cs st0)).DBUF =
        (PIXELDATA_calls D cs st0).DBUF ∧
      (PIXELDATA D c (PIXELDATA_calls D cs st0)).DBUF_DIRTY =
        (PIXELDATA_calls D cs st0).DBUF_DIRTY) ∧
    (∀ i, D.DISPLAY_RESX * D.DISPLAY_RESY ≤ i →
      (PIXELDATA D c (PIXELDATA_calls D cs st0)).DBUF i =
        (PIXELDATA_calls D cs st0).DBUF i) := by
  have hrx := D.DISPLAY_RESX_lt
  have hry := D.DISPLAY_RESY_lt
  have h15 : (2 : Nat) ^ 15 = 32768 := by norm_num
  have h16 : (2 : Nat) ^ 16 = 65536 := by norm_num
  rw [h15] at hrx hry
  have hw := PIXELDATA_calls_PIXELWINDOW D x0 y0 x1 y1 hx (by omega) (by omega) _ h0 cs
  have hd := PIXELDATA_DBUF D c (PIXELDATA_calls D cs st0)
  rw [hw] at hd
  simp only [] at hd
  have hwpos : 0 < x1 - x0 + 1 := Nat.succ_pos _
  have hlt := Nat.mod_lt cs.length hwpos
  rw [h16] at hd ⊢
  refine ⟨?_, ?_, ?_⟩
  · intro hk
    have hq : cs.length / (x1 - x0 + 1) < y1 - y0 + 1 := Nat.div_lt_of_lt_mul hk
    have hmod : (y0 + cs.length / (x1 - x0 + 1)) % 65536 = y0 + cs.length / (x1 - x0 + 1) :=
      Nat.mod_eq_of_lt (by omega)
    rw [hmod] at hd
    have hi := index_lt_of_coord_lt (x0 + cs.length % (x1 - x0 + 1))
      (y0 + cs.length / (x1 - x0 + 1)) D.DISPLAY_RESX D.DISPLAY_RESY (by omega) (by omega)
    have hg : x0 + cs.length % (x1 - x0 + 1) ≤ x1 ∧ y0 + cs.length / (x1 - x0 + 1) ≤ y1 ∧
        x0 + cs.length % (x1 - x0 + 1) + (y0 + cs.length / (x1 - x0 + 1)) * D.DISPLAY_RESX <
          D.DISPLAY_RESX * D.DISPLAY_RESY := ⟨by omega, by omega, hi⟩
    rw [if_pos hg, if_pos hg] at hd
    exact hd
  · intro hk1 hk2
    have hq1 : y1 - y0 + 1 ≤ cs.length / (x1 - x0 + 1) := by
      rw [Nat.le_div_iff_mul_le hwpos, Nat.mul_comm]
      exact hk1
    have hq2 : cs.length / (x1 - x0 + 1) < 65536 - y0 := Nat.div_lt_of_lt_mul hk2
    have hmod : (y0 + cs.length / (x1 - x0 + 1)) % 65536 = y0 + cs.length / (x1 - x0 + 1) :=
      Nat.mod_eq_of_lt (by omega)
    rw [hmod] at hd
    have hg : ¬ (x0 + cs.length % (x1 - x0 + 1) ≤ x1 ∧ y0 + cs.length / (x1 - x0 + 1) ≤ y1 ∧
        x0 + cs.length % (x1 - x0 + 1) + (y0 + cs.length / (x1 - x0 + 1)) * D.DISPLAY_RESX <
          D.DISPLAY_RESX * D.DISPLAY_RESY) := by
      intro h
      omega
    rw [if_neg hg, if_neg hg] at hd
    exact hd
  · intro i hi
    rw [hd.1]
    split
    · next hg =>
      rw [Function.update_noteq]
      omega
    · rfl

/-- C24 (amended): after `display_set_window(x0, y0, x1, y1)` with zero buffer
offset, `x0 ≤ x1 < DISPLAY_RESX` and `y0 ≤ y1 < DISPLAY_RESY`, with
`w = x1 - x0 + 1` and `h = y1 - y0 + 1`, the call number `k` of `PIXELDATA`
(after `k` earlier calls, of any colours) stores its byte at index
`(x0 + k mod w) + (y0 + k div w) * DISPLAY_RESX` when `k < w * h`, and changes
neither `DBUF` nor `DBUF_DIRTY` when `w * h ≤ k < w * (65536 - y0)`; no call
changes `DBUF` at an index `≥ DISPLAY_RESX * DISPLAY_RESY`. -/
theorem C24_window_fill (D : DisplayEnv) (st : DisplayState) (x0 y0 x1 y1 : Nat)
    (hoff : st.BUFFER_OFFSET = ⟨0, 0⟩) (hx : x0 ≤ x1) (hx1 : x1 < D.DISPLAY_RESX)
    (hy : y0 ≤ y1) (hy1 : y1 < D.DISPLAY_RESY) (cs : List Nat) (c : Nat) :
    (cs.length < (x1 - x0 + 1) * (y1 - y0 + 1) →
      (PIXELDATA D c (PIXELDATA_calls D cs (display_set_window x0 y0 x1 y1 st))).DBUF =
        Function.update (PIXELDATA_calls D cs (display_set_window x0 y0 x1 y1 st)).DBUF
          ((x0 + cs.length % (x1 - x0 + 1)) + (y0 + cs.length / (x1 - x0 + 1)) * D.DISPLAY_RESX)
          (PIXELDATA_d (c % 2 ^ 16)) ∧
      (PIXELDATA D c (PIXELDATA_calls D cs (display_set_window x0 y0 x1 y1 st))).DBUF_DIRTY =
        D.sectrue) ∧
    ((x1 - x0 + 1) * (y1 - y0 + 1) ≤ cs.length → cs.length < (x1 - x0 + 1) * (2 ^ 16 - y0) →
      (PIXELDATA D c (PIXELDATA_calls D cs (display_set_window x0 y0 x1 y1 st))).DBUF =
        (PIXELDATA_calls D cs (display_set_window x0 y0 x1 y1 st)).DBUF ∧
      (PIXELDATA D c (PIXELDATA_calls D cs (display_set_window x0 y0 x1 y1 st))).DBUF_DIRTY =
        (PIXELDATA_calls D cs (display_set_window x0 y0 x1 y1 st)).DBUF_DIRTY) ∧
    (∀ i, D.DISPLAY_RESX * D.DISPLAY_RESY ≤ i →
      (PIXELDATA D c (PIXELDATA_calls D cs (display_set_window x0 y0 x1 y1 st))).DBUF i =
        (PIXELDATA_calls D cs (display_set_window x0 y0 x1 y1 st)).DBUF i) := by
  have hrx := D.DISPLAY_RESX_lt
  have hry := D.DISPLAY_RESY_lt
  have h15 : (2 : Nat) ^ 15 = 32768 := by norm_num
  have h16 : (2 : Nat) ^ 16 = 65536 := by norm_num
  rw [h15] at hrx hry
  have h0 := display_set_window_PIXELWINDOW st x0 y0 x1 y1 hoff (by omega) (by omega) (by omega)
    (by omega)
  exact PIXELDATA_fill D _ x0 y0 x1 y1 h0 hx hx1 hy hy1 cs c

/-- Witness for C24 (amended): the window from (1, 2) to (3, 4) on the
240 × 240 display, and the call number 4. -/
theorem C24_window_fill_witness :
    (PIXELDATA testDisplay 0xFFFF (PIXELDATA_calls testDisplay [0, 0, 0, 0]
        (display_set_window 1 2 3 4 testDisplayState))).DBUF =
      Function.update (PIXELDATA_calls testDisplay [0, 0, 0, 0]
        (display_set_window 1 2 3 4 testDisplayState)).DBUF
        ((1 + [0, 0, 0, 0].length % (3 - 1 + 1)) +
          (2 + [0, 0, 0, 0].length / (3 - 1 + 1)) * testDisplay.DISPLAY_RESX)
        (PIXELDATA_d (0xFFFF % 2 ^ 16)) ∧
    (PIXELDATA testDisplay 0xFFFF (PIXELDATA_calls testDisplay [0, 0, 0, 0]
        (display_set_window 1 2 3 4 testDisplayState))).DBUF_DIRTY = testDisplay.sectrue :=
  (C24_window_fill testDisplay testDisplayState 1 2 3 4 rfl (by decide) (by decide) (by decide)
    (by decide) [0, 0, 0, 0] 0xFFFF).1 (by decide)

/-! ## Clearing the display buffer -/

theorem PIXELDATA_d_zero : PIXELDATA_d (0x0000 % 2 ^ 16) = 0 := by decide

theorem PIXELDATA_calls_zero_fill (D : DisplayEnv) (st0 : DisplayState)
    (h0 : st0.PIXELWINDOW = ⟨⟨0, 0⟩, ⟨D.DISPLAY_RESX - 1, D.DISPLAY_RESY - 1⟩, ⟨0, 0⟩⟩) (k : Nat)
    (hk : k ≤ D.DISPLAY_RESX * D.DISPLAY_RESY) :
    (∀ i, i < k → (PIXELDATA_calls D (List.replicate k 0x0000) st0).DBUF i = 0) ∧
    (0 < k → (PIXELDATA_calls D (List.replicate k 0x0000) st0).DBUF_DIRTY = D.sectrue) := by
  have hrx := D.DISPLAY_RESX_pos
  have hry := D.DISPLAY_RESY_pos
  induction k with
  | zero => exact ⟨fun i hi => absurd hi (Nat.not_lt_zero i), fun h => absurd h (Nat.lt_irrefl 0)⟩
  | succ k ih =>
    have ihk := ih (by omega)
    have hw : D.DISPLAY_RESX - 1 - 0 + 1 = D.DISPLAY_RESX := by omega
    have hh : D.DISPLAY_RESY - 1 - 0 + 1 = D.DISPLAY_RESY := by omega
    have hf := (PIXELDATA_fill D st0 0 0 (D.DISPLAY_RESX - 1) (D.DISPLAY_RESY - 1) h0
      (Nat.zero_le _) (by omega) (Nat.zero_le _) (by omega) (List.replicate k 0x0000) 0x0000).1
    rw [List.length_replicate, hw, hh] at hf
    have hf2 := hf (by omega)
    have hidx : 0 + k % D.DISPLAY_RESX + (0 + k / D.DISPLAY_RESX) * D.DISPLAY_RESX = k := by
      rw [Nat.zero_add, Nat.zero_add, Nat.mul_comm]
      exact Nat.mod_add_div k D.DISPLAY_RESX
    rw [hidx, PIXELDATA_d_zero] at hf2
    rw [List.replicate_succ', PIXELDATA_calls_append]
    refine ⟨?_, fun _ => hf2.2⟩
    intro i hi
    rw [hf2.1]
    by_cases hik : i = k
    · rw [hik, Function.update_same]
    · rw [Function.update_noteq hik]
      exact ihk.1 i (by omega)

theorem to_uint16_pred (n : Nat) (h0 : 0 < n) (h : n < 2 ^ 15) :
    to_uint16 ((n : Int) - 1) = n - 1 := by
  have h15 : (2 : Nat) ^ 15 = 32768 := by norm_num
  rw [h15] at h
  unfold to_uint16
  omega

theorem display_clear_DBUF (D : DisplayEnv) (st : DisplayState)
    (hoff : st.BUFFER_OFFSET = ⟨0, 0⟩) :
    (∀ i, i < D.DISPLAY_RESX * D.DISPLAY_RESY → (display_clear D st).DBUF i = 0) ∧
    (display_clear D st).DBUF_DIRTY = D.sectrue := by
  have hrx := D.DISPLAY_RESX_pos
  have hry := D.DISPLAY_RESY_pos
  have hx := to_uint16_pred D.DISPLAY_RESX hrx D.DISPLAY_RESX_lt
  have hy := to_uint16_pred D.DISPLAY_RESY hry D.DISPLAY_RESY_lt
  have hN : 0 < D.DISPLAY_RESX * D.DISPLAY_RESY := Nat.mul_pos hrx hry
  have h := PIXELDATA_calls_zero_fill D
    { (display_set_window 0 0 (to_uint16 ((D.DISPLAY_RESX : Int) - 1))
        (to_uint16 ((D.DISPLAY_RESY : Int) - 1))
        { (display_set_window 0 0 (to_uint16 ((D.MAX_DISPLAY_RESX : Int) - 1))
            (to_uint16 ((D.MAX_DISPLAY_RESY : Int) - 1))
            { st with DISPLAY_ORIENTATION := D.display_orientation st.DISPLAY_ORIENTATION 0 }) with
          bus := (display_set_window 0 0 (to_uint16 ((D.MAX_DISPLAY_RESX : Int) - 1))
            (to_uint16 ((D.MAX_DISPLAY_RESY : Int) - 1))
            { st with DISPLAY_ORIENTATION := D.display_orientation st.DISPLAY_ORIENTATION 0 }).bus ++
            (List.range (D.MAX_DISPLAY_RESX * D.MAX_DISPLAY_RESY)).flatMap
              (fun _ => [DATA 0x00, DATA 0x00]) }) with
      DISPLAY_ORIENTATION := D.display_orientation
        (D.display_orientation st.DISPLAY_ORIENTATION 0) st.DISPLAY_ORIENTATION }
    (by
      have h15 : (2 : Nat) ^ 15 = 32768 := by norm_num
      have hl1 := D.DISPLAY_RESX_lt
      have hl2 := D.DISPLAY_RESY_lt
      rw [h15] at hl1 hl2
      simp only [display_set_window, hoff, Nat.add_zero, hx, hy, Nat.zero_mod]
      rw [Nat.mod_eq_of_lt (by omega), Nat.mod_eq_of_lt (by omega)])
    (D.DISPLAY_RESX * D.DISPLAY_RESY) (Nat.le_refl _)
  exact ⟨h.1, h.2 hN⟩

/-- C25: after `display_clear`, called with zero buffer offset, each of the
`DISPLAY_RESX * DISPLAY_RESY` entries of `DBUF` is 0 and `DBUF_DIRTY` is
`sectrue`, whatever the state was before. -/
theorem C25_display_clear (D : DisplayEnv) (st : DisplayState)
    (hoff : st.BUFFER_OFFSET = ⟨0, 0⟩) :
    (∀ i, i < D.DISPLAY_RESX * D.DISPLAY_RESY → (display_clear D st).DBUF i = 0) ∧
    (display_clear D st).DBUF_DIRTY = D.sectrue :=
  display_clear_DBUF D st hoff

/-- Witness for C25: the 240 × 240 display with a buffer full of the byte 255,
marked clean. -/
theorem C25_display_clear_witness :
    testDisplayState.DBUF 57599 = 255 ∧ testDisplayState.DBUF_DIRTY = testDisplay.secfalse ∧
    (∀ i, i < testDisplay.DISPLAY_RESX * testDisplay.DISPLAY_RESY →
      (display_clear testDisplay testDisplayState).DBUF i = 0) ∧
    (display_clear testDisplay testDisplayState).DBUF_DIRTY = testDisplay.sectrue :=
  ⟨rfl, rfl, C25_display_clear testDisplay testDisplayState rfl⟩

/-! ## Flushing the display buffer -/

theorem perm_range_of_mem_iff (l : List Nat) (n : Nat) (hl : l.Nodup)
    (hm : ∀ a, a ∈ l ↔ a < n) : l.Perm (List.range n) :=
  (List.perm_ext_iff_of_nodup hl (List.nodup_range n)).2
    (fun a => (hm a).trans List.mem_range.symm)

theorem map_sub_range_eq_reverse (n : Nat) :
    (List.range n).map (fun i => n - 1 - i) = (List.range n).reverse := by
  apply List.ext_getElem
  · simp
  · intro i h1 h2
    simp only [List.length_map, List.length_range] at h1
    simp only [List.getElem_map, List.getElem_range, List.getElem_reverse, List.length_range]

theorem mul_add_mod_right (a r j : Nat) : (a * r + j) % r = j % r := by
  rw [Nat.add_comm, Nat.add_mul_mod_self_right]

theorem display_refresh_indices_90_perm (D : DisplayEnv) :
    (display_refresh_indices D 90).Perm (List.range (D.DISPLAY_RESX * D.DISPLAY_RESY)) := by
  have hrx := D.DISPLAY_RESX_pos
  have hry := D.DISPLAY_RESY_pos
  have hdef : display_refresh_indices D 90 = (List.range D.DISPLAY_RESY).flatMap (fun j =>
      (List.range D.DISPLAY_RESX).map
        (fun i => (D.DISPLAY_RESX - 1 - i) * D.DISPLAY_RESY + j)) := by
    simp [display_refresh_indices]
  rw [hdef]
  apply perm_range_of_mem_iff
  · rw [List.nodup_flatMap]
    constructor
    · intro j _
      refine List.Nodup.map_on ?_ (List.nodup_range _)
      intro i hi i2 hi2 heq
      rw [List.mem_range] at hi hi2
      have h1 := Nat.eq_of_mul_eq_mul_right hry (Nat.add_right_cancel heq)
      omega
    · refine List.Pairwise.imp_of_mem ?_ (List.nodup_range D.DISPLAY_RESY)
      intro j j2 hj hj2 hne
      rw [List.mem_range] at hj hj2
      change List.Disjoint _ _
      rw [List.disjoint_iff_ne]
      intro a ha b hb hab
      obtain ⟨i, _, rfl⟩ := List.mem_map.mp ha
      obtain ⟨i2, _, rfl⟩ := List.mem_map.mp hb
      have h1 := congrArg (fun v => v % D.DISPLAY_RESY) hab
      simp only [mul_add_mod_right, Nat.mod_eq_of_lt hj, Nat.mod_eq_of_lt hj2] at h1
      exact hne h1
  · intro a
    rw [List.mem_flatMap]
    constructor
    · rintro ⟨j, hj, ha⟩
      obtain ⟨i, hi, rfl⟩ := List.mem_map.mp ha
      rw [List.mem_range] at hj hi
      have := index_lt_of_coord_lt j (D.DISPLAY_RESX - 1 - i) D.DISPLAY_RESY D.DISPLAY_RESX hj
        (by omega)
      rw [Nat.mul_comm D.DISPLAY_RESX]
      omega
    · intro ha
      have hq : a / D.DISPLAY_RESY < D.DISPLAY_RESX :=
        Nat.div_lt_of_lt_mul (by rw [Nat.mul_comm]; exact ha)
      have hi : D.DISPLAY_RESX - 1 - a / D.DISPLAY_RESY < D.DISPLAY_RESX := by
        generalize a / D.DISPLAY_RESY = q
        omega
      have h1 : D.DISPLAY_RESX - 1 - (D.DISPLAY_RESX - 1 - a / D.DISPLAY_RESY) =
          a / D.DISPLAY_RESY := by
        revert hq
        generalize a / D.DISPLAY_RESY = q
        intro hq
        omega
      refine ⟨a % D.DISPLAY_RESY, List.mem_range.2 (Nat.mod_lt a hry), ?_⟩
      refine List.mem_map.mpr ⟨D.DISPLAY_RESX - 1 - a / D.DISPLAY_RESY, List.mem_range.2 hi, ?_⟩
      rw [h1]
      exact Nat.div_add_mod' a D.DISPLAY_RESY

theorem display_refresh_indices_270_perm (D : DisplayEnv) :
    (display_refresh_indices D 270).Perm (List.range (D.DISPLAY_RESX * D.DISPLAY_RESY)) := by
  have hrx := D.DISPLAY_RESX_pos
  have hry := D.DISPLAY_RESY_pos
  have hdef : display_refresh_indices D 270 = (List.range D.DISPLAY_RESY).flatMap (fun j =>
      (List.range D.DISPLAY_RESX).map
        (fun i => i * D.DISPLAY_RESY + (D.DISPLAY_RESY - 1 - j))) := by
    simp [display_refresh_indices]
  rw [hdef]
  apply perm_range_of_mem_iff
  · rw [List.nodup_flatMap]
    constructor
    · intro j _
      refine List.Nodup.map_on ?_ (List.nodup_range _)
      intro i hi i2 hi2 heq
      exact Nat.eq_of_mul_eq_mul_right hry (Nat.add_right_cancel heq)
    · refine List.Pairwise.imp_of_mem ?_ (List.nodup_range D.DISPLAY_RESY)
      intro j j2 hj hj2 hne
      rw [List.mem_range] at hj hj2
      change List.Disjoint _ _
      rw [List.disjoint_iff_ne]
      intro a ha b hb hab
      obtain ⟨i, _, rfl⟩ := List.mem_map.mp ha
      obtain ⟨i2, _, rfl⟩ := List.mem_map.mp hb
      have h1 := congrArg (fun v => v % D.DISPLAY_RESY) hab
      simp only [mul_add_mod_right] at h1
      rw [Nat.mod_eq_of_lt (show D.DISPLAY_RESY - 1 - j < D.DISPLAY_RESY by omega),
        Nat.mod_eq_of_lt (show D.DISPLAY_RESY - 1 - j2 < D.DISPLAY_RESY by omega)] at h1
      exact hne (by omega)
  · intro a
    rw [List.mem_flatMap]
    constructor
    · rintro ⟨j, hj, ha⟩
      obtain ⟨i, hi, rfl⟩ := List.mem_map.mp ha
      rw [List.mem_range] at hj hi
      have := index_lt_of_coord_lt (D.DISPLAY_RESY - 1 - j) i D.DISPLAY_RESY D.DISPLAY_RESX
        (by omega) hi
      rw [Nat.mul_comm D.DISPLAY_RESX]
      omega
    · intro ha
      have hq : a / D.DISPLAY_RESY < D.DISPLAY_RESX :=
        Nat.div_lt_of_lt_mul (by rw [Nat.mul_comm]; exact ha)
      have hm := Nat.mod_lt a hry
      have hj : D.DISPLAY_RESY - 1 - a % D.DISPLAY_RESY < D.DISPLAY_RESY := by
        generalize a % D.DISPLAY_RESY = r
        omega
      have h1 : D.DISPLAY_RESY - 1 - (D.DISPLAY_RESY - 1 - a % D.DISPLAY_RESY) =
          a % D.DISPLAY_RESY := by
        revert hm
        generalize a % D.DISPLAY_RESY = r
        intro hm
        omega
      refine ⟨D.DISPLAY_RESY - 1 - a % D.DISPLAY_RESY, List.mem_range.2 hj, ?_⟩
      refine List.mem_map.mpr ⟨a / D.DISPLAY_RESY, List.mem_range.2 hq, ?_⟩
      rw [h1]
      exact Nat.div_add_mod' a D.DISPLAY_RESY

theorem display_refresh_indices_perm (D : DisplayEnv) :
    display_refresh_indices D 0 = List.range (D.DISPLAY_RESX * D.DISPLAY_RESY) ∧
    display_refresh_indices D 180 = (List.range (D.DISPLAY_RESX * D.DISPLAY_RESY)).reverse ∧
    ∀ o ∈ [(0 : Int), 90, 180, 270],
      (display_refresh_indices D o).Perm (List.range (D.DISPLAY_RESX * D.DISPLAY_RESY)) := by
  have e0 : display_refresh_indices D 0 = List.range (D.DISPLAY_RESX * D.DISPLAY_RESY) := by
    simp [display_refresh_indices]
  have e180 : display_refresh_indices D 180 =
      (List.range (D.DISPLAY_RESX * D.DISPLAY_RESY)).reverse := by
    have : display_refresh_indices D 180 = (List.range (D.DISPLAY_RESX * D.DISPLAY_RESY)).map
        (fun i => D.DISPLAY_RESX * D.DISPLAY_RESY - 1 - i) := by
      simp [display_refresh_indices]
    rw [this, map_sub_range_eq_reverse]
  refine ⟨e0, e180, ?_⟩
  intro o ho
  simp only [List.mem_cons, List.mem_singleton, List.not_mem_nil, or_false] at ho
  rcases ho with rfl | rfl | rfl | rfl
  · rw [e0]
  · exact display_refresh_indices_90_perm D
  · rw [e180]
    exact List.reverse_perm _
  · exact display_refresh_indices_270_perm D

/-- C26: when `display_refresh` flushes the double buffer (the synchronization
loops have ended, the buffer is dirty and the frame limiter lets the call
through) with the orientation 0, 90, 180 or 270, it sends the 11 bytes that set
the window and then, for each index `o` of a list of `DBUF` indices, in the
order of the list, the two bytes of `rgb332to565lut[DBUF[o]]`.  That list is a
permutation of `0 .. DISPLAY_RESX * DISPLAY_RESY - 1`: every index is in
bounds and no index occurs twice; for the orientation 0 it is the increasing
sequence and for 180 the decreasing one. -/
theorem C26_refresh_indices_permutation (D : DisplayEnv) (st : DisplayState)
    (pins rest : List Bool) (tick : Nat) (hs : display_refresh_sync pins = some rest)
    (hd : st.DBUF_DIRTY = D.sectrue) (ht : ¬ tick % 2 ^ 32 < (st.t0 + 16) % 2 ^ 32)
    (ho : st.DISPLAY_ORIENTATION ∈ [(0 : Int), 90, 180, 270]) :
    (∃ window : List BusWrite, window.length = 11 ∧
      display_refresh D pins tick st =
        some { st with
          t0 := tick % 2 ^ 32
          bus := st.bus ++ window ++
            (display_refresh_indices D st.DISPLAY_ORIENTATION).flatMap (fun o =>
              [DATA (rgb332to565lut.getD (st.DBUF o).val 0 >>> 8),
                DATA (rgb332to565lut.getD (st.DBUF o).val 0 &&& 0xFF)])
          DBUF_DIRTY := D.secfalse }) ∧
    (display_refresh_indices D st.DISPLAY_ORIENTATION).Perm
      (List.range (D.DISPLAY_RESX * D.DISPLAY_RESY)) ∧
    (∀ o ∈ display_refresh_indices D st.DISPLAY_ORIENTATION,
      o < D.DISPLAY_RESX * D.DISPLAY_RESY) ∧
    (display_refresh_indices D st.DISPLAY_ORIENTATION).Nodup ∧
    (st.DISPLAY_ORIENTATION = 0 →
      display_refresh_indices D st.DISPLAY_ORIENTATION =
        List.range (D.DISPLAY_RESX * D.DISPLAY_RESY)) ∧
    (st.DISPLAY_ORIENTATION = 180 →
      display_refresh_indices D st.DISPLAY_ORIENTATION =
        (List.range (D.DISPLAY_RESX * D.DISPLAY_RESY)).reverse) := by
  have hp := (display_refresh_indices_perm D).2.2 st.DISPLAY_ORIENTATION ho
  refine ⟨⟨[CMD 0x2A, DATA (0 >>> 8), DATA (0 &&& 0xFF),
      DATA (to_uint16 ((D.DISPLAY_RESX : Int) - 1) >>> 8),
      DATA (to_uint16 ((D.DISPLAY_RESX : Int) - 1) &&& 0xFF), CMD 0x2B, DATA (0 >>> 8),
      DATA (0 &&& 0xFF), DATA (to_uint16 ((D.DISPLAY_RESY : Int) - 1) >>> 8),
      DATA (to_uint16 ((D.DISPLAY_RESY : Int) - 1) &&& 0xFF), CMD 0x2C], rfl, ?_⟩,
    hp, ?_, ?_, ?_, ?_⟩
  · simp only [display_refresh, hs, hd, ne_eq, not_true_eq_false, if_false, ht]
  · intro o hmem
    exact List.mem_range.mp ((List.Perm.mem_iff hp).mp hmem)
  · exact (List.Perm.nodup_iff hp).mpr (List.nodup_range _)
  · intro h0
    rw [h0]
    exact (display_refresh_indices_perm D).1
  · intro h180
    rw [h180]
    exact (display_refresh_indices_perm D).2.1

/-- Witness for C26: a dirty buffer on a 240 × 240 display in the orientation
0, flushed at tick 100. -/
theorem C26_refresh_indices_permutation_witness :
    display_refresh_sync [true, false] = some [] ∧
    ({ testDisplayState with DBUF_DIRTY := testDisplay.sectrue } : DisplayState).DBUF_DIRTY =
      testDisplay.sectrue ∧
    ¬ 100 % 2 ^ 32 <
      (({ testDisplayState with DBUF_DIRTY := testDisplay.sectrue } : DisplayState).t0 + 16) %
        2 ^ 32 ∧
    (∃ window : List BusWrite, window.length = 11 ∧
      display_refresh testDisplay [true, false] 100
          { testDisplayState with DBUF_DIRTY := testDisplay.sectrue } =
        some { ({ testDisplayState with DBUF_DIRTY := testDisplay.sectrue } : DisplayState) with
          t0 := 100 % 2 ^ 32
          bus := ({ testDisplayState with DBUF_DIRTY := testDisplay.sectrue } : DisplayState).bus ++
            window ++
            (display_refresh_indices testDisplay
              ({ testDisplayState with DBUF_DIRTY := testDisplay.sectrue } :
                DisplayState).DISPLAY_ORIENTATION).flatMap (fun o =>
              [DATA (rgb332to565lut.getD
                  (({ testDisplayState with DBUF_DIRTY := testDisplay.sectrue } :
                    DisplayState).DBUF o).val 0 >>> 8),
                DATA (rgb332to565lut.getD
                  (({ testDisplayState with DBUF_DIRTY := testDisplay.sectrue } :
                    DisplayState).DBUF o).val 0 &&& 0xFF)])
          DBUF_DIRTY := testDisplay.secfalse }) ∧
    (display_refresh_indices testDisplay
      ({ testDisplayState with DBUF_DIRTY := testDisplay.sectrue } :
        DisplayState).DISPLAY_ORIENTATION).Nodup :=
  ⟨rfl, rfl, by decide,
   (C26_refresh_indices_permutation testDisplay
      { testDisplayState with DBUF_DIRTY := testDisplay.sectrue } [true, false] [] 100 rfl rfl
      (by decide) (by decide)).1,
   (C26_refresh_indices_permutation testDisplay
      { testDisplayState with DBUF_DIRTY := testDisplay.sectrue } [true, false] [] 100 rfl rfl
      (by decide) (by decide)).2.2.2.1⟩

/-! ## The frame limiter -/

theorem display_refresh_flush (D : DisplayEnv) (st : DisplayState) (pins rest : List Bool)
    (tick : Nat) (hs : display_refresh_sync pins = some rest) (hd : st.DBUF_DIRTY = D.sectrue)
    (ht : ¬ tick % 2 ^ 32 < (st.t0 + 16) % 2 ^ 32) :
    ∃ sent : List BusWrite, display_refresh D pins tick st =
      some { st with t0 := tick % 2 ^ 32, bus := st.bus ++ CMD 0x2A :: sent,
                     DBUF_DIRTY := D.secfalse } := by
  refine ⟨[DATA (0 >>> 8), DATA (0 &&& 0xFF),
      DATA (to_uint16 ((D.DISPLAY_RESX : Int) - 1) >>> 8),
      DATA (to_uint16 ((D.DISPLAY_RESX : Int) - 1) &&& 0xFF), CMD 0x2B, DATA (0 >>> 8),
      DATA (0 &&& 0xFF), DATA (to_uint16 ((D.DISPLAY_RESY : Int) - 1) >>> 8),
      DATA (to_uint16 ((D.DISPLAY_RESY : Int) - 1) &&& 0xFF), CMD 0x2C] ++
    (display_refresh_indices D st.DISPLAY_ORIENTATION).flatMap (fun o =>
      [DATA (rgb332to565lut.getD (st.DBUF o).val 0 >>> 8),
        DATA (rgb332to565lut.getD (st.DBUF o).val 0 &&& 0xFF)]), ?_⟩
  simp only [display_refresh, hs, hd, ne_eq, not_true_eq_false, if_false, ht, List.append_assoc,
    List.cons_append, List.nil_append]

/-- C27, evaluated on the code: a call of `display_refresh` at tick `2^32 - 10`
with a dirty buffer (and `t0 = 0`) flushes and leaves `t0 = 2^32 - 10`; once the
buffer is dirty again, the call at tick `2^32 - 5`, five ticks later, flushes
too, because `t0 + 16` is computed in `uint32_t` and is 6. -/
theorem C27_frame_limiter_overflow (D : DisplayEnv) (st : DisplayState) :
    ∃ (st1 st2 : DisplayState) (sent1 sent2 : List BusWrite),
      display_refresh D [true, false] (2 ^ 32 - 10)
        { st with DBUF_DIRTY := D.sectrue, t0 := 0 } = some st1 ∧
      st1.DBUF_DIRTY = D.secfalse ∧ st1.t0 = 2 ^ 32 - 10 ∧
      st1.bus = st.bus ++ CMD 0x2A :: sent1 ∧
      display_refresh D [true, false] (2 ^ 32 - 5) { st1 with DBUF_DIRTY := D.sectrue } =
        some st2 ∧
      st2.DBUF_DIRTY = D.secfalse ∧ st2.t0 = 2 ^ 32 - 5 ∧
      st2.bus = st1.bus ++ CMD 0x2A :: sent2 ∧
      (2 ^ 32 - 5 : Nat) < (2 ^ 32 - 10) + 16 ∧ ((2 ^ 32 - 10) + 16) % 2 ^ 32 = 6 := by
  obtain ⟨sent1, h1⟩ := display_refresh_flush D { st with DBUF_DIRTY := D.sectrue, t0 := 0 }
    [true, false] [] (2 ^ 32 - 10) rfl rfl (by norm_num)
  obtain ⟨sent2, h2⟩ := display_refresh_flush D
    { st with DBUF_DIRTY := D.sectrue, t0 := (2 ^ 32 - 10) % 2 ^ 32,
              bus := st.bus ++ CMD 0x2A :: sent1 }
    [true, false] [] (2 ^ 32 - 5) rfl rfl (by norm_num)
  exact ⟨_, _, sent1, sent2, h1, rfl, by norm_num, rfl, h2, rfl, by norm_num, rfl, by norm_num,
    by norm_num⟩

/-! ## Reading from the SBU UART -/

/-- C28, evaluated on the code: `SBU.read(buffer, 5)` on a 3-byte buffer makes
one call of `HAL_UART_Receive`, for 3 bytes and with the timeout 10000, not 5,
whatever the UART answers; the first argument stands for the SBU object. -/
theorem C28_read_timeout_ignored (E : Env Pt) (U : UartEnv) :
    ((mod_trezorio_SBU_read_obj E U [.none, .ref 0, .smallInt 5]).run
      (⟨[Cell.bytearray [0, 0, 0]], [], 0⟩ : State Pt)).2.calls =
      [.HAL_UART_Receive 3 10000] ∧
    to_uint32 5 = 5 ∧ (5 : Nat) ≠ 10000 := by
  refine ⟨?_, by decide, by decide⟩
  have hbuf := run_mp_get_buffer_raise_bytearray (⟨[Cell.bytearray [0, 0, 0]], [], 0⟩ : State Pt)
    0 [0, 0, 0] .MP_BUFFER_WRITE rfl
  have h16 : to_uint16 3 = 3 := by decide
  simp [mod_trezorio_SBU_read_obj, MP_DEFINE_CONST_FUN_OBJ_VAR_BETWEEN,
    mod_trezorio_SBU_read, argAt, hbuf, sbu_read,
    mp_obj_get_int, ensure, mp_buffer_info_t.len, MP_OBJ_IS_SMALL_INT]
  rw [h16]
  by_cases h1 : U.HAL_OK = (U.HAL_UART_Receive 3 10000).1 <;>
    by_cases h2 : U.HAL_TIMEOUT = (U.HAL_UART_Receive 3 10000).1 <;>
    simp [h1, h2, write_buffer_state_calls]

/-! ## Constant-time comparison of buffers -/

/-- C30: `mp_obj_get_uint64` returns `v mod 2^64` for every integer `v`, held
as a small int or as a big int, without raising and without changing the
state; so `xmr_gen_c` commits to `v mod 2^64`, `gen_range_proof` (here with a
proof buffer of at least 6176 bytes) returns and every returning call passes
`v mod 2^64` to the generator, and the scalar constructor and `init256_modm`
build the scalar `v mod 2^64`.  `False` gives 0 and `True` gives 1; an argument
that is not an integer raises `TypeError`, and an integer never raises. -/
theorem C30_get_uint64_wraps [AddCommGroup Pt] (E : Env Pt) (s : State Pt) :
    (∀ (v : Int) (amt : Obj), amt = .smallInt v ∨ amt = .int v →
      (mp_obj_get_uint64 amt : M Pt Nat).run s = (.ok (v % 2 ^ 64).toNat, s) ∧
      (∀ (m vm : Nat), s.heap[m]? = some (.scalar vm) →
        (mod_trezorcrypto_monero_xmr_gen_c_obj E [.ref m, amt]).run s =
          (.ok (.ref s.heap.length),
            { s with heap := s.heap ++ [.ge25519 (xmr_gen_c E vm (v % 2 ^ 64).toNat)] })) ∧
      (∀ (b : Nat) (d0 : List Byte), E.sizeof_xmr_range_sig_t = 6176 →
        s.heap[b]? = some (.bytearray d0) → 6176 ≤ d0.length →
        ∃ res s1, (mod_trezorcrypto_monero_gen_range_proof_obj E [.ref b, amt]).run s =
          (.ok res, s1)) ∧
      (∀ (args : List Obj) (res : Obj) (s1 : State Pt), argAt args 1 = amt →
        (mod_trezorcrypto_monero_gen_range_proof_obj E args).run s = (.ok res, s1) →
        ((∃ lm, s1.calls = s.calls ++ [.xmr_gen_range_sig (v % 2 ^ 64).toNat lm]) ∨
         (∃ lm ai al,
           s1.calls = s.calls ++ [.xmr_gen_range_sig_ex (v % 2 ^ 64).toNat lm ai al]))) ∧
      (mod_trezorcrypto_monero_bignum256modm_make_new 0 [amt]).run s =
        (.ok (.ref s.heap.length),
          { s with heap := s.heap ++ [.scalar (set256_modm (v % 2 ^ 64).toNat)] }) ∧
      (mod_trezorcrypto_monero_init256_modm_obj [amt]).run s =
        (.ok (.ref s.heap.length),
          { s with heap := s.heap ++ [.scalar (set256_modm (v % 2 ^ 64).toNat)] })) ∧
    (mp_obj_get_uint64 (.bool false) : M Pt Nat).run s = (.ok 0, s) ∧
    (mp_obj_get_uint64 (.bool true) : M Pt Nat).run s = (.ok 1, s) ∧
    (∀ o : Obj, mp_obj_is_integer o = false →
      (mp_obj_get_uint64 o : M Pt Nat).run s =
        (.error (.TypeError "can not convert to int"), s)) ∧
    (∀ o : Obj, mp_obj_is_integer o = true →
      ∃ w, (mp_obj_get_uint64 o : M Pt Nat).run s = (.ok w, s)) := by
  refine ⟨?_, rfl, rfl, ?_, fun o h => run_mp_obj_get_uint64_integer o h s⟩
  · intro v amt hamt
    have hg : ∀ t : State Pt,
        (mp_obj_get_uint64 amt : M Pt Nat).run t = (.ok (v % 2 ^ 64).toNat, t) :=
      fun t => mp_obj_get_uint64_of_int amt v hamt t
    have hint : mp_obj_is_integer amt = true := by rcases hamt with rfl | rfl <;> rfl
    refine ⟨hg s, ?_, ?_, ?_, ?_, ?_⟩
    · intro m vm hm
      rw [run_xmr_gen_c_int E s m vm amt v hm hamt]
      rfl
    · intro b d0 hsz hb hlen
      exact gen_range_proof_2_args_returns E s b d0 amt hsz hb hlen hint
    · intro args res s1 ha h
      obtain ⟨w, hw, hc⟩ := gen_range_proof_calls E s s1 args res h
      rw [ha, hg s] at hw
      have hwv : (v % 2 ^ 64).toNat = w := by
        have := congrArg Prod.fst hw
        simpa using this
      rw [hwv]
      exact hc
    · rcases hamt with rfl | rfl <;>
      simp [mod_trezorcrypto_monero_bignum256modm_make_new, mp_arg_check_num, argAt,
        MP_OBJ_IS_SCALAR, deref, MP_OBJ_IS_STR_OR_BYTES, mp_obj_is_integer, hg,
        set_MP_OBJ_SCALAR]
    · exact run_init256_modm_integer s amt _ hint hg
  · intro o ho
    cases o with
    | bool b => cases ho
    | smallInt v => cases ho
    | int v => cases ho
    | null => rfl
    | none => rfl
    | bytes d => rfl
    | ref a => rfl

/-- Witness for C30: the small int `-1` is read as `2^64 - 1`. -/
theorem C30_get_uint64_wraps_witness :
    (Obj.smallInt (-1) = .smallInt (-1) ∨ Obj.smallInt (-1) = .int (-1)) ∧
    (mp_obj_get_uint64 (.smallInt (-1)) : M Int Nat).run testState =
      (.ok 18446744073709551615, testState) :=
  ⟨Or.inl rfl, ((C30_get_uint64_wraps (testEnv 32) testState).1 (-1) (.smallInt (-1))
    (Or.inl rfl)).1⟩

end TrezorCore
